import Mathlib

/-!
grate / libcgc: the vertex-shader instruction codec and shader container parser

A shallow embedding of `src/libcgc/shader.c` and `include/libcgc.h`:

* the 128-bit instruction bit container used by the codec,
* `vs_emit_instr` (the encoder) and `vertex_shader_disassemble` (the decoder),
* `shader_parse_symbols` and `cgc_shader_get_symbol_by_kind`.

C `int` is embedded as `Int`, `unsigned int` / `uint32_t` as `Nat` with an
explicit reduction modulo `2 ^ 32` where a value is converted.
-/

namespace Grate

/-! ## The bit container -/

/-- Modelled from the spec: `struct instruction` and its operations live in
`libcgc-private.h` / `instruction.c`, which are not part of the sources. The
container is a sequence of 32-bit words; bit index `b` lives in word `b / 32`
at bit position `b % 32` of that word. -/
structure instruction where
  bits : List Nat
deriving DecidableEq, Repr

/-- Modelled from the spec: part of the bit container of the missing
`instruction.c`: one 32-bit word with bit `p` forced to the value `b`. -/
def word_with_bit (w p : Nat) (b : Bool) : Nat :=
  if b then w ||| 2 ^ p else w ^^^ (w &&& 2 ^ p)

/-- Modelled from the spec: part of the bit container of the missing
`instruction.c`: the value of bit `pos`, read from word `pos / 32` at bit
position `pos % 32`. -/
def bit_at (inst : instruction) (pos : Nat) : Bool :=
  (inst.bits.getD (pos / 32) 0).testBit (pos % 32)

/-- Modelled from the spec: part of the bit container of the missing
`instruction.c`: the container with bit `pos` forced to `b`, every other bit
untouched. -/
def with_bit (inst : instruction) (pos : Nat) (b : Bool) : instruction :=
  ⟨inst.bits.set (pos / 32) (word_with_bit (inst.bits.getD (pos / 32) 0) (pos % 32) b)⟩

/-- Modelled from the spec: the loop of `instruction_extract` of the missing
`instruction.c`: bits `lo .. lo + n - 1` of the container, right-aligned, so that
source bit `lo + k` becomes bit `k` of the result. -/
def extract_bits (inst : instruction) (lo : Nat) : Nat → Nat
  | 0 => 0
  | n + 1 => (if bit_at inst (lo + n) then 2 ^ n else 0) + extract_bits inst lo n

/-- Modelled from the spec: the loop of `instruction_insert` of the missing
`instruction.c`: writes the low `n` bits of `value` to bits `lo .. lo + n - 1`,
one bit at a time, so that a range may span several words. -/
def insert_bits (lo value : Nat) : Nat → instruction → instruction
  | 0, inst => inst
  | n + 1, inst => with_bit (insert_bits lo value n inst) (lo + n) (value.testBit n)

/-- Modelled from the spec: `instruction_create(count)` of the missing
`instruction.c`: a zero-initialised container of `count` words, or `NULL`
(`none`) when the allocation fails; `mem_ok` is the allocator's answer. -/
def instruction_create (mem_ok : Bool) (count : Nat) : Option instruction :=
  if mem_ok then some ⟨List.replicate count 0⟩ else none

/-- Modelled from the spec: `instruction_create_from_words(words, count)` of the
missing `instruction.c`. The words of the stream are given most significant
first, so that the first word holds bits `32 * (count - 1) ..` and the last word
holds bits `0 .. 31`. Each word is a `uint32_t`. -/
def instruction_create_from_words (words : List Nat) (count : Nat) : instruction :=
  ⟨((words.take count).map (fun w => w % 2 ^ 32)).reverse⟩

/-- Modelled from the spec: `instruction_extract(inst, lo, hi)` of the missing
`instruction.c`: the bits of the inclusive range `[lo, hi]`, right-aligned, bit
`hi` most significant. A range with `hi < lo` or reaching past the container is a
contract violation; the model answers `0` there. -/
def instruction_extract (inst : instruction) (lo hi : Nat) : Nat :=
  if lo ≤ hi ∧ hi < 32 * inst.bits.length then extract_bits inst lo (hi - lo + 1) else 0

/-- Modelled from the spec: `instruction_insert(inst, lo, hi, value)` of the
missing `instruction.c`: writes the low `hi - lo + 1` bits of `value` into
`[lo, hi]` and leaves every other bit untouched. A range with `hi < lo` or
reaching past the container is a contract violation; the model leaves the
container as it is there. -/
def instruction_insert (inst : instruction) (lo hi value : Nat) : instruction :=
  if lo ≤ hi ∧ hi < 32 * inst.bits.length then insert_bits lo value (hi - lo + 1) inst else inst

/-- Modelled from the spec: `instruction_get_bit(inst, pos)` of the missing
`instruction.c`, the single-bit case of `instruction_extract`. -/
def instruction_get_bit (inst : instruction) (pos : Nat) : Nat :=
  instruction_extract inst pos pos

/-- Modelled from the spec: `instruction_set_bit(inst, pos, value)` of the
missing `instruction.c`, the single-bit case of `instruction_insert`. -/
def instruction_set_bit (inst : instruction) (pos value : Nat) : instruction :=
  instruction_insert inst pos pos value

/-- A container of the size the codec uses: four words, each a `uint32_t`. -/
def instruction.wf (inst : instruction) : Prop :=
  inst.bits.length = 4 ∧ ∀ w ∈ inst.bits, w < 2 ^ 32


/-! ## The encoder: `vs_emit_instr` -/

/-- The C conversion of an `int` to `uint32_t`. -/
def u32 (x : Int) : Nat := (x % 4294967296).toNat

/-- The C conversion of an unsigned value to `uint8_t`. -/
def u8 (x : Nat) : Nat := x % 256

/-- The register types of `enum vs_reg_type` (`libcgc.h`). -/
inductive vs_reg_type where
  | VS_REG_TYPE_INVALID
  | VS_REG_TYPE_TEMP
  | VS_REG_TYPE_ATTR
  | VS_REG_TYPE_CONST
  | VS_REG_TYPE_VAR
deriving DecidableEq, Repr

open vs_reg_type

/-- The numeric value of each `enum vs_reg_type` constant. -/
def vs_reg_type.val : vs_reg_type → Nat
  | VS_REG_TYPE_INVALID => 0
  | VS_REG_TYPE_TEMP => 1
  | VS_REG_TYPE_ATTR => 2
  | VS_REG_TYPE_CONST => 3
  | VS_REG_TYPE_VAR => 4

/-- The destination descriptor `struct vs_dst` (`libcgc.h`). -/
structure vs_dst where
  reg : Int
  type : vs_reg_type
  mask : Nat
  sat : Int
deriving DecidableEq, Repr

/-- The source descriptor `struct vs_src` (`libcgc.h`). -/
structure vs_src where
  reg : Int
  type : vs_reg_type
  swz : Nat
  neg : Int
  abs : Int
deriving DecidableEq, Repr

/-- Modelled from the spec: `struct vs_instr` is used by `vs_emit_instr` but is
declared in no source file. It carries one vector destination and opcode, one
scalar destination and opcode, and three source slots (`src[0..2]`); the
fields are those `vs_emit_instr` reads. -/
structure vs_instr where
  vop : Nat
  sop : Nat
  vdst : vs_dst
  sdst : vs_dst
  src0 : vs_src
  src1 : vs_src
  src2 : vs_src
deriving DecidableEq, Repr

/-- The array access `instr->src[i]` for `i` in `0..2`. -/
def vs_instr.src (instr : vs_instr) (i : Nat) : vs_src :=
  match i with
  | 0 => instr.src0
  | 1 => instr.src1
  | _ => instr.src2

/-- The assertions of `vs_emit_instr`, in source order. -/
inductive emit_error where
  | varying_write_mismatch
  | saturate_mismatch
  | cfetch_conflict
  | afetch_conflict
  | varying_source
deriving DecidableEq, Repr

/-- How a call of `vs_emit_instr` ends: it returns after writing the stream,
returns early because `instruction_create` gave `NULL`, or stops at an
assertion. -/
inductive emit_outcome where
  | emitted
  | no_instruction
  | assertion_failed (e : emit_error)
deriving DecidableEq, Repr

/-- The outcome of a call together with the caller's `stream[4]` after it. -/
structure emit_result where
  outcome : emit_outcome
  stream : List Nat
deriving DecidableEq, Repr

/-- The local variables of `vs_emit_instr`. -/
structure emit_state where
  inst : instruction
  cfetch : Int
  afetch : Int
  vwrite : Int
  sat : Int
deriving DecidableEq, Repr

/-- The "abs-flags" loop of `vs_emit_instr`, `i = 0, 1, 2`. -/
def emit_abs (instr : vs_instr) (inst : instruction) : instruction :=
  let inst := instruction_set_bit inst (117 + 0) (u32 (instr.src 0).abs)
  let inst := instruction_set_bit inst (117 + 1) (u32 (instr.src 1).abs)
  instruction_set_bit inst (117 + 2) (u32 (instr.src 2).abs)

/-- The hard-coded predicate fields of `vs_emit_instr`. -/
def emit_pred (inst : instruction) : instruction :=
  let inst := instruction_set_bit inst 108 1
  let inst := instruction_set_bit inst 107 1
  let inst := instruction_set_bit inst 106 1
  instruction_insert inst 98 105 ((0 <<< 6) ||| (1 <<< 4) ||| (2 <<< 2) ||| 3)

/-- The bit fields written by the "scalar-op" block of `vs_emit_instr`. -/
def scalar_bits (instr : vs_instr) (inst : instruction) : instruction :=
  let inst := instruction_insert inst 91 94 instr.sop
  let inst := instruction_insert inst 7 12
    (if instr.sdst.type = VS_REG_TYPE_TEMP then u32 instr.sdst.reg else 63)
  instruction_insert inst 17 20 instr.sdst.mask

/-- The "scalar-op" block of `vs_emit_instr`. -/
def emit_scalar (instr : vs_instr) (st : emit_state) : emit_state :=
  if instr.sdst.mask ≠ 0 then
    { st with
      inst := scalar_bits instr st.inst
      vwrite := if instr.vdst.type = VS_REG_TYPE_VAR then instr.vdst.reg else st.vwrite
      sat := instr.sdst.sat }
  else st

/-- The bit fields written by the "vector-op" block of `vs_emit_instr`. -/
def vector_bits (instr : vs_instr) (inst : instruction) : instruction :=
  let inst := instruction_insert inst 86 90 instr.vop
  let inst := instruction_set_bit inst 126
    (if instr.vdst.type = VS_REG_TYPE_VAR then 1 else 0)
  let inst := instruction_insert inst 111 116
    (if instr.vdst.type = VS_REG_TYPE_TEMP then u32 instr.vdst.reg else 63)
  instruction_insert inst 13 16 instr.vdst.mask

/-- The "vector-op" block of `vs_emit_instr`, with its two assertions. -/
def emit_vector (instr : vs_instr) (st : emit_state) : Except emit_error emit_state :=
  if instr.vdst.mask ≠ 0 then
    if instr.sdst.type = VS_REG_TYPE_VAR ∧ ¬ (st.vwrite < 0 ∨ st.vwrite = instr.vdst.sat) then
      .error .varying_write_mismatch
    else if ¬ (st.sat < 0 ∨ st.sat = instr.vdst.sat) then
      .error .saturate_mismatch
    else
      .ok { st with
            inst := vector_bits instr st.inst
            vwrite := if instr.sdst.type = VS_REG_TYPE_VAR then instr.sdst.reg else st.vwrite
            sat := instr.vdst.sat }
  else .ok st

/-- The saturate bit and the varying field, written after both op blocks. -/
def sat_varying_bits (instr : vs_instr) (sat : Int) (inst : instruction) : instruction :=
  let inst := instruction_set_bit inst 122 (u32 sat)
  instruction_insert inst 2 5
    (if instr.vdst.type = VS_REG_TYPE_VAR then u32 instr.vdst.reg else 0)

/-- The two writes between the op blocks and the source loop. -/
def emit_sat_varying (instr : vs_instr) (st : emit_state) : emit_state :=
  { st with inst := sat_varying_bits instr st.sat st.inst }

/-- The register index written to the slot's own register field: `0` for a
constant or attribute source, whose index goes to the shared fetch field. -/
def slot_reg (src : vs_src) : Int :=
  if src.type = VS_REG_TYPE_CONST ∨ src.type = VS_REG_TYPE_ATTR then 0 else src.reg

/-- The bit fields written by iteration `i` of the "source registers" loop. -/
def src_bits (i : Nat) (src : vs_src) (inst : instruction) : instruction :=
  let offs := 55 - 17 * i
  let inst := instruction_set_bit inst (offs + 16) (u32 src.neg)
  let inst := instruction_insert inst (offs + 8) (offs + 15) src.swz
  let inst := instruction_insert inst (offs + 2) (offs + 7) (u32 (slot_reg src))
  instruction_insert inst offs (offs + 1)
    (if src.type ≠ VS_REG_TYPE_INVALID then src.type.val else VS_REG_TYPE_ATTR.val)

/-- One iteration of the "source registers" loop of `vs_emit_instr`, with its
three assertions. -/
def emit_src (i : Nat) (src : vs_src) (st : emit_state) : Except emit_error emit_state :=
  if src.type = VS_REG_TYPE_CONST ∧ ¬ (st.cfetch < 0 ∨ st.cfetch = src.reg) then
    .error .cfetch_conflict
  else if src.type = VS_REG_TYPE_ATTR ∧ ¬ (st.afetch < 0 ∨ st.afetch = src.reg) then
    .error .afetch_conflict
  else if src.type = VS_REG_TYPE_VAR then
    .error .varying_source
  else
    .ok { st with
          inst := src_bits i src st.inst
          cfetch := if src.type = VS_REG_TYPE_CONST then src.reg else st.cfetch
          afetch := if src.type = VS_REG_TYPE_ATTR then src.reg else st.afetch }

/-- The shared fetch fields and the last-instruction bit, written after the
source loop from the final `cfetch` and `afetch`. -/
def fetch_last_bits (last cfetch afetch : Int) (inst : instruction) : instruction :=
  let inst := instruction_insert inst 76 83 (u32 (if cfetch ≥ 0 then cfetch else 0))
  let inst := instruction_insert inst 72 75 (u32 (if afetch ≥ 0 then afetch else 0))
  instruction_set_bit inst 0 (u32 last)

/-- The end of `vs_emit_instr` before the stream is written. -/
def emit_fetch_last (last : Int) (st : emit_state) : instruction :=
  fetch_last_bits last st.cfetch st.afetch st.inst

/-- Everything `vs_emit_instr` does to its working instruction `inst`, from the
abs flags to the last-instruction bit; an assertion that fails ends it. -/
def emit_build (instr : vs_instr) (last : Int) (inst : instruction) :
    Except emit_error instruction := do
  let inst := emit_abs instr inst
  let inst := emit_pred inst
  let st : emit_state := { inst := inst, cfetch := -1, afetch := -1, vwrite := -1, sat := -1 }
  let st := emit_scalar instr st
  let st ← emit_vector instr st
  let st := emit_sat_varying instr st
  let st ← emit_src 0 (instr.src 0) st
  let st ← emit_src 1 (instr.src 1) st
  let st ← emit_src 2 (instr.src 2) st
  pure (emit_fetch_last last st)

/-- The final loop of `vs_emit_instr`: `stream[3 - i] = bits 32 i .. 32 i + 31`
for `i = 0, 1, 2, 3`. -/
def emit_store (inst : instruction) (stream : List Nat) : List Nat :=
  let stream := stream.set (3 - 0) (instruction_extract inst (32 * 0) (32 * 0 + 31))
  let stream := stream.set (3 - 1) (instruction_extract inst (32 * 1) (32 * 1 + 31))
  let stream := stream.set (3 - 2) (instruction_extract inst (32 * 2) (32 * 2 + 31))
  stream.set (3 - 3) (instruction_extract inst (32 * 3) (32 * 3 + 31))

/-- The function `vs_emit_instr(stream, instr, last)` of `shader.c`. `mem_ok`
tells whether `instruction_create(4)` succeeds; `stream` is the caller's array
before the call and the result carries it as it is after the call. -/
def vs_emit_instr (mem_ok : Bool) (stream : List Nat) (instr : vs_instr) (last : Int) :
    emit_result :=
  match instruction_create mem_ok 4 with
  | none => { outcome := .no_instruction, stream := stream }
  | some inst =>
    match emit_build instr last inst with
    | .error e => { outcome := .assertion_failed e, stream := stream }
    | .ok inst => { outcome := .emitted, stream := emit_store inst stream }

/-! ## The decoder: `vertex_shader_disassemble` -/

/-- The table `swizzle[4]` of `shader.c`. -/
def swizzle : List Char := ['x', 'y', 'z', 'w']

/-- The string literal `"?rvc"` indexed by the register type field. -/
def reg_type_letters : List Char := ['?', 'r', 'v', 'c']

/-- The conversion `%x`: lower-case hexadecimal, no padding. -/
def hex (n : Nat) : String := String.mk (Nat.toDigits 16 n)

/-- The conversions `%08x` and `%02x`: hexadecimal, zero-padded to `width`. -/
def hex_pad (width n : Nat) : String :=
  String.mk (List.replicate (width - (Nat.toDigits 16 n).length) '0' ++ Nat.toDigits 16 n)

/-- The conversion `%d` of a small unsigned value. -/
def dec (n : Nat) : String := toString n

/-- The `switch (op)` of the vector op: the mnemonic printed and the flags `rb`
and `rc` (whether source slots 1 and 2 are printed) after it. -/
def vec_opcode (op : Nat) : String × Bool × Bool :=
  if op = 0x1 then ("mov", false, false)
  else if op = 0x2 then ("mul", true, false)
  else if op = 0x3 then ("add", false, true)
  else if op = 0x4 then ("mad", true, true)
  else if op = 0x5 then ("dp3", true, false)
  else if op = 0x7 then ("dp4", true, false)
  else if op = 0x9 then ("min", true, false)
  else if op = 0xa then ("max", true, false)
  else if op = 0xb then ("slt", true, false)
  else if op = 0xc then ("sge", true, false)
  else if op = 0xd then ("arl", false, false)
  else if op = 0xe then ("frc", false, false)
  else if op = 0xf then ("flr", false, false)
  else if op = 0x10 then ("seq", true, false)
  else if op = 0x12 then ("sgt", true, false)
  else if op = 0x13 then ("sle", true, false)
  else if op = 0x14 then ("sne", true, false)
  else ("unknown(" ++ hex op ++ ")", true, true)

/-- The `switch (op)` of the scalar op: the mnemonic printed. -/
def scalar_opcode (op : Nat) : String :=
  if op = 0x0 then "cos"
  else if op = 0x1 then "mov"
  else if op = 0x2 then "rcp"
  else if op = 0x4 then "rsq"
  else if op = 0xd then "lg2"
  else if op = 0xe then "ex2"
  else if op = 0xf then "sin"
  else "unknown(" ++ hex op ++ ")"

/-- The predicate prefix `"(%sp0.%c%c%c%c) "`, printed when `pred` is set. -/
def pred_text (pred pneg psx psy psz psw : Nat) : Option String :=
  if pred ≠ 0 then do
    let cx ← swizzle[psx]?
    let cy ← swizzle[psy]?
    let cz ← swizzle[psz]?
    let cw ← swizzle[psw]?
    pure ("(" ++ (if pneg ≠ 0 then "!" else "") ++ "p0." ++ String.mk [cx, cy, cz, cw] ++ ") ")
  else pure ""

/-- The destination, `_sat` suffix and write-mask letters of an op. -/
def dst_text (write_varying write_pred varying reg sat wx wy wz ww : Nat) : String :=
  (if write_varying ≠ 0 ∧ reg = 0x3f then " o" ++ dec varying
   else if write_pred ≠ 0 ∧ reg = 0x3f then " p0"
   else " r" ++ dec reg) ++
  (if sat ≠ 0 then "_sat" else "") ++
  "." ++ (if wx ≠ 0 then "x" else "") ++ (if wy ≠ 0 then "y" else "") ++
  (if wz ≠ 0 then "z" else "") ++ (if ww ≠ 0 then "w" else "")

/-- The register index printed for a source: the shared attribute or constant
fetch index for types 2 and 3, the slot's own register field otherwise. -/
def src_reg (type reg attrib constant : Nat) : Nat :=
  if type = 2 then attrib else if type = 3 then constant else reg

/-- A source operand of the vector op: `", %s%s%c%d.%c%c%c%c%s"`. -/
def vec_src_text (neg sx sy sz sw abs reg type attrib constant : Nat) : Option String := do
  let t ← reg_type_letters[type]?
  let cx ← swizzle[sx]?
  let cy ← swizzle[sy]?
  let cz ← swizzle[sz]?
  let cw ← swizzle[sw]?
  pure (", " ++ (if neg ≠ 0 then "-" else "") ++ (if abs ≠ 0 then "abs(" else "") ++
    String.mk [t] ++ dec (src_reg type reg attrib constant) ++ "." ++
    String.mk [cx, cy, cz, cw] ++ (if abs ≠ 0 then ")" else ""))

/-- The source operand of the scalar op: `", %s%s%c%d.%c%s\n"`. -/
def scalar_src_text (neg sx abs reg type attrib constant : Nat) : Option String := do
  let t ← reg_type_letters[type]?
  let cx ← swizzle[sx]?
  pure (", " ++ (if neg ≠ 0 then "-" else "") ++ (if abs ≠ 0 then "abs(" else "") ++
    String.mk [t] ++ dec (src_reg type reg attrib constant) ++ "." ++
    String.mk [cx] ++ (if abs ≠ 0 then ")" else "") ++ "\n")

/-- The vector op block of the loop body of `vertex_shader_disassemble`. -/
def disassemble_vec (inst : instruction) : Option String := do
  let constant := u8 (instruction_extract inst 76 83)
  let attrib := u8 (instruction_extract inst 72 75)
  let varying := u8 (instruction_extract inst 2 5)
  let pred := u8 (instruction_get_bit inst 109)
  let pneg := u8 (instruction_get_bit inst 107)
  let psx := u8 (instruction_extract inst 104 105)
  let psy := u8 (instruction_extract inst 102 103)
  let psz := u8 (instruction_extract inst 100 101)
  let psw := u8 (instruction_extract inst 98 99)
  let write_varying := u8 (instruction_get_bit inst 126)
  let write_pred := u8 (instruction_get_bit inst 125)
  let sat := u8 (instruction_get_bit inst 122)
  let wx := u8 (instruction_get_bit inst 16)
  let wy := u8 (instruction_get_bit inst 15)
  let wz := u8 (instruction_get_bit inst 14)
  let ww := u8 (instruction_get_bit inst 13)
  if wx ≠ 0 ∨ wy ≠ 0 ∨ wz ≠ 0 ∨ ww ≠ 0 then
    let p ← pred_text pred pneg psx psy psz psw
    let op := u8 (instruction_extract inst 86 90)
    let name := (vec_opcode op).1
    let rb := (vec_opcode op).2.1
    let rc := (vec_opcode op).2.2
    let reg := instruction_extract inst 111 116
    let d := dst_text write_varying write_pred varying reg sat wx wy wz ww
    let a ← vec_src_text (u8 (instruction_get_bit inst 71))
      (u8 (instruction_extract inst 69 70)) (u8 (instruction_extract inst 67 68))
      (u8 (instruction_extract inst 65 66)) (u8 (instruction_extract inst 63 64))
      (u8 (instruction_get_bit inst 117)) (instruction_extract inst 57 62)
      (instruction_extract inst 55 56) attrib constant
    let b ← if rb then
        vec_src_text (u8 (instruction_get_bit inst 54))
          (u8 (instruction_extract inst 52 53)) (u8 (instruction_extract inst 50 51))
          (u8 (instruction_extract inst 48 49)) (u8 (instruction_extract inst 46 47))
          (u8 (instruction_get_bit inst 118)) (instruction_extract inst 40 45)
          (instruction_extract inst 38 39) attrib constant
      else pure ""
    let c ← if rc then
        vec_src_text (u8 (instruction_get_bit inst 37))
          (u8 (instruction_extract inst 35 36)) (u8 (instruction_extract inst 33 34))
          (u8 (instruction_extract inst 31 32)) (u8 (instruction_extract inst 29 30))
          (u8 (instruction_get_bit inst 119)) (instruction_extract inst 23 28)
          (instruction_extract inst 21 22) attrib constant
      else pure ""
    pure ("      vec op\n" ++ "        " ++ p ++ name ++ d ++ a ++ b ++ c ++ "\n")
  else pure ""

/-- The scalar op block of the loop body of `vertex_shader_disassemble`. -/
def disassemble_scalar (inst : instruction) : Option String := do
  let constant := u8 (instruction_extract inst 76 83)
  let attrib := u8 (instruction_extract inst 72 75)
  let varying := u8 (instruction_extract inst 2 5)
  let pred := u8 (instruction_get_bit inst 109)
  let pneg := u8 (instruction_get_bit inst 107)
  let psx := u8 (instruction_extract inst 104 105)
  let psy := u8 (instruction_extract inst 102 103)
  let psz := u8 (instruction_extract inst 100 101)
  let psw := u8 (instruction_extract inst 98 99)
  let write_varying := u8 (instruction_get_bit inst 126)
  let write_pred := u8 (instruction_get_bit inst 125)
  let sat := u8 (instruction_get_bit inst 122)
  let wx := u8 (instruction_get_bit inst 20)
  let wy := u8 (instruction_get_bit inst 19)
  let wz := u8 (instruction_get_bit inst 18)
  let ww := u8 (instruction_get_bit inst 17)
  if wx ≠ 0 ∨ wy ≠ 0 ∨ wz ≠ 0 ∨ ww ≠ 0 then
    let p ← pred_text pred pneg psx psy psz psw
    let op := u8 (instruction_extract inst 91 94)
    let reg := instruction_extract inst 7 12
    let d := dst_text write_varying write_pred varying reg sat wx wy wz ww
    let a ← scalar_src_text (u8 (instruction_get_bit inst 37))
      (u8 (instruction_extract inst 35 36)) (u8 (instruction_get_bit inst 119))
      (instruction_extract inst 23 28) (instruction_extract inst 21 22) attrib constant
    pure ("      scalar op\n" ++ "        " ++ p ++ scalar_opcode op ++ d ++ a)
  else pure ""

/-- The terminal marker, printed when bit 0 is set. -/
def disassemble_done (inst : instruction) : String :=
  if instruction_get_bit inst 0 ≠ 0 then "    done\n" else ""

/-- The mnemonic part of what the loop body prints for one instruction: the
vector op, the scalar op and the terminal marker. `none` stands for a table
access outside `swizzle` or `"?rvc"`. -/
def disassemble_ops (inst : instruction) : Option String := do
  let v ← disassemble_vec inst
  let s ← disassemble_scalar inst
  pure (v ++ s ++ disassemble_done inst)

/-- The raw dump that opens the loop body: the four words twice in hexadecimal,
then the constant, attribute and varying fields. -/
def disassemble_dump (words : List Nat) (inst : instruction) : String :=
  "    " ++ String.join (words.map (fun w => hex_pad 8 (w % 2 ^ 32))) ++ " |" ++
  String.join (words.map (fun w => " " ++ hex_pad 8 (w % 2 ^ 32))) ++ "\n" ++
  "      constant #" ++ hex_pad 2 (u8 (instruction_extract inst 76 83)) ++ "\n" ++
  "      attribute #" ++ hex_pad 2 (u8 (instruction_extract inst 72 75)) ++ "\n" ++
  "      varying #" ++ hex_pad 2 (u8 (instruction_extract inst 2 5)) ++ "\n"

/-- One iteration of the loop of `vertex_shader_disassemble`, for the four
words `words[0..3]` read from the stream. -/
def disassemble_instr (words : List Nat) : Option String := do
  let inst := instruction_create_from_words words 4
  let ops ← disassemble_ops inst
  pure (disassemble_dump (words.take 4) inst ++ ops)


/-! ## The container parser: `shader_parse_symbols` -/

/-- The symbol kinds of `enum glsl_kind` (`libcgc.h`). -/
inductive glsl_kind where
  | GLSL_KIND_UNKNOWN
  | GLSL_KIND_ATTRIBUTE
  | GLSL_KIND_UNIFORM
  | GLSL_KIND_CONSTANT
deriving DecidableEq, Repr

/-- The types of `enum glsl_type` (`libcgc.h`). -/
inductive glsl_type where
  | GLSL_TYPE_UNKNOWN
  | GLSL_TYPE_FLOAT
  | GLSL_TYPE_VEC2
  | GLSL_TYPE_VEC3
  | GLSL_TYPE_VEC4
  | GLSL_TYPE_MAT2
  | GLSL_TYPE_MAT3
  | GLSL_TYPE_MAT4
  | GLSL_TYPE_SAMPLER2D
  | GLSL_TYPE_SAMPLER3D
  | GLSL_TYPE_INT
  | GLSL_TYPE_IVEC2
  | GLSL_TYPE_IVEC3
  | GLSL_TYPE_IVEC4
  | GLSL_TYPE_BOOL
  | GLSL_TYPE_BVEC2
  | GLSL_TYPE_BVEC3
  | GLSL_TYPE_BVEC4
deriving DecidableEq, Repr

open glsl_kind glsl_type

/-- A row of the table `data_types` of `shader.c`. -/
structure data_type where
  glsl : glsl_type
  type : Nat
  name : String
deriving DecidableEq, Repr

/-- The table `data_types[]` of `shader.c`. -/
def data_types : List data_type := [
  ⟨GLSL_TYPE_FLOAT, 0x01, "mediump float"⟩,
  ⟨GLSL_TYPE_VEC2, 0x02, "mediump vec2"⟩,
  ⟨GLSL_TYPE_VEC3, 0x03, "mediump vec3"⟩,
  ⟨GLSL_TYPE_VEC4, 0x04, "mediump vec4"⟩,
  ⟨GLSL_TYPE_MAT2, 0x0a, "mediump mat2"⟩,
  ⟨GLSL_TYPE_MAT3, 0x0f, "mediump mat3"⟩,
  ⟨GLSL_TYPE_MAT4, 0x14, "mediump mat4"⟩,
  ⟨GLSL_TYPE_FLOAT, 0x15, "highp float"⟩,
  ⟨GLSL_TYPE_VEC2, 0x16, "highp vec2"⟩,
  ⟨GLSL_TYPE_VEC3, 0x17, "highp vec3"⟩,
  ⟨GLSL_TYPE_VEC4, 0x18, "highp vec4"⟩,
  ⟨GLSL_TYPE_MAT2, 0x1e, "highp mat2"⟩,
  ⟨GLSL_TYPE_MAT3, 0x23, "highp mat3"⟩,
  ⟨GLSL_TYPE_MAT4, 0x28, "highp mat4"⟩,
  ⟨GLSL_TYPE_SAMPLER2D, 0x2a, "sampler2D"⟩,
  ⟨GLSL_TYPE_SAMPLER3D, 0x2b, "sampler3D"⟩,
  ⟨GLSL_TYPE_SAMPLER3D, 0x2d, "samplerCube"⟩,
  ⟨GLSL_TYPE_FLOAT, 0x2e, "lowp float"⟩,
  ⟨GLSL_TYPE_VEC2, 0x2f, "lowp vec2"⟩,
  ⟨GLSL_TYPE_VEC3, 0x30, "lowp vec3"⟩,
  ⟨GLSL_TYPE_VEC4, 0x31, "lowp vec4"⟩,
  ⟨GLSL_TYPE_MAT2, 0x37, "lowp mat2"⟩,
  ⟨GLSL_TYPE_MAT3, 0x3c, "lowp mat3"⟩,
  ⟨GLSL_TYPE_MAT4, 0x41, "lowp mat4"⟩,
  ⟨GLSL_TYPE_INT, 0x45, "int"⟩,
  ⟨GLSL_TYPE_IVEC2, 0x47, "ivec2"⟩,
  ⟨GLSL_TYPE_IVEC3, 0x48, "ivec3"⟩,
  ⟨GLSL_TYPE_IVEC4, 0x49, "ivec4"⟩,
  ⟨GLSL_TYPE_BOOL, 0x5a, "bool"⟩,
  ⟨GLSL_TYPE_BVEC2, 0x5c, "bvec2"⟩,
  ⟨GLSL_TYPE_BVEC3, 0x5d, "bvec3"⟩,
  ⟨GLSL_TYPE_BVEC4, 0x5e, "bvec4"⟩,
  ⟨GLSL_TYPE_SAMPLER3D, 0x73, "sampler2DArray"⟩]

/-- The function `data_type_name` of `shader.c`: the name of the first row whose
code is `type`, `"unknown"` when there is none. -/
def data_type_name (type : Nat) : String :=
  match data_types.find? (fun d => d.type = type) with
  | some d => d.name
  | none => "unknown"

/-- The function `variable_type_name` of `shader.c`. -/
def variable_type_name (type : Nat) : String :=
  if type = 0x1005 then "attribute"
  else if type = 0x1006 then "uniform"
  else if type = 0x1007 then "constant"
  else "unknown"

/-- The record `struct cgc_header_symbol` (`libcgc.h`): twelve 32-bit words. -/
structure cgc_header_symbol where
  unknown00 : Nat
  unknown01 : Nat
  unknown02 : Nat
  unknown03 : Nat
  name_offset : Nat
  values_offset : Nat
  unknown06 : Nat
  alt_offset : Nat
  unknown08 : Nat
  unknown09 : Nat
  unknown10 : Nat
  unknown11 : Nat
deriving DecidableEq, Repr

/-- The fixed part of `struct cgc_header` (`libcgc.h`): twelve 32-bit words,
followed in the buffer by the symbol records. -/
structure cgc_header where
  type : Nat
  unknown00 : Nat
  size : Nat
  num_symbols : Nat
  bar_size : Nat
  bar_offset : Nat
  binary_size : Nat
  binary_offset : Nat
  unknown01 : Nat
  unknown02 : Nat
  unknown03 : Nat
  unknown04 : Nat
deriving DecidableEq, Repr

/-- The resolved symbol `struct cgc_symbol` (`libcgc.h`); `name` is `none` for a
`NULL` name and `vector` holds the four words `vector[0..3]`. -/
structure cgc_symbol where
  location : Int
  kind : glsl_kind
  type : glsl_type
  name : Option String
  vector : List Nat
deriving DecidableEq, Repr

/-- The shader object `struct cgc_shader` (`libcgc.h`). `binary` and `stream`
are the two byte buffers (their sizes are the lengths of the lists) and
`symbols` is the array of `num_symbols` resolved symbols. -/
structure cgc_shader where
  type : Nat
  binary : List Nat
  stream : List Nat
  symbols : List cgc_symbol
  num_symbols : Nat
deriving DecidableEq, Repr

/-- What the C code does outside defined behaviour: a read outside the shader
binary, or an access to `data_types` past its last row. -/
inductive mem_fault where
  | out_of_bounds
  | table_index
deriving DecidableEq, Repr

/-- A 32-bit little-endian load from the buffer at byte offset `off`. -/
def read_u32 (buf : List Nat) (off : Nat) : Except mem_fault Nat :=
  match buf[off]?, buf[off + 1]?, buf[off + 2]?, buf[off + 3]? with
  | some b0, some b1, some b2, some b3 =>
    .ok (b0 % 256 + 256 * (b1 % 256) + 65536 * (b2 % 256) + 16777216 * (b3 % 256))
  | _, _, _, _ => .error .out_of_bounds

/-- The bytes of a NUL-terminated string at the head of `bytes`, without the
terminator; `none` when the buffer ends before a terminator. -/
def cstring : List Nat → Option (List Nat)
  | [] => none
  | b :: rest => if b % 256 = 0 then some [] else (cstring rest).map (fun s => (b % 256) :: s)

/-- The C string at byte offset `off` of the buffer, as text. -/
def read_string (buf : List Nat) (off : Nat) : Except mem_fault String :=
  match cstring (buf.drop off) with
  | some bytes => .ok (String.mk (bytes.map Char.ofNat))
  | none => .error .out_of_bounds

/-- The load of `struct cgc_header` from the start of the buffer; all twelve
words are loaded. -/
def read_header (buf : List Nat) : Except mem_fault cgc_header := do
  let w0 ← read_u32 buf 0
  let w1 ← read_u32 buf 4
  let w2 ← read_u32 buf 8
  let w3 ← read_u32 buf 12
  let w4 ← read_u32 buf 16
  let w5 ← read_u32 buf 20
  let w6 ← read_u32 buf 24
  let w7 ← read_u32 buf 28
  let w8 ← read_u32 buf 32
  let w9 ← read_u32 buf 36
  let w10 ← read_u32 buf 40
  let w11 ← read_u32 buf 44
  pure ⟨w0, w1, w2, w3, w4, w5, w6, w7, w8, w9, w10, w11⟩

/-- The load of `header->symbols[i]`: the record at byte offset `48 + 48 * i`;
all twelve words are loaded. -/
def read_symbol (buf : List Nat) (i : Nat) : Except mem_fault cgc_header_symbol := do
  let base := 48 + 48 * i
  let w0 ← read_u32 buf base
  let w1 ← read_u32 buf (base + 4)
  let w2 ← read_u32 buf (base + 8)
  let w3 ← read_u32 buf (base + 12)
  let w4 ← read_u32 buf (base + 16)
  let w5 ← read_u32 buf (base + 20)
  let w6 ← read_u32 buf (base + 24)
  let w7 ← read_u32 buf (base + 28)
  let w8 ← read_u32 buf (base + 32)
  let w9 ← read_u32 buf (base + 36)
  let w10 ← read_u32 buf (base + 40)
  let w11 ← read_u32 buf (base + 44)
  pure ⟨w0, w1, w2, w3, w4, w5, w6, w7, w8, w9, w10, w11⟩

/-- The inner loop `for (j = 0; j < ARRAY_SIZE(data_types); j++)` of
`shader_parse_symbols`, with `n` iterations left. Every iteration compares the
type byte with `data_types[i]`, the row at the position `i` of the symbol. -/
def resolve_type_loop (i type : Nat) : Nat → Except mem_fault glsl_type
  | 0 => .ok GLSL_TYPE_UNKNOWN
  | n + 1 =>
    match data_types[i]? with
    | none => .error .table_index
    | some d => if type = d.type then .ok d.glsl else resolve_type_loop i type n

/-- The conversion of a `uint32_t` to `int`. -/
def to_int (x : Nat) : Int :=
  if x % 4294967296 < 2147483648 then (x % 4294967296 : Nat) else (x % 4294967296 : Nat) - 4294967296

/-- The four words `values[0..3]` at byte offset `off` of the buffer. -/
def read_values (buf : List Nat) (off : Nat) : Except mem_fault (List Nat) := do
  let v0 ← read_u32 buf off
  let v1 ← read_u32 buf (off + 4)
  let v2 ← read_u32 buf (off + 8)
  let v3 ← read_u32 buf (off + 12)
  pure [v0, v1, v2, v3]

/-- What one iteration of the outer loop of `shader_parse_symbols` yields: the
resolved symbol and the lines it writes to `stderr`. -/
structure resolved where
  symbol : cgc_symbol
  diag : List String
deriving DecidableEq, Repr

/-- The name of the record: `NULL` (`none`) for a zero name offset, otherwise the
C string at that offset of the shader binary, which `strdup` copies. -/
def resolve_name (binary : List Nat) (sym : cgc_header_symbol) :
    Except mem_fault (Option String) :=
  if sym.name_offset ≠ 0 then
    match read_string binary sym.name_offset with
    | .ok text => .ok (some text)
    | .error e => .error e
  else .ok none

/-- The `switch (sym->unknown02)` of `shader_parse_symbols`: the kind, the
contents of `vector` and the lines written to `stderr`. -/
def resolve_kind (binary : List Nat) (sym : cgc_header_symbol) (name : Option String) :
    Except mem_fault (glsl_kind × List Nat × List String) :=
  if sym.unknown02 = 0x1005 then
    .ok (GLSL_KIND_ATTRIBUTE, [0, 0, 0, 0], [])
  else if sym.unknown02 = 0x1006 then
    .ok (GLSL_KIND_UNIFORM, [0, 0, 0, 0], [])
  else if sym.unknown02 = 0x1007 then
    if sym.values_offset ≠ 0 then
      match read_values binary sym.values_offset with
      | .ok values => .ok (GLSL_KIND_CONSTANT, values, [])
      | .error e => .error e
    else
      .ok (GLSL_KIND_CONSTANT, [0, 0, 0, 0],
        ["no values for constant " ++ name.getD "(null)" ++ "\n"])
  else
    .ok (GLSL_KIND_UNKNOWN, [0, 0, 0, 0], [])

/-- The body of the outer loop of `shader_parse_symbols` for the record `sym` at
position `i`. The symbol starts zeroed, as `calloc` leaves it. -/
def resolve_symbol (binary : List Nat) (i : Nat) (sym : cgc_header_symbol) :
    Except mem_fault resolved :=
  match resolve_type_loop i (sym.unknown00 % 256) data_types.length with
  | .error e => .error e
  | .ok glsl =>
    match resolve_name binary sym with
    | .error e => .error e
    | .ok name =>
      match resolve_kind binary sym name with
      | .error e => .error e
      | .ok (kind, vector, diag) =>
        .ok { symbol := { location := to_int sym.unknown03, kind := kind, type := glsl,
                          name := name, vector := vector },
              diag := diag }

/-- The outer loop of `shader_parse_symbols`: iterations `i, i + 1, ...`, `n` of
them, in order. -/
def parse_loop (binary : List Nat) : Nat → Nat → Except mem_fault (List resolved)
  | _, 0 => .ok []
  | i, n + 1 =>
    match read_symbol binary i with
    | .error e => .error e
    | .ok sym =>
      match resolve_symbol binary i sym with
      | .error e => .error e
      | .ok r =>
        match parse_loop binary (i + 1) n with
        | .error e => .error e
        | .ok rest => .ok (r :: rest)

/-- What a call of `shader_parse_symbols` returns and leaves behind: the return
value, the shader object and the lines written to `stderr`. -/
structure parse_result where
  ret : Int
  shader : cgc_shader
  diag : List String
deriving DecidableEq, Repr

/-- The value of `ENOMEM`. -/
def ENOMEM : Int := 12

/-- The function `shader_parse_symbols` of `shader.c`. `calloc_ok n` tells
whether `calloc(n, sizeof(struct cgc_symbol))` returns a block; names are
copied by `strdup`, taken to succeed. A `mem_fault` is a read the C code makes
outside the buffer or the type table. -/
def shader_parse_symbols (calloc_ok : Nat → Bool) (shader : cgc_shader) :
    Except mem_fault parse_result :=
  match read_header shader.binary with
  | .error e => .error e
  | .ok header =>
    if ¬ calloc_ok header.num_symbols then
      .ok { ret := -ENOMEM, shader := { shader with symbols := [] }, diag := [] }
    else
      match parse_loop shader.binary 0 header.num_symbols with
      | .error e => .error e
      | .ok rs =>
        .ok { ret := 0,
              shader := { shader with symbols := rs.map (fun r => r.symbol),
                                      num_symbols := header.num_symbols },
              diag := (rs.map (fun r => r.diag)).flatten }

/-- The end of `cgc_compile` (`shader.c`), from the point where the external
compiler has returned its two buffers: the shader object is filled in and its
symbols are parsed; `NULL` (`none`) is returned when parsing fails. -/
def cgc_compile (calloc_ok : Nat → Bool) (type : Nat) (cg_binary cg_stream : List Nat) :
    Except mem_fault (Option cgc_shader) :=
  match shader_parse_symbols calloc_ok
      { type := type, binary := cg_binary, stream := cg_stream, symbols := [], num_symbols := 0 } with
  | .error e => .error e
  | .ok r => if r.ret < 0 then .ok none else .ok (some r.shader)

/-- The loop of `vertex_shader_disassemble`: `n` iterations left, `ptr` the byte
offset of the next instruction in the shader binary. -/
def disassemble_loop (binary : List Nat) : Nat → Nat → Except mem_fault (Option String)
  | _, 0 => .ok (some "")
  | ptr, n + 1 => do
    let w0 ← read_u32 binary ptr
    let w1 ← read_u32 binary (ptr + 4)
    let w2 ← read_u32 binary (ptr + 8)
    let w3 ← read_u32 binary (ptr + 12)
    let rest ← disassemble_loop binary (ptr + 16) n
    pure (do
      let first ← disassemble_instr [w0, w1, w2, w3]
      let others ← rest
      pure (first ++ others))

/-- The function `vertex_shader_disassemble` of `shader.c`: what it prints for
the instruction stream of the shader binary, one loop iteration for every 16
bytes of `binary_size`. -/
def vertex_shader_disassemble (shader : cgc_shader) : Except mem_fault (Option String) := do
  let header ← read_header shader.binary
  let body ← disassemble_loop shader.binary header.binary_offset ((header.binary_size + 15) / 16)
  pure (body.map (fun text => "  instructions:\n" ++ text))

/-! ## Symbol lookup -/

/-- The loop of `cgc_shader_get_symbol_by_kind` over the remaining symbols, `j`
being the number of symbols of the kind seen so far. -/
def get_symbol_loop (kind : glsl_kind) (index : Nat) : List cgc_symbol → Nat → Option cgc_symbol
  | [], _ => none
  | symbol :: rest, j =>
    if symbol.kind = kind then
      if j = index then some symbol else get_symbol_loop kind index rest (j + 1)
    else get_symbol_loop kind index rest j

/-- The function `cgc_shader_get_symbol_by_kind` of `shader.c`; `none` is `NULL`. -/
def cgc_shader_get_symbol_by_kind (shader : cgc_shader) (kind : glsl_kind) (index : Nat) :
    Option cgc_symbol :=
  get_symbol_loop kind index (shader.symbols.take shader.num_symbols) 0

/-- The inline function `cgc_shader_get_attribute` of `libcgc.h`. -/
def cgc_shader_get_attribute (shader : cgc_shader) (index : Nat) : Option cgc_symbol :=
  cgc_shader_get_symbol_by_kind shader GLSL_KIND_ATTRIBUTE index

/-- The inline function `cgc_shader_get_uniform` of `libcgc.h`. -/
def cgc_shader_get_uniform (shader : cgc_shader) (index : Nat) : Option cgc_symbol :=
  cgc_shader_get_symbol_by_kind shader GLSL_KIND_UNIFORM index

/-- The inline function `cgc_shader_get_constant` of `libcgc.h`. -/
def cgc_shader_get_constant (shader : cgc_shader) (index : Nat) : Option cgc_symbol :=
  cgc_shader_get_symbol_by_kind shader GLSL_KIND_CONSTANT index

/-! ## Closed forms of the encoder -/

/-- The value of `sat` after both op blocks of `vs_emit_instr`. -/
def sat_of (instr : vs_instr) : Int :=
  if instr.vdst.mask ≠ 0 then instr.vdst.sat
  else if instr.sdst.mask ≠ 0 then instr.sdst.sat
  else -1

/-- The value of `cfetch` after the iteration of the source loop for `src`. -/
def cfetch_step (src : vs_src) (cfetch : Int) : Int :=
  if src.type = VS_REG_TYPE_CONST then src.reg else cfetch

/-- The value of `afetch` after the iteration of the source loop for `src`. -/
def afetch_step (src : vs_src) (afetch : Int) : Int :=
  if src.type = VS_REG_TYPE_ATTR then src.reg else afetch

/-- The value of `cfetch` after the source loop. -/
def cfetch_of (instr : vs_instr) : Int :=
  cfetch_step (instr.src 2) (cfetch_step (instr.src 1) (cfetch_step (instr.src 0) (-1)))

/-- The value of `afetch` after the source loop. -/
def afetch_of (instr : vs_instr) : Int :=
  afetch_step (instr.src 2) (afetch_step (instr.src 1) (afetch_step (instr.src 0) (-1)))

/-- The two assertions of the vector-op block hold: the block is skipped, or the
varying-write assertion is not reached or holds, and the saturate assertion holds. -/
def dst_asserts_pass (instr : vs_instr) : Prop :=
  instr.vdst.mask ≠ 0 →
    (instr.sdst.type = VS_REG_TYPE_VAR → instr.sdst.mask ≠ 0 →
      instr.vdst.type = VS_REG_TYPE_VAR → instr.vdst.reg < 0 ∨ instr.vdst.reg = instr.vdst.sat) ∧
    (instr.sdst.mask ≠ 0 → instr.sdst.sat < 0 ∨ instr.sdst.sat = instr.vdst.sat)

/-- The three assertions of the source loop hold for `src` when the loop reaches
it with the given `cfetch` and `afetch`. -/
def src_asserts_pass (src : vs_src) (cfetch afetch : Int) : Prop :=
  (src.type = VS_REG_TYPE_CONST → cfetch < 0 ∨ cfetch = src.reg) ∧
  (src.type = VS_REG_TYPE_ATTR → afetch < 0 ∨ afetch = src.reg) ∧
  src.type ≠ VS_REG_TYPE_VAR

/-- Every assertion of `vs_emit_instr` holds on the descriptor. -/
def asserts_pass (instr : vs_instr) : Prop :=
  dst_asserts_pass instr ∧
  src_asserts_pass (instr.src 0) (-1) (-1) ∧
  src_asserts_pass (instr.src 1) (cfetch_step (instr.src 0) (-1)) (afetch_step (instr.src 0) (-1)) ∧
  src_asserts_pass (instr.src 2)
    (cfetch_step (instr.src 1) (cfetch_step (instr.src 0) (-1)))
    (afetch_step (instr.src 1) (afetch_step (instr.src 0) (-1)))

/-- The effect of the scalar-op block on the working instruction. -/
def scalar_part (instr : vs_instr) (inst : instruction) : instruction :=
  if instr.sdst.mask ≠ 0 then scalar_bits instr inst else inst

/-- The effect of the vector-op block on the working instruction, when its
assertions hold. -/
def vector_part (instr : vs_instr) (inst : instruction) : instruction :=
  if instr.vdst.mask ≠ 0 then vector_bits instr inst else inst

/-- The working instruction of `vs_emit_instr` before the source loop, when no
assertion of the op blocks fails. -/
def emit_ops_bits (instr : vs_instr) : instruction :=
  sat_varying_bits instr (sat_of instr)
    (vector_part instr (scalar_part instr (emit_pred (emit_abs instr ⟨List.replicate 4 0⟩))))

/-- The instruction word `vs_emit_instr` stores to the stream when no assertion
fails. -/
def emit_bits (instr : vs_instr) (last : Int) : instruction :=
  fetch_last_bits last (cfetch_of instr) (afetch_of instr)
    (src_bits 2 (instr.src 2) (src_bits 1 (instr.src 1)
      (src_bits 0 (instr.src 0) (emit_ops_bits instr))))

/-! ## The rendering rules of the specification, on descriptors -/

/-- The letter of a 2-bit component selector: `0, 1, 2, 3` are `x, y, z, w`. -/
def component_letter (sel : Nat) : Char :=
  if sel = 0 then 'x' else if sel = 1 then 'y' else if sel = 2 then 'z' else 'w'

/-- The four swizzle letters of a source descriptor: the selector of the first
component is held in the two most significant bits of the 8-bit `swz`. -/
def expected_swizzle (swz : Nat) : String :=
  String.mk [component_letter (swz / 64 % 4), component_letter (swz / 16 % 4),
    component_letter (swz / 4 % 4), component_letter (swz % 4)]

/-- The register letter of a descriptor's register type: `r` for a temp, `v` for
an attribute, `c` for a constant, `?` for an unused slot. -/
def reg_letter : vs_reg_type → Char
  | VS_REG_TYPE_TEMP => 'r'
  | VS_REG_TYPE_ATTR => 'v'
  | VS_REG_TYPE_CONST => 'c'
  | _ => '?'

/-- The destination of a descriptor as text: `o<n>` for a varying and `r<n>`
otherwise, the `_sat` suffix, and the letters of the set write-mask bits (bit 3
is `x`, bit 0 is `w`). -/
def expected_dst (dst : vs_dst) : String :=
  (if dst.type = VS_REG_TYPE_VAR then " o" ++ dec dst.reg.toNat else " r" ++ dec dst.reg.toNat) ++
  (if dst.sat ≠ 0 then "_sat" else "") ++
  "." ++ (if dst.mask / 8 % 2 ≠ 0 then "x" else "") ++ (if dst.mask / 4 % 2 ≠ 0 then "y" else "") ++
  (if dst.mask / 2 % 2 ≠ 0 then "z" else "") ++ (if dst.mask % 2 ≠ 0 then "w" else "")

/-- A source descriptor as text: `[-][abs(]<letter><index>.<swizzle>[)]`. -/
def expected_src (src : vs_src) : String :=
  ", " ++ (if src.neg ≠ 0 then "-" else "") ++ (if src.abs ≠ 0 then "abs(" else "") ++
  String.mk [reg_letter src.type] ++ dec src.reg.toNat ++ "." ++
  expected_swizzle src.swz ++ (if src.abs ≠ 0 then ")" else "")

/-- The single source operand of the scalar op as text; it shows the selector of
the first component only and ends the line. -/
def expected_scalar_src (src : vs_src) : String :=
  ", " ++ (if src.neg ≠ 0 then "-" else "") ++ (if src.abs ≠ 0 then "abs(" else "") ++
  String.mk [reg_letter src.type] ++ dec src.reg.toNat ++ "." ++
  String.mk [component_letter (src.swz / 64 % 4)] ++ (if src.abs ≠ 0 then ")" else "") ++ "\n"

/-- The line of the vector op derived from the descriptor: opcode name,
destination and the source operands of the opcode's arity. Empty when the vector
op is absent (write mask zero). -/
def expected_vec (instr : vs_instr) : String :=
  if instr.vdst.mask ≠ 0 then
    "      vec op\n" ++ "        " ++ (vec_opcode instr.vop).1 ++ expected_dst instr.vdst ++
    expected_src (instr.src 0) ++
    (if (vec_opcode instr.vop).2.1 then expected_src (instr.src 1) else "") ++
    (if (vec_opcode instr.vop).2.2 then expected_src (instr.src 2) else "") ++ "\n"
  else ""

/-- The line of the scalar op derived from the descriptor; its operand is the
third source slot. Empty when the scalar op is absent. -/
def expected_scalar (instr : vs_instr) : String :=
  if instr.sdst.mask ≠ 0 then
    "      scalar op\n" ++ "        " ++ scalar_opcode instr.sop ++ expected_dst instr.sdst ++
    expected_scalar_src (instr.src 2)
  else ""

/-- The mnemonic text of an instruction descriptor by the rendering rules of the
specification: the vector op, the scalar op, then the terminal marker when the
instruction is the last one. -/
def expected_mnemonic_text (instr : vs_instr) (last : Bool) : String :=
  expected_vec instr ++ expected_scalar instr ++ (if last then "    done\n" else "")

/-- A flag holds `0` or `1`. -/
def is_flag (x : Int) : Prop := x = 0 ∨ x = 1

/-- Every field of a destination descriptor fits its bit field: a 4-bit mask, a
saturate flag, a temp register below 63 (63 is reserved) or a varying below 16. -/
def dst_fits (dst : vs_dst) : Prop :=
  dst.mask < 16 ∧ is_flag dst.sat ∧
  (dst.type = VS_REG_TYPE_TEMP → 0 ≤ dst.reg ∧ dst.reg < 63) ∧
  (dst.type = VS_REG_TYPE_VAR → 0 ≤ dst.reg ∧ dst.reg < 16)

/-- Every field of a source descriptor fits its bit field: an 8-bit swizzle, two
flags, and a register index below 64 (temp), 16 (attribute) or 256 (constant). -/
def src_fits (src : vs_src) : Prop :=
  src.swz < 256 ∧ is_flag src.neg ∧ is_flag src.abs ∧
  (src.type = VS_REG_TYPE_TEMP → 0 ≤ src.reg ∧ src.reg < 64) ∧
  (src.type = VS_REG_TYPE_ATTR → 0 ≤ src.reg ∧ src.reg < 16) ∧
  (src.type = VS_REG_TYPE_CONST → 0 ≤ src.reg ∧ src.reg < 256)

/-- The source slots of register type `t` all carry the same register index. -/
def slots_agree (t : vs_reg_type) (instr : vs_instr) : Prop :=
  ∀ i, i < 3 → ∀ j, j < 3 → (instr.src i).type = t → (instr.src j).type = t →
    (instr.src i).reg = (instr.src j).reg

/-- The constant sources agree on their index, and so do the attribute sources. -/
def fetches_agree (instr : vs_instr) : Prop :=
  slots_agree VS_REG_TYPE_CONST instr ∧ slots_agree VS_REG_TYPE_ATTR instr

/-- A self-consistent descriptor: every field fits its bit field, a temp
destination index being below 63 since 63 is the value the encoder writes for a
destination that is not a temp; no two constant sources and no two attribute
sources ask for different indices, the saturate flags and the varying targets of
two present ops agree, and no source is a varying. -/
def self_consistent (instr : vs_instr) : Prop :=
  instr.vop < 32 ∧ instr.sop < 16 ∧ dst_fits instr.vdst ∧ dst_fits instr.sdst ∧
  (∀ i, i < 3 → src_fits (instr.src i)) ∧
  fetches_agree instr ∧
  (instr.vdst.mask ≠ 0 → instr.sdst.mask ≠ 0 → instr.vdst.sat = instr.sdst.sat) ∧
  (instr.vdst.mask ≠ 0 → instr.sdst.mask ≠ 0 → instr.vdst.type = VS_REG_TYPE_VAR →
    instr.sdst.type = VS_REG_TYPE_VAR → instr.vdst.reg = instr.sdst.reg) ∧
  (∀ i, i < 3 → (instr.src i).type ≠ VS_REG_TYPE_VAR)

/-- The part of the descriptors the encoder carries over to the word: a present
vector op writes a temp or a varying, a present scalar op writes a temp, and
every source slot an op prints is in use. -/
def renderable (instr : vs_instr) : Prop :=
  (instr.vdst.mask ≠ 0 →
    (instr.vdst.type = VS_REG_TYPE_TEMP ∨ instr.vdst.type = VS_REG_TYPE_VAR) ∧
    (instr.src 0).type ≠ VS_REG_TYPE_INVALID ∧
    ((vec_opcode instr.vop).2.1 = true → (instr.src 1).type ≠ VS_REG_TYPE_INVALID) ∧
    ((vec_opcode instr.vop).2.2 = true → (instr.src 2).type ≠ VS_REG_TYPE_INVALID)) ∧
  (instr.sdst.mask ≠ 0 →
    instr.sdst.type = VS_REG_TYPE_TEMP ∧ (instr.src 2).type ≠ VS_REG_TYPE_INVALID)

instance (x : Int) : Decidable (is_flag x) := by unfold is_flag; infer_instance
instance (dst : vs_dst) : Decidable (dst_fits dst) := by unfold dst_fits; infer_instance
instance (src : vs_src) : Decidable (src_fits src) := by unfold src_fits; infer_instance
instance (t : vs_reg_type) (instr : vs_instr) : Decidable (slots_agree t instr) := by
  unfold slots_agree; infer_instance
instance (instr : vs_instr) : Decidable (fetches_agree instr) := by
  unfold fetches_agree; infer_instance
instance (instr : vs_instr) : Decidable (self_consistent instr) := by
  unfold self_consistent; infer_instance
instance (instr : vs_instr) : Decidable (renderable instr) := by
  unfold renderable; infer_instance
instance (instr : vs_instr) : Decidable (dst_asserts_pass instr) := by
  unfold dst_asserts_pass; infer_instance
instance (src : vs_src) (cfetch afetch : Int) : Decidable (src_asserts_pass src cfetch afetch) := by
  unfold src_asserts_pass; infer_instance
instance (instr : vs_instr) : Decidable (asserts_pass instr) := by
  unfold asserts_pass; infer_instance

/-- What the failing assertion of the source loop is, when the assertions of the
other two kinds hold in every iteration. -/
def src_error_kind (instr : vs_instr) (e : emit_error) : Prop :=
  (e = .cfetch_conflict ∨ e = .afetch_conflict ∨ e = .varying_source) ∧
  (slots_agree VS_REG_TYPE_ATTR instr → (∀ k, k < 3 → (instr.src k).type ≠ VS_REG_TYPE_VAR) →
    e = .cfetch_conflict) ∧
  (slots_agree VS_REG_TYPE_CONST instr → (∀ k, k < 3 → (instr.src k).type ≠ VS_REG_TYPE_VAR) →
    e = .afetch_conflict)

/-! ## Concrete descriptors -/

/-- An unused source slot. -/
def unused_src : vs_src := ⟨0, VS_REG_TYPE_INVALID, 0, 0, 0⟩

/-- The destination of an absent op: write mask zero. -/
def absent_dst : vs_dst := ⟨0, VS_REG_TYPE_TEMP, 0, 0⟩

/-- The vector-only instruction `dp4 r0.xyzw, v3.xyzw, -abs(c9.xyzw)`. -/
def dp4_instr : vs_instr :=
  ⟨7, 0, ⟨0, VS_REG_TYPE_TEMP, 15, 0⟩, absent_dst,
    ⟨3, VS_REG_TYPE_ATTR, 0x1b, 0, 0⟩, ⟨9, VS_REG_TYPE_CONST, 0x1b, 1, 1⟩, unused_src⟩

/-- The scalar-only instruction `mov o3.x, r1.x`: a scalar op writing varying 3. -/
def scalar_varying_instr : vs_instr :=
  ⟨0, 1, absent_dst, ⟨3, VS_REG_TYPE_VAR, 8, 0⟩, unused_src, unused_src,
    ⟨1, VS_REG_TYPE_TEMP, 0x1b, 0, 0⟩⟩

/-- A vector op with the unassigned opcode 6, writing `r0.xyzw` from `r1.xyzw`;
source slots 1 and 2 are unused. -/
def unknown_op_instr : vs_instr :=
  ⟨6, 0, ⟨0, VS_REG_TYPE_TEMP, 15, 0⟩, absent_dst, ⟨1, VS_REG_TYPE_TEMP, 0x1b, 0, 0⟩,
    unused_src, unused_src⟩

/-- A vector `mul r0.xyzw, c5.xyzw, c7.xyzw`: two constant sources asking for
different indices. -/
def two_constants_instr : vs_instr :=
  ⟨2, 0, ⟨0, VS_REG_TYPE_TEMP, 15, 0⟩, absent_dst, ⟨5, VS_REG_TYPE_CONST, 0x1b, 0, 0⟩,
    ⟨7, VS_REG_TYPE_CONST, 0x1b, 0, 0⟩, unused_src⟩

/-- A vector `mul r0.xyzw, c5.xyzw, c5.yyyy`: two constant sources with the
same index. -/
def same_constant_instr : vs_instr :=
  ⟨2, 0, ⟨0, VS_REG_TYPE_TEMP, 15, 0⟩, absent_dst, ⟨5, VS_REG_TYPE_CONST, 0x1b, 0, 0⟩,
    ⟨5, VS_REG_TYPE_CONST, 0x55, 0, 0⟩, unused_src⟩

/-- A vector `mul r0.xyzw, v2.xyzw, v3.xyzw`: two attribute sources asking for
different indices. -/
def two_attributes_instr : vs_instr :=
  ⟨2, 0, ⟨0, VS_REG_TYPE_TEMP, 15, 0⟩, absent_dst, ⟨2, VS_REG_TYPE_ATTR, 0x1b, 0, 0⟩,
    ⟨3, VS_REG_TYPE_ATTR, 0x1b, 0, 0⟩, unused_src⟩

/-! ## Concrete containers -/

/-- The four bytes of a 32-bit word, least significant first. -/
def le32 (x : Nat) : List Nat :=
  [x % 256, x / 256 % 256, x / 65536 % 256, x / 16777216 % 256]

/-- The bytes of a sequence of 32-bit words, little-endian. -/
def le32s (ws : List Nat) : List Nat := (ws.map le32).flatten

/-- A vertex-shader container of 104 bytes with one symbol: a uniform of type
byte `0x04` (mediump vec4) at location 0, named `"color"` (the name is at byte
offset 96), without values. The header declares no instruction stream. -/
def color_container : List Nat :=
  le32s [0x1b5d, 0, 104, 1, 0, 0, 0, 104, 0, 0, 0, 0] ++
  le32s [0x04, 0, 0x1006, 0, 96, 0, 0, 0, 0, 0, 0, 0] ++
  [99, 111, 108, 111, 114, 0, 0, 0]

/-- The shader object `cgc_compile` builds around `color_container`. -/
def color_shader : cgc_shader :=
  { type := 1, binary := color_container, stream := [], symbols := [], num_symbols := 0 }

/-- The container `color_container` with a header that declares an instruction
stream of 4096 bytes at offset 96: `binary_offset + binary_size` is far past the
104 bytes of the container. -/
def oversized_container : List Nat :=
  le32s [0x1b5d, 0, 104, 1, 0, 0, 4096, 96, 0, 0, 0, 0] ++
  le32s [0x04, 0, 0x1006, 0, 96, 0, 0, 0, 0, 0, 0, 0] ++
  [99, 111, 108, 111, 114, 0, 0, 0]

/-- The container `color_container` with the name offset of its symbol set to
4096, outside the 104 bytes of the container. -/
def wild_name_container : List Nat :=
  le32s [0x1b5d, 0, 104, 1, 0, 0, 0, 104, 0, 0, 0, 0] ++
  le32s [0x04, 0, 0x1006, 0, 4096, 0, 0, 0, 0, 0, 0, 0] ++
  [99, 111, 108, 111, 114, 0, 0, 0]

/-- A container of 160 bytes with two constants, of type bytes `0x01` and `0x02`:
the first has its four values at byte offset 144, the second has no values
(values offset zero). Neither has a name. -/
def constants_container : List Nat :=
  le32s [0x1b5d, 0, 160, 2, 0, 0, 0, 160, 0, 0, 0, 0] ++
  le32s [0x01, 0, 0x1007, 7, 0, 144, 0, 0, 0, 0, 0, 0] ++
  le32s [0x02, 0, 0x1007, 8, 0, 0, 0, 0, 0, 0, 0, 0] ++
  le32s [0x3f800000, 0x40000000, 0x40400000, 0x40800000]

/-- The variable kind the specification assigns to a variable-kind tag. -/
def kind_of_tag (tag : Nat) : glsl_kind :=
  if tag = 0x1005 then GLSL_KIND_ATTRIBUTE
  else if tag = 0x1006 then GLSL_KIND_UNIFORM
  else if tag = 0x1007 then GLSL_KIND_CONSTANT
  else GLSL_KIND_UNKNOWN

/-- The type the specification assigns to a data-type byte: the GLSL type of the
row of `data_types` whose code is the byte, unknown when there is none. -/
def type_of_byte (byte : Nat) : glsl_type :=
  match data_types.find? (fun d => d.type = byte) with
  | some d => d.glsl
  | none => GLSL_TYPE_UNKNOWN

/-- The symbol the code resolves for the record of `color_container`. -/
def color_symbol : cgc_symbol :=
  { location := 0, kind := GLSL_KIND_UNIFORM, type := GLSL_TYPE_UNKNOWN, name := some "color",
    vector := [0, 0, 0, 0] }

/-- The result of parsing `color_shader`. -/
def color_parsed : parse_result :=
  { ret := 0, shader := { color_shader with symbols := [color_symbol], num_symbols := 1 },
    diag := [] }

/-- The shader object around `constants_container`. -/
def constants_shader : cgc_shader :=
  { type := 1, binary := constants_container, stream := [], symbols := [], num_symbols := 0 }

/-- The result of parsing `constants_shader`: the first constant carries the four
words stored at offset 144, the second a zeroed vector and one line on `stderr`. -/
def constants_parsed : parse_result :=
  { ret := 0,
    shader := { constants_shader with
      symbols := [
        { location := 7, kind := GLSL_KIND_CONSTANT, type := GLSL_TYPE_FLOAT, name := none,
          vector := [0x3f800000, 0x40000000, 0x40400000, 0x40800000] },
        { location := 8, kind := GLSL_KIND_CONSTANT, type := GLSL_TYPE_VEC2, name := none,
          vector := [0, 0, 0, 0] }],
      num_symbols := 2 },
    diag := ["no values for constant (null)\n"] }

/-- The first symbol record of `constants_container`. -/
def constant_record : cgc_header_symbol :=
  ⟨0x01, 0, 0x1007, 7, 0, 144, 0, 0, 0, 0, 0, 0⟩

/-- The second symbol record of `constants_container`: no values offset. -/
def constant_record_no_values : cgc_header_symbol :=
  ⟨0x02, 0, 0x1007, 8, 0, 0, 0, 0, 0, 0, 0, 0⟩

/-- The shader object around `oversized_container`. -/
def oversized_shader : cgc_shader :=
  { type := 1, binary := oversized_container, stream := [], symbols := [], num_symbols := 0 }

/-- The shader object around `wild_name_container`. -/
def wild_name_shader : cgc_shader :=
  { type := 1, binary := wild_name_container, stream := [], symbols := [], num_symbols := 0 }

/-- Equality of two results of the parser can be decided. -/
instance except_decidable_eq {ε α : Type} [DecidableEq ε] [DecidableEq α] :
    DecidableEq (Except ε α) := fun a b =>
  match a, b with
  | .ok x, .ok y =>
    if h : x = y then isTrue (by rw [h]) else isFalse (fun c => h (by cases c; rfl))
  | .error x, .error y =>
    if h : x = y then isTrue (by rw [h]) else isFalse (fun c => h (by cases c; rfl))
  | .ok _, .error _ => isFalse (fun c => by cases c)
  | .error _, .ok _ => isFalse (fun c => by cases c)


/-! ## Further concrete inputs -/

/-- A container that is its header alone: 48 bytes, `num_symbols = 0`. -/
def empty_container : List Nat :=
  le32s [0x1b5d, 0, 48, 0, 0, 0, 0, 48, 0, 0, 0, 0]

/-- The shader object around `empty_container`. -/
def empty_shader : cgc_shader :=
  { type := 1, binary := empty_container, stream := [], symbols := [], num_symbols := 0 }

/-- A vector `mov o3.xyzw, r1.xyzw` paired with a scalar `mov o3.x, r1.x`: both
ops present, both writing varying 3, both saturate flags 0. -/
def both_varying_same_instr : vs_instr :=
  ⟨1, 1, ⟨3, VS_REG_TYPE_VAR, 15, 0⟩, ⟨3, VS_REG_TYPE_VAR, 8, 0⟩,
    ⟨1, VS_REG_TYPE_TEMP, 0x1b, 0, 0⟩, unused_src, ⟨1, VS_REG_TYPE_TEMP, 0x1b, 0, 0⟩⟩

/-- A vector `mov o1_sat.xyzw, r1.xyzw` paired with a scalar `mov o2_sat.x, r1.x`:
both ops present, writing the different varyings 1 and 2, both saturate flags 1. -/
def both_varying_differ_instr : vs_instr :=
  ⟨1, 1, ⟨1, VS_REG_TYPE_VAR, 15, 1⟩, ⟨2, VS_REG_TYPE_VAR, 8, 1⟩,
    ⟨1, VS_REG_TYPE_TEMP, 0x1b, 0, 0⟩, unused_src, ⟨1, VS_REG_TYPE_TEMP, 0x1b, 0, 0⟩⟩

/-- A vector `mov r0_sat.xyzw, r1.xyzw` paired with a scalar `rcp r2.x, r1.x`:
both ops present, the vector op saturating and the scalar op not. -/
def saturate_differ_instr : vs_instr :=
  ⟨1, 2, ⟨0, VS_REG_TYPE_TEMP, 15, 1⟩, ⟨2, VS_REG_TYPE_TEMP, 8, 0⟩,
    ⟨1, VS_REG_TYPE_TEMP, 0x1b, 0, 0⟩, unused_src, ⟨1, VS_REG_TYPE_TEMP, 0x1b, 0, 0⟩⟩

/-- The same pair with both ops saturating. -/
def saturate_agree_instr : vs_instr :=
  ⟨1, 2, ⟨0, VS_REG_TYPE_TEMP, 15, 1⟩, ⟨2, VS_REG_TYPE_TEMP, 8, 1⟩,
    ⟨1, VS_REG_TYPE_TEMP, 0x1b, 0, 0⟩, unused_src, ⟨1, VS_REG_TYPE_TEMP, 0x1b, 0, 0⟩⟩

/-! ## The operand blocks of the disassembler -/

/-- The condition `wx || wy || wz || ww` that guards the vector op block. -/
def vec_mask_set (inst : instruction) : Prop :=
  instruction_get_bit inst 16 ≠ 0 ∨ instruction_get_bit inst 15 ≠ 0 ∨
  instruction_get_bit inst 14 ≠ 0 ∨ instruction_get_bit inst 13 ≠ 0

/-- The condition `wx || wy || wz || ww` that guards the scalar op block. -/
def scalar_mask_set (inst : instruction) : Prop :=
  instruction_get_bit inst 20 ≠ 0 ∨ instruction_get_bit inst 19 ≠ 0 ∨
  instruction_get_bit inst 18 ≠ 0 ∨ instruction_get_bit inst 17 ≠ 0

instance (inst : instruction) : Decidable (vec_mask_set inst) := by
  unfold vec_mask_set; infer_instance
instance (inst : instruction) : Decidable (scalar_mask_set inst) := by
  unfold scalar_mask_set; infer_instance

/-- The block of the vector op that prints the source operand of slot `i`
(`i` = 0, 1, 2). The three blocks of the source read the same fields 17 bits
apart, from `offs = 55 - 17 i` up (negate bit 71, 54, 37; selectors from 69..70,
52..53, 35..36 down; register 57..62, 40..45, 23..28; type 55..56, 38..39,
21..22), and the abs flag at bit `117 + i`. -/
def vec_operand (inst : instruction) (i : Nat) : Option String :=
  vec_src_text (u8 (instruction_get_bit inst (55 - 17 * i + 16)))
    (u8 (instruction_extract inst (55 - 17 * i + 14) (55 - 17 * i + 15)))
    (u8 (instruction_extract inst (55 - 17 * i + 12) (55 - 17 * i + 13)))
    (u8 (instruction_extract inst (55 - 17 * i + 10) (55 - 17 * i + 11)))
    (u8 (instruction_extract inst (55 - 17 * i + 8) (55 - 17 * i + 9)))
    (u8 (instruction_get_bit inst (117 + i)))
    (instruction_extract inst (55 - 17 * i + 2) (55 - 17 * i + 7))
    (instruction_extract inst (55 - 17 * i) (55 - 17 * i + 1))
    (u8 (instruction_extract inst 72 75)) (u8 (instruction_extract inst 76 83))

/-- The block of the scalar op that prints its source operand, read from the
fields of slot 2. -/
def scalar_operand (inst : instruction) : Option String :=
  scalar_src_text (u8 (instruction_get_bit inst 37))
    (u8 (instruction_extract inst 35 36)) (u8 (instruction_get_bit inst 119))
    (instruction_extract inst 23 28) (instruction_extract inst 21 22)
    (u8 (instruction_extract inst 72 75)) (u8 (instruction_extract inst 76 83))

/-- The predicate prefix both op blocks print, read from the word. -/
def pred_head (inst : instruction) : Option String :=
  pred_text (u8 (instruction_get_bit inst 109)) (u8 (instruction_get_bit inst 107))
    (u8 (instruction_extract inst 104 105)) (u8 (instruction_extract inst 102 103))
    (u8 (instruction_extract inst 100 101)) (u8 (instruction_extract inst 98 99))

/-! ## The rendering rules of the specification, on instruction words -/

/-- The letters `x`, `y`, `z`, `w` of the set write-mask bits, in that order. -/
def mask_letters (x y z w : Bool) : String :=
  String.mk (([(x, 'x'), (y, 'y'), (z, 'z'), (w, 'w')].filter (fun l => l.1)).map (fun l => l.2))

/-- The destination by the rendering rule of the specification: `o<varying>`
when the varying-write flag is set and the destination field is 63, otherwise
`p0` when the predicate-write flag is set and the destination field is 63,
otherwise `r<destination field>`; then `_sat` exactly when the saturate bit is
set; then, after a dot, the letters of the set write-mask bits. -/
def rendered_dst (write_varying write_pred : Bool) (varying reg : Nat) (sat : Bool)
    (x y z w : Bool) : String :=
  " " ++ (if write_varying = true ∧ reg = 63 then "o" ++ toString varying
    else if write_pred = true ∧ reg = 63 then "p0"
    else "r" ++ toString reg) ++
  (if sat then "_sat" else "") ++ "." ++ mask_letters x y z w

/-- The destination of an op of the word `inst` by the rendering rule of the
specification, for the destination field `lo..hi` and the write-mask bits
`px`, `py`, `pz`, `pw`; the flags are bits 126, 125 and 122, the varying field is
bits 2..5. -/
def rendered_dst_at (inst : instruction) (lo hi px py pz pw : Nat) : String :=
  rendered_dst (instruction_get_bit inst 126 = 1) (instruction_get_bit inst 125 = 1)
    (instruction_extract inst 2 5) (instruction_extract inst lo hi)
    (instruction_get_bit inst 122 = 1)
    (instruction_get_bit inst px = 1) (instruction_get_bit inst py = 1)
    (instruction_get_bit inst pz = 1) (instruction_get_bit inst pw = 1)

/-- The register letter of a 2-bit type field: `r`, `v`, `c` for 1, 2, 3 and
`?` for 0. -/
def type_letter (type : Nat) : Char :=
  if type = 1 then 'r' else if type = 2 then 'v' else if type = 3 then 'c' else '?'

/-- A vector source operand by the rendering rule of the specification:
`[-][abs(]<letter><index>.<4 swizzle letters>[)]`, the index being the shared
attribute-fetch field for type 2, the shared constant-fetch field for type 3 and
the slot's own register field otherwise. -/
def rendered_src (neg abs : Bool) (type own attrib constant sx sy sz sw : Nat) : String :=
  (if neg then "-" else "") ++ (if abs then "abs(" else "") ++
  String.mk [type_letter type] ++
  toString (if type = 2 then attrib else if type = 3 then constant else own) ++ "." ++
  String.mk [component_letter sx, component_letter sy, component_letter sz,
    component_letter sw] ++
  (if abs then ")" else "")

/-- The vector source operand of slot `i` of the word `inst` by the rendering
rule of the specification: negate bit `71 - 17 i`, abs bit `117 + i`, type field
`55 - 17 i .. 56 - 17 i`, register field `57 - 17 i .. 62 - 17 i`, and the four
selectors in the eight bits above the register field, the first component
highest. -/
def rendered_src_at (inst : instruction) (i : Nat) : String :=
  rendered_src (instruction_get_bit inst (71 - 17 * i) = 1)
    (instruction_get_bit inst (117 + i) = 1)
    (instruction_extract inst (55 - 17 * i) (56 - 17 * i))
    (instruction_extract inst (57 - 17 * i) (62 - 17 * i))
    (instruction_extract inst 72 75) (instruction_extract inst 76 83)
    (instruction_extract inst (69 - 17 * i) (70 - 17 * i))
    (instruction_extract inst (67 - 17 * i) (68 - 17 * i))
    (instruction_extract inst (65 - 17 * i) (66 - 17 * i))
    (instruction_extract inst (63 - 17 * i) (64 - 17 * i))

/-- The four words of `dp4 r0.xyzw, v3.xyzw, -abs(c9.xyzw)` with the last flag
set, as `vs_emit_instr` writes them for `dp4_instr`. -/
def dp4_words : List Nat := [4201580, 29397773, 2168897728, 4317185]

/-! ## Inputs for the scalar op, the destinations and the lookup -/

/-- The scalar source operand by the rendering rule of the specification:
`[-][abs(]<letter><index>.<swizzle letter>[)]` with the one selector of the first
component, the index being the shared attribute-fetch field for type 2, the
shared constant-fetch field for type 3 and the slot's own register field
otherwise. -/
def rendered_scalar_src (neg abs : Bool) (type own attrib constant sx : Nat) : String :=
  (if neg then "-" else "") ++ (if abs then "abs(" else "") ++
  String.mk [type_letter type] ++
  toString (if type = 2 then attrib else if type = 3 then constant else own) ++ "." ++
  String.mk [component_letter sx] ++
  (if abs then ")" else "")

/-- The source operand of the scalar op of the word `inst` by the rendering rule
of the specification, read from the third source slot: negate bit 37, abs bit
119, type field 21..22, register field 23..28 and the selector of the first
component, bits 35..36. -/
def rendered_scalar_src_at (inst : instruction) : String :=
  rendered_scalar_src (instruction_get_bit inst 37 = 1) (instruction_get_bit inst 119 = 1)
    (instruction_extract inst 21 22) (instruction_extract inst 23 28)
    (instruction_extract inst 72 75) (instruction_extract inst 76 83)
    (instruction_extract inst 35 36)

/-- The vector-only instruction `mov o3.xyzw, r1.xyzw`: a vector op writing
varying 3. -/
def vector_varying_instr : vs_instr :=
  ⟨1, 0, ⟨3, VS_REG_TYPE_VAR, 15, 0⟩, absent_dst, ⟨1, VS_REG_TYPE_TEMP, 0x1b, 0, 0⟩,
    unused_src, unused_src⟩

/-- The vector-only instruction `mov r5.xyzw, r1.xyzw`: a vector op writing
temp 5. -/
def vector_temp_instr : vs_instr :=
  ⟨1, 0, ⟨5, VS_REG_TYPE_TEMP, 15, 0⟩, absent_dst, ⟨1, VS_REG_TYPE_TEMP, 0x1b, 0, 0⟩,
    unused_src, unused_src⟩

/-- The vector-only instruction `add r0.xyzw, r1.xyzw, c5.xyzw`: the second
operand of `add` sits in source slot 2, slot 1 is unused. -/
def add_instr : vs_instr :=
  ⟨3, 0, ⟨0, VS_REG_TYPE_TEMP, 15, 0⟩, absent_dst, ⟨1, VS_REG_TYPE_TEMP, 0x1b, 0, 0⟩,
    unused_src, ⟨5, VS_REG_TYPE_CONST, 0x1b, 0, 0⟩⟩

/-- The scalar-only instruction `rcp r2.x, -abs(c9.x)`. -/
def rcp_instr : vs_instr :=
  ⟨0, 2, absent_dst, ⟨2, VS_REG_TYPE_TEMP, 8, 0⟩, unused_src, unused_src,
    ⟨9, VS_REG_TYPE_CONST, 0x1b, 1, 1⟩⟩

/-- A symbol of the given kind and location, for the lookup. -/
def symbol_of (kind : glsl_kind) (location : Int) : cgc_symbol :=
  { location := location, kind := kind, type := GLSL_TYPE_FLOAT, name := none,
    vector := [0, 0, 0, 0] }

/-- A shader object with five symbols: attribute 0, uniform 1, attribute 2,
constant 3, uniform 4 (the locations number the table positions). -/
def five_symbols_shader : cgc_shader :=
  { type := 1, binary := [], stream := [],
    symbols := [symbol_of GLSL_KIND_ATTRIBUTE 0, symbol_of GLSL_KIND_UNIFORM 1,
      symbol_of GLSL_KIND_ATTRIBUTE 2, symbol_of GLSL_KIND_CONSTANT 3,
      symbol_of GLSL_KIND_UNIFORM 4],
    num_symbols := 5 }

/-- The four words of `rcp r2.x, -abs(c9.x)` as `vs_emit_instr` writes them for
`rcp_instr`, last flag clear. -/
def rcp_words : List Nat := [8395884, 268472320, 16777379, 1617953024]

/-- The four words of `add r0.xyzw, r1.xyzw, c5.xyzw` as `vs_emit_instr` writes
them for `add_instr`, last flag clear. -/
def add_words : List Nat := [7276, 12603405, 2189426819, 1617027072]

/-- A vector `mov o3.xyzw, r1.xyzw` paired with a scalar `mov r63.x, r1.x`: the
scalar op writes the temp with index 63, the value the encoder writes to the
destination field of a destination that is not a temp. -/
def temp_63_instr : vs_instr :=
  ⟨1, 1, ⟨3, VS_REG_TYPE_VAR, 15, 0⟩, ⟨63, VS_REG_TYPE_TEMP, 8, 0⟩,
    ⟨1, VS_REG_TYPE_TEMP, 0x1b, 0, 0⟩, unused_src, ⟨1, VS_REG_TYPE_TEMP, 0x1b, 0, 0⟩⟩

/-! ## Lemmas on the bit container -/

theorem testBit_word_with_bit (w p : Nat) (b : Bool) (i : Nat) :
    (word_with_bit w p b).testBit i = if i = p then b else w.testBit i := by
  unfold word_with_bit
  cases b with
  | true =>
    simp only [if_true, Nat.testBit_or, Nat.testBit_two_pow]
    by_cases h : i = p
    · subst h; simp
    · have : ¬ p = i := fun e => h e.symm
      simp [h, this]
  | false =>
    simp only [Bool.false_eq_true, if_false, Nat.testBit_xor, Nat.testBit_and, Nat.testBit_two_pow]
    by_cases h : i = p
    · subst h; simp
    · have : ¬ p = i := fun e => h e.symm
      simp [h, this]

theorem word_with_bit_lt (w p : Nat) (b : Bool) (hw : w < 2 ^ 32) (hp : p < 32) :
    word_with_bit w p b < 2 ^ 32 := by
  have h2 : 2 ^ p < 2 ^ 32 := Nat.pow_lt_pow_right (by decide) hp
  unfold word_with_bit
  cases b with
  | true => simpa using Nat.or_lt_two_pow hw h2
  | false => simpa using Nat.xor_lt_two_pow hw (Nat.and_lt_two_pow w h2)

theorem length_with_bit (inst : instruction) (pos : Nat) (b : Bool) :
    (with_bit inst pos b).bits.length = inst.bits.length := by
  simp [with_bit]

theorem bit_at_with_bit (inst : instruction) (pos : Nat) (b : Bool) (i : Nat)
    (hpos : pos < 32 * inst.bits.length) :
    bit_at (with_bit inst pos b) i = if i = pos then b else bit_at inst i := by
  have hlen : pos / 32 < inst.bits.length := by omega
  unfold bit_at with_bit
  simp only [List.getD_eq_getElem?_getD, List.getElem?_set]
  by_cases hw : pos / 32 = i / 32
  · simp only [hw, if_true]
    have hlen2 : i / 32 < inst.bits.length := hw ▸ hlen
    simp only [hlen2, if_true, Option.getD_some, testBit_word_with_bit]
    by_cases hb : i % 32 = pos % 32
    · have : i = pos := by omega
      simp [hb, this]
    · have : ¬ i = pos := fun e => hb (by rw [e])
      simp [hb, this]
  · have : ¬ i = pos := fun e => hw (by rw [e])
    simp [hw, this]

theorem length_insert_bits (lo value n : Nat) (inst : instruction) :
    (insert_bits lo value n inst).bits.length = inst.bits.length := by
  induction n with
  | zero => rfl
  | succ n ih => simp [insert_bits, length_with_bit, ih]

theorem bit_at_insert_bits (lo value n : Nat) (inst : instruction) (i : Nat)
    (h : lo + n ≤ 32 * inst.bits.length) :
    bit_at (insert_bits lo value n inst) i =
      if lo ≤ i ∧ i < lo + n then value.testBit (i - lo) else bit_at inst i := by
  induction n with
  | zero =>
    have : ¬ (lo ≤ i ∧ i < lo) := by omega
    simp [insert_bits, this]
  | succ n ih =>
    have hpos : lo + n < 32 * (insert_bits lo value n inst).bits.length := by
      rw [length_insert_bits]; omega
    simp only [insert_bits]
    rw [bit_at_with_bit _ _ _ _ hpos, ih (by omega)]
    by_cases h1 : i = lo + n
    · subst h1; simp
    · by_cases h2 : lo ≤ i ∧ i < lo + n
      · have : lo ≤ i ∧ i < lo + (n + 1) := ⟨h2.1, by omega⟩
        simp [h1, h2, this]
      · have : ¬ (lo ≤ i ∧ i < lo + (n + 1)) := fun c => h2 ⟨c.1, by omega⟩
        simp [h1, h2, this]

theorem extract_bits_lt (inst : instruction) (lo n : Nat) : extract_bits inst lo n < 2 ^ n := by
  induction n with
  | zero => simp [extract_bits]
  | succ n ih =>
    simp only [extract_bits]
    have : 2 ^ (n + 1) = 2 ^ n + 2 ^ n := by rw [pow_succ]; omega
    split <;> omega

theorem testBit_extract_bits (inst : instruction) (lo n k : Nat) :
    (extract_bits inst lo n).testBit k = (decide (k < n) && bit_at inst (lo + k)) := by
  induction n with
  | zero => simp [extract_bits]
  | succ n ih =>
    simp only [extract_bits]
    have hlt := extract_bits_lt inst lo n
    rcases Nat.lt_trichotomy k n with hk | hk | hk
    · have hk' : k < n + 1 := by omega
      by_cases hb : bit_at inst (lo + n)
      · simp only [hb, if_true]
        rw [Nat.testBit_two_pow_add_gt hk, ih]; simp [hk, hk']
      · simp only [hb, Bool.false_eq_true, if_false, Nat.zero_add]
        rw [ih]; simp [hk, hk']
    · subst hk
      have h0 : (extract_bits inst lo k).testBit k = false := Nat.testBit_lt_two_pow hlt
      by_cases hb : bit_at inst (lo + k)
      · simp only [hb, if_true]
        rw [Nat.testBit_two_pow_add_eq, h0]; simp
      · simp only [hb, Bool.false_eq_true, if_false, Nat.zero_add]
        rw [h0]; simp
    · have hbig : (if bit_at inst (lo + n) then 2 ^ n else 0) + extract_bits inst lo n < 2 ^ k := by
        have h1 : 2 ^ (n + 1) ≤ 2 ^ k := Nat.pow_le_pow_right (by decide) hk
        have : 2 ^ (n + 1) = 2 ^ n + 2 ^ n := by rw [pow_succ]; omega
        split <;> omega
      rw [Nat.testBit_lt_two_pow hbig]
      have : ¬ k < n + 1 := by omega
      simp [this]


theorem length_insert (inst : instruction) (lo hi v : Nat) :
    (instruction_insert inst lo hi v).bits.length = inst.bits.length := by
  unfold instruction_insert
  split
  · exact length_insert_bits _ _ _ _
  · rfl

theorem bit_at_insert (inst : instruction) (lo hi v i : Nat)
    (h : lo ≤ hi) (hhi : hi < 32 * inst.bits.length) :
    bit_at (instruction_insert inst lo hi v) i =
      if lo ≤ i ∧ i ≤ hi then v.testBit (i - lo) else bit_at inst i := by
  unfold instruction_insert
  rw [if_pos ⟨h, hhi⟩, bit_at_insert_bits _ _ _ _ _ (by omega)]
  by_cases c : lo ≤ i ∧ i ≤ hi
  · have : lo ≤ i ∧ i < lo + (hi - lo + 1) := ⟨c.1, by omega⟩
    simp [c, this]
  · have : ¬ (lo ≤ i ∧ i < lo + (hi - lo + 1)) := fun d => c ⟨d.1, by omega⟩
    simp [c, this]

theorem bit_at_insert_outside (inst : instruction) (lo hi v i : Nat)
    (h : ¬ (lo ≤ i ∧ i ≤ hi)) :
    bit_at (instruction_insert inst lo hi v) i = bit_at inst i := by
  by_cases c : lo ≤ hi ∧ hi < 32 * inst.bits.length
  · rw [bit_at_insert _ _ _ _ _ c.1 c.2, if_neg h]
  · unfold instruction_insert; rw [if_neg c]

theorem testBit_extract (inst : instruction) (lo hi k : Nat)
    (h : lo ≤ hi) (hhi : hi < 32 * inst.bits.length) :
    (instruction_extract inst lo hi).testBit k =
      (decide (k ≤ hi - lo) && bit_at inst (lo + k)) := by
  unfold instruction_extract
  rw [if_pos ⟨h, hhi⟩, testBit_extract_bits]
  by_cases c : k ≤ hi - lo
  · have : k < hi - lo + 1 := by omega
    simp [c, this]
  · have : ¬ k < hi - lo + 1 := by omega
    simp [c, this]

theorem extract_lt (inst : instruction) (lo hi : Nat) :
    instruction_extract inst lo hi < 2 ^ (hi - lo + 1) := by
  unfold instruction_extract
  split
  · exact extract_bits_lt _ _ _
  · exact Nat.two_pow_pos _

theorem extract_insert_sub (inst : instruction) (lo hi v lo2 hi2 : Nat)
    (hhi : hi < 32 * inst.bits.length) (h1 : lo ≤ lo2) (h2 : lo2 ≤ hi2) (h3 : hi2 ≤ hi) :
    instruction_extract (instruction_insert inst lo hi v) lo2 hi2 =
      v / 2 ^ (lo2 - lo) % 2 ^ (hi2 - lo2 + 1) := by
  apply Nat.eq_of_testBit_eq
  intro k
  rw [testBit_extract _ _ _ _ h2 (by rw [length_insert]; omega),
    bit_at_insert _ _ _ _ _ (by omega) hhi, Nat.testBit_mod_two_pow,
    ← Nat.shiftRight_eq_div_pow, Nat.testBit_shiftRight]
  by_cases c : k ≤ hi2 - lo2
  · have c1 : k < hi2 - lo2 + 1 := by omega
    have c2 : lo ≤ lo2 + k ∧ lo2 + k ≤ hi := ⟨by omega, by omega⟩
    have c3 : lo2 + k - lo = lo2 - lo + k := by omega
    simp [c, c1, c2, c3]
  · have c1 : ¬ k < hi2 - lo2 + 1 := by omega
    simp [c, c1]

theorem extract_insert_disjoint (inst : instruction) (lo hi v lo2 hi2 : Nat)
    (h : hi < lo2 ∨ hi2 < lo) :
    instruction_extract (instruction_insert inst lo hi v) lo2 hi2 =
      instruction_extract inst lo2 hi2 := by
  by_cases c : lo2 ≤ hi2 ∧ hi2 < 32 * inst.bits.length
  · apply Nat.eq_of_testBit_eq
    intro k
    rw [testBit_extract _ _ _ _ c.1 (by rw [length_insert]; exact c.2),
      testBit_extract _ _ _ _ c.1 c.2]
    by_cases d : k ≤ hi2 - lo2
    · rw [bit_at_insert_outside]
      omega
    · simp [d]
  · unfold instruction_extract
    rw [length_insert, if_neg c, if_neg c]

theorem extract_create (count lo hi : Nat) :
    instruction_extract ⟨List.replicate count 0⟩ lo hi = 0 := by
  by_cases c : lo ≤ hi ∧ hi < 32 * (List.replicate count 0).length
  · apply Nat.eq_of_testBit_eq
    intro k
    rw [testBit_extract _ _ _ _ c.1 c.2]
    simp [bit_at, List.getD_eq_getElem?_getD, List.getElem?_replicate]
    split <;> simp
  · unfold instruction_extract
    rw [if_neg c]

/-- C5 (spec-modelled bit container): for a 128-bit container and an inclusive
range `lo ≤ hi < 128`, extracting the range after inserting a value that fits in
`hi - lo + 1` bits returns that value, whichever words the range spans; every
bit outside the range keeps the value it had; and on the zero-initialised
container every bit outside the range is still `0`. -/
theorem C5_insert_then_extract (inst : instruction) (lo hi v : Nat)
    (hlen : inst.bits.length = 4) (h1 : lo ≤ hi) (h2 : hi < 128)
    (hv : v < 2 ^ (hi - lo + 1)) :
    instruction_extract (instruction_insert inst lo hi v) lo hi = v ∧
    (∀ i, i < 128 → ¬ (lo ≤ i ∧ i ≤ hi) →
      instruction_get_bit (instruction_insert inst lo hi v) i = instruction_get_bit inst i) ∧
    (∀ zero i, instruction_create true 4 = some zero → i < 128 → ¬ (lo ≤ i ∧ i ≤ hi) →
      instruction_get_bit (instruction_insert zero lo hi v) i = 0) := by
  refine ⟨?_, ?_, ?_⟩
  · rw [extract_insert_sub _ _ _ _ _ _ (by omega) (le_refl _) h1 (le_refl _)]
    simp [Nat.mod_eq_of_lt hv]
  · intro i _ hout
    unfold instruction_get_bit
    exact extract_insert_disjoint _ _ _ _ _ _ (by omega)
  · intro zero i hz _ hout
    simp only [instruction_create, if_true, Option.some.injEq] at hz
    subst hz
    unfold instruction_get_bit
    rw [extract_insert_disjoint _ _ _ _ _ _ (by omega), extract_create]

/-- C5 witness: a 36-bit value written to bits 30..65, a range that crosses two
word boundaries, in a container whose other bits are all set. -/
theorem C5_insert_then_extract_witness :
    instruction_extract (instruction_insert
      ⟨[4294967295, 4294967295, 4294967295, 4294967295]⟩ 30 65 43690000001) 30 65
      = 43690000001 :=
  (C5_insert_then_extract ⟨[4294967295, 4294967295, 4294967295, 4294967295]⟩ 30 65 43690000001
    rfl (by decide) (by decide) (by decide)).1

/-! ## The encoder in closed form -/

theorem emit_src_ok (i : Nat) (src : vs_src) (st : emit_state)
    (h : src_asserts_pass src st.cfetch st.afetch) :
    emit_src i src st = .ok { st with
      inst := src_bits i src st.inst
      cfetch := cfetch_step src st.cfetch
      afetch := afetch_step src st.afetch } := by
  obtain ⟨hc, ha, hv⟩ := h
  unfold emit_src cfetch_step afetch_step
  rw [if_neg (fun c => c.2 (hc c.1)), if_neg (fun c => c.2 (ha c.1)), if_neg hv]

theorem emit_vector_ok (instr : vs_instr) (inst : instruction) (h : dst_asserts_pass instr) :
    ∃ vwrite, emit_vector instr
        (emit_scalar instr { inst := inst, cfetch := -1, afetch := -1, vwrite := -1, sat := -1 }) =
      .ok { inst := vector_part instr (scalar_part instr inst)
            cfetch := -1, afetch := -1, vwrite := vwrite, sat := sat_of instr } := by
  unfold dst_asserts_pass at h
  unfold emit_vector emit_scalar sat_of vector_part scalar_part
  by_cases hv : instr.vdst.mask = 0
  · by_cases hs : instr.sdst.mask = 0
    · simp [hv, hs]
    · simp [hv, hs]
  · obtain ⟨h1, h2⟩ := h hv
    by_cases hs : instr.sdst.mask = 0
    · simp [hv, hs]
    · have h2 := h2 hs
      have h1 := fun a b => h1 a hs b
      simp only [ne_eq, hv, not_false_eq_true, hs, if_true]
      rw [if_neg, if_neg]
      · exact ⟨_, rfl⟩
      · intro c; rcases h2 with h2 | h2 <;> simp at c <;> omega
      · rintro ⟨a, b⟩
        apply b
        by_cases hvt : instr.vdst.type = VS_REG_TYPE_VAR
        · simpa [hvt] using h1 a hvt
        · simp [hvt]

theorem emit_build_ok (instr : vs_instr) (last : Int) (h : asserts_pass instr) :
    emit_build instr last ⟨List.replicate 4 0⟩ = .ok (emit_bits instr last) := by
  obtain ⟨hd, h0, h1, h2⟩ := h
  obtain ⟨vw, hvec⟩ := emit_vector_ok instr (emit_pred (emit_abs instr ⟨List.replicate 4 0⟩)) hd
  have e0 := emit_src_ok 0 (instr.src 0)
    { inst := emit_ops_bits instr, cfetch := -1, afetch := -1, vwrite := vw, sat := sat_of instr } h0
  have e1 := emit_src_ok 1 (instr.src 1)
    { inst := src_bits 0 (instr.src 0) (emit_ops_bits instr),
      cfetch := cfetch_step (instr.src 0) (-1), afetch := afetch_step (instr.src 0) (-1),
      vwrite := vw, sat := sat_of instr } h1
  have e2 := emit_src_ok 2 (instr.src 2)
    { inst := src_bits 1 (instr.src 1) (src_bits 0 (instr.src 0) (emit_ops_bits instr)),
      cfetch := cfetch_step (instr.src 1) (cfetch_step (instr.src 0) (-1)),
      afetch := afetch_step (instr.src 1) (afetch_step (instr.src 0) (-1)),
      vwrite := vw, sat := sat_of instr } h2
  simp only [] at e0 e1 e2
  unfold emit_build
  simp only [bind, Except.bind, pure, Except.pure, hvec, emit_sat_varying]
  unfold emit_ops_bits at e0 e1 e2
  simp only [e0, e1, e2]
  simp only [emit_bits, emit_fetch_last, cfetch_of, afetch_of, emit_ops_bits]

/-! ## Well-formed containers and the stream -/

theorem wf_with_bit (inst : instruction) (pos : Nat) (b : Bool) (h : inst.wf) :
    (with_bit inst pos b).wf := by
  refine ⟨by rw [length_with_bit]; exact h.1, ?_⟩
  intro w hw
  unfold with_bit at hw
  rcases List.mem_or_eq_of_mem_set hw with hw | hw
  · exact h.2 w hw
  · subst hw
    apply word_with_bit_lt _ _ _ _ (Nat.mod_lt _ (by decide))
    rw [List.getD_eq_getElem?_getD]
    cases hq : inst.bits[pos / 32]? with
    | none => simp
    | some x =>
      simp only [Option.getD_some]
      exact h.2 x (List.getElem?_mem hq)

theorem wf_insert_bits (lo value n : Nat) (inst : instruction) (h : inst.wf) :
    (insert_bits lo value n inst).wf := by
  induction n with
  | zero => exact h
  | succ n ih => exact wf_with_bit _ _ _ ih

theorem wf_insert (inst : instruction) (lo hi v : Nat) (h : inst.wf) :
    (instruction_insert inst lo hi v).wf := by
  unfold instruction_insert
  split
  · exact wf_insert_bits _ _ _ _ h
  · exact h

theorem wf_set_bit (inst : instruction) (pos v : Nat) (h : inst.wf) :
    (instruction_set_bit inst pos v).wf := wf_insert _ _ _ _ h

theorem wf_zero : instruction.wf ⟨List.replicate 4 0⟩ := by
  refine ⟨rfl, ?_⟩
  intro w hw
  simp only [List.mem_replicate] at hw
  rw [hw.2]; decide

theorem wf_emit_bits (instr : vs_instr) (last : Int) : (emit_bits instr last).wf := by
  unfold emit_bits fetch_last_bits src_bits emit_ops_bits sat_varying_bits vector_part
    scalar_part vector_bits scalar_bits emit_pred emit_abs
  simp only []
  repeat (first | apply wf_insert | apply wf_set_bit | split | exact wf_zero)

theorem extract_word (inst : instruction) (k : Nat) (h : inst.wf) (hk : k < 4) :
    instruction_extract inst (32 * k) (32 * k + 31) = inst.bits.getD k 0 := by
  apply Nat.eq_of_testBit_eq
  intro j
  rw [testBit_extract _ _ _ _ (by omega) (by rw [h.1]; omega)]
  have hw : inst.bits.getD k 0 < 2 ^ 32 := by
    rw [List.getD_eq_getElem?_getD]
    cases hq : inst.bits[k]? with
    | none => simp
    | some x =>
      simp only [Option.getD_some]
      exact h.2 x (List.getElem?_mem hq)
  have e4 : 32 * k + 31 - 32 * k = 31 := by omega
  rw [e4]
  by_cases c : j ≤ 31
  · have c2 : j ≤ 32 * k + 31 - 32 * k := by omega
    have e1 : (32 * k + j) / 32 = k := by omega
    have e2 : (32 * k + j) % 32 = j := by omega
    have e3 : bit_at inst (32 * k + j) = (inst.bits.getD k 0).testBit j := by
      unfold bit_at; rw [e1, e2]
    rw [e3]; simp [c]
  · have c2 : ¬ j ≤ 32 * k + 31 - 32 * k := by omega
    have : inst.bits.getD k 0 < 2 ^ j :=
      lt_of_lt_of_le hw (Nat.pow_le_pow_right (by decide) (by omega))
    rw [Nat.testBit_lt_two_pow this]; simp [c]

theorem create_from_words_emit_store (inst : instruction) (stream : List Nat)
    (h : inst.wf) (hs : stream.length = 4) :
    instruction_create_from_words (emit_store inst stream) 4 = inst := by
  obtain ⟨hl, hb⟩ := h
  have h0 := extract_word inst 0 ⟨hl, hb⟩ (by decide)
  have h1 := extract_word inst 1 ⟨hl, hb⟩ (by decide)
  have h2 := extract_word inst 2 ⟨hl, hb⟩ (by decide)
  have h3 := extract_word inst 3 ⟨hl, hb⟩ (by decide)
  obtain ⟨bits⟩ := inst
  match bits, hl, hb with
  | [a, b, c, d], _, hb =>
    match stream, hs with
    | [s0, s1, s2, s3], _ =>
      simp only [Nat.mul_zero, Nat.zero_add, Nat.mul_one, Nat.reduceMul, Nat.reduceAdd] at h0 h1 h2 h3
      simp only [emit_store, h0, h1, h2, h3, instruction_create_from_words]
      have ha := hb a (by simp)
      have hbb := hb b (by simp)
      have hc := hb c (by simp)
      have hd := hb d (by simp)
      simp at ha hbb hc hd
      simp [Nat.mod_eq_of_lt ha, Nat.mod_eq_of_lt hbb, Nat.mod_eq_of_lt hc, Nat.mod_eq_of_lt hd]

theorem vs_emit_instr_ok (stream : List Nat) (instr : vs_instr) (last : Int)
    (h : asserts_pass instr) :
    vs_emit_instr true stream instr last =
      { outcome := .emitted, stream := emit_store (emit_bits instr last) stream } := by
  unfold vs_emit_instr instruction_create
  simp only [if_true, emit_build_ok instr last h]

theorem decode_emitted (stream : List Nat) (instr : vs_instr) (last : Int)
    (h : asserts_pass instr) (hs : stream.length = 4) :
    instruction_create_from_words (vs_emit_instr true stream instr last).stream 4 =
      emit_bits instr last := by
  rw [vs_emit_instr_ok stream instr last h]
  exact create_from_words_emit_store _ _ (wf_emit_bits instr last) hs

/-! ## Reading the fields of the emitted word -/

theorem extract_ite (c : Prop) [Decidable c] (a b : instruction) (lo hi : Nat) :
    instruction_extract (if c then a else b) lo hi =
      if c then instruction_extract a lo hi else instruction_extract b lo hi := by
  split <;> rfl

theorem length_ite (c : Prop) [Decidable c] (a b : instruction) :
    (if c then a else b).bits.length = if c then a.bits.length else b.bits.length := by
  split <;> rfl

theorem extract_zero (lo hi : Nat) : instruction_extract ⟨[0, 0, 0, 0]⟩ lo hi = 0 :=
  extract_create 4 lo hi

theorem field_constant (instr : vs_instr) (last : Int) :
    instruction_extract (emit_bits instr last) 76 83 =
      u32 (if cfetch_of instr ≥ 0 then cfetch_of instr else 0) % 256 := by
  simp [emit_bits, fetch_last_bits, src_bits, emit_ops_bits, sat_varying_bits, vector_part,
    scalar_part, vector_bits, scalar_bits, emit_pred, emit_abs, instruction_set_bit,
    extract_ite, length_ite, length_insert, extract_insert_disjoint, extract_insert_sub,
    extract_zero, vs_reg_type.val]

theorem field_attribute (instr : vs_instr) (last : Int) :
    instruction_extract (emit_bits instr last) 72 75 =
      u32 (if afetch_of instr ≥ 0 then afetch_of instr else 0) % 16 := by
  simp [emit_bits, fetch_last_bits, src_bits, emit_ops_bits, sat_varying_bits, vector_part,
    scalar_part, vector_bits, scalar_bits, emit_pred, emit_abs, instruction_set_bit,
    extract_ite, length_ite, length_insert, extract_insert_disjoint, extract_insert_sub,
    extract_zero, vs_reg_type.val]

theorem field_varying (instr : vs_instr) (last : Int) :
    instruction_extract (emit_bits instr last) 2 5 =
      (if instr.vdst.type = VS_REG_TYPE_VAR then u32 instr.vdst.reg else 0) % 16 := by
  simp [emit_bits, fetch_last_bits, src_bits, emit_ops_bits, sat_varying_bits, vector_part,
    scalar_part, vector_bits, scalar_bits, emit_pred, emit_abs, instruction_set_bit,
    extract_ite, length_ite, length_insert, extract_insert_disjoint, extract_insert_sub,
    extract_zero, vs_reg_type.val]

theorem field_pred (instr : vs_instr) (last : Int) :
    instruction_extract (emit_bits instr last) 109 109 =
      0 := by
  simp [emit_bits, fetch_last_bits, src_bits, emit_ops_bits, sat_varying_bits, vector_part,
    scalar_part, vector_bits, scalar_bits, emit_pred, emit_abs, instruction_set_bit,
    extract_ite, length_ite, length_insert, extract_insert_disjoint, extract_insert_sub,
    extract_zero, vs_reg_type.val]

theorem field_pneg (instr : vs_instr) (last : Int) :
    instruction_extract (emit_bits instr last) 107 107 =
      1 := by
  simp [emit_bits, fetch_last_bits, src_bits, emit_ops_bits, sat_varying_bits, vector_part,
    scalar_part, vector_bits, scalar_bits, emit_pred, emit_abs, instruction_set_bit,
    extract_ite, length_ite, length_insert, extract_insert_disjoint, extract_insert_sub,
    extract_zero, vs_reg_type.val]

theorem field_psx (instr : vs_instr) (last : Int) :
    instruction_extract (emit_bits instr last) 104 105 =
      0 := by
  simp [emit_bits, fetch_last_bits, src_bits, emit_ops_bits, sat_varying_bits, vector_part,
    scalar_part, vector_bits, scalar_bits, emit_pred, emit_abs, instruction_set_bit,
    extract_ite, length_ite, length_insert, extract_insert_disjoint, extract_insert_sub,
    extract_zero, vs_reg_type.val]

theorem field_psy (instr : vs_instr) (last : Int) :
    instruction_extract (emit_bits instr last) 102 103 =
      1 := by
  simp [emit_bits, fetch_last_bits, src_bits, emit_ops_bits, sat_varying_bits, vector_part,
    scalar_part, vector_bits, scalar_bits, emit_pred, emit_abs, instruction_set_bit,
    extract_ite, length_ite, length_insert, extract_insert_disjoint, extract_insert_sub,
    extract_zero, vs_reg_type.val]

theorem field_psz (instr : vs_instr) (last : Int) :
    instruction_extract (emit_bits instr last) 100 101 =
      2 := by
  simp [emit_bits, fetch_last_bits, src_bits, emit_ops_bits, sat_varying_bits, vector_part,
    scalar_part, vector_bits, scalar_bits, emit_pred, emit_abs, instruction_set_bit,
    extract_ite, length_ite, length_insert, extract_insert_disjoint, extract_insert_sub,
    extract_zero, vs_reg_type.val]

theorem field_psw (instr : vs_instr) (last : Int) :
    instruction_extract (emit_bits instr last) 98 99 =
      3 := by
  simp [emit_bits, fetch_last_bits, src_bits, emit_ops_bits, sat_varying_bits, vector_part,
    scalar_part, vector_bits, scalar_bits, emit_pred, emit_abs, instruction_set_bit,
    extract_ite, length_ite, length_insert, extract_insert_disjoint, extract_insert_sub,
    extract_zero, vs_reg_type.val]

theorem field_write_varying (instr : vs_instr) (last : Int) :
    instruction_extract (emit_bits instr last) 126 126 =
      if instr.vdst.mask = 0 then 0 else (if instr.vdst.type = VS_REG_TYPE_VAR then 1 else 0) % 2 := by
  simp [emit_bits, fetch_last_bits, src_bits, emit_ops_bits, sat_varying_bits, vector_part,
    scalar_part, vector_bits, scalar_bits, emit_pred, emit_abs, instruction_set_bit,
    extract_ite, length_ite, length_insert, extract_insert_disjoint, extract_insert_sub,
    extract_zero, vs_reg_type.val]

theorem field_write_pred (instr : vs_instr) (last : Int) :
    instruction_extract (emit_bits instr last) 125 125 =
      0 := by
  simp [emit_bits, fetch_last_bits, src_bits, emit_ops_bits, sat_varying_bits, vector_part,
    scalar_part, vector_bits, scalar_bits, emit_pred, emit_abs, instruction_set_bit,
    extract_ite, length_ite, length_insert, extract_insert_disjoint, extract_insert_sub,
    extract_zero, vs_reg_type.val]

theorem field_sat (instr : vs_instr) (last : Int) :
    instruction_extract (emit_bits instr last) 122 122 =
      u32 (sat_of instr) % 2 := by
  simp [emit_bits, fetch_last_bits, src_bits, emit_ops_bits, sat_varying_bits, vector_part,
    scalar_part, vector_bits, scalar_bits, emit_pred, emit_abs, instruction_set_bit,
    extract_ite, length_ite, length_insert, extract_insert_disjoint, extract_insert_sub,
    extract_zero, vs_reg_type.val]

theorem field_vwx (instr : vs_instr) (last : Int) :
    instruction_extract (emit_bits instr last) 16 16 =
      if instr.vdst.mask = 0 then 0 else instr.vdst.mask / 8 % 2 := by
  simp [emit_bits, fetch_last_bits, src_bits, emit_ops_bits, sat_varying_bits, vector_part,
    scalar_part, vector_bits, scalar_bits, emit_pred, emit_abs, instruction_set_bit,
    extract_ite, length_ite, length_insert, extract_insert_disjoint, extract_insert_sub,
    extract_zero, vs_reg_type.val]

theorem field_vwy (instr : vs_instr) (last : Int) :
    instruction_extract (emit_bits instr last) 15 15 =
      if instr.vdst.mask = 0 then 0 else instr.vdst.mask / 4 % 2 := by
  simp [emit_bits, fetch_last_bits, src_bits, emit_ops_bits, sat_varying_bits, vector_part,
    scalar_part, vector_bits, scalar_bits, emit_pred, emit_abs, instruction_set_bit,
    extract_ite, length_ite, length_insert, extract_insert_disjoint, extract_insert_sub,
    extract_zero, vs_reg_type.val]

theorem field_vwz (instr : vs_instr) (last : Int) :
    instruction_extract (emit_bits instr last) 14 14 =
      if instr.vdst.mask = 0 then 0 else instr.vdst.mask / 2 % 2 := by
  simp [emit_bits, fetch_last_bits, src_bits, emit_ops_bits, sat_varying_bits, vector_part,
    scalar_part, vector_bits, scalar_bits, emit_pred, emit_abs, instruction_set_bit,
    extract_ite, length_ite, length_insert, extract_insert_disjoint, extract_insert_sub,
    extract_zero, vs_reg_type.val]

theorem field_vww (instr : vs_instr) (last : Int) :
    instruction_extract (emit_bits instr last) 13 13 =
      if instr.vdst.mask = 0 then 0 else instr.vdst.mask % 2 := by
  simp [emit_bits, fetch_last_bits, src_bits, emit_ops_bits, sat_varying_bits, vector_part,
    scalar_part, vector_bits, scalar_bits, emit_pred, emit_abs, instruction_set_bit,
    extract_ite, length_ite, length_insert, extract_insert_disjoint, extract_insert_sub,
    extract_zero, vs_reg_type.val]

theorem field_vop (instr : vs_instr) (last : Int) :
    instruction_extract (emit_bits instr last) 86 90 =
      if instr.vdst.mask = 0 then 0 else instr.vop % 32 := by
  simp [emit_bits, fetch_last_bits, src_bits, emit_ops_bits, sat_varying_bits, vector_part,
    scalar_part, vector_bits, scalar_bits, emit_pred, emit_abs, instruction_set_bit,
    extract_ite, length_ite, length_insert, extract_insert_disjoint, extract_insert_sub,
    extract_zero, vs_reg_type.val]

theorem field_vreg (instr : vs_instr) (last : Int) :
    instruction_extract (emit_bits instr last) 111 116 =
      if instr.vdst.mask = 0 then 0 else (if instr.vdst.type = VS_REG_TYPE_TEMP then u32 instr.vdst.reg else 63) % 64 := by
  simp [emit_bits, fetch_last_bits, src_bits, emit_ops_bits, sat_varying_bits, vector_part,
    scalar_part, vector_bits, scalar_bits, emit_pred, emit_abs, instruction_set_bit,
    extract_ite, length_ite, length_insert, extract_insert_disjoint, extract_insert_sub,
    extract_zero, vs_reg_type.val]

theorem field_swx (instr : vs_instr) (last : Int) :
    instruction_extract (emit_bits instr last) 20 20 =
      if instr.sdst.mask = 0 then 0 else instr.sdst.mask / 8 % 2 := by
  simp [emit_bits, fetch_last_bits, src_bits, emit_ops_bits, sat_varying_bits, vector_part,
    scalar_part, vector_bits, scalar_bits, emit_pred, emit_abs, instruction_set_bit,
    extract_ite, length_ite, length_insert, extract_insert_disjoint, extract_insert_sub,
    extract_zero, vs_reg_type.val]

theorem field_swy (instr : vs_instr) (last : Int) :
    instruction_extract (emit_bits instr last) 19 19 =
      if instr.sdst.mask = 0 then 0 else instr.sdst.mask / 4 % 2 := by
  simp [emit_bits, fetch_last_bits, src_bits, emit_ops_bits, sat_varying_bits, vector_part,
    scalar_part, vector_bits, scalar_bits, emit_pred, emit_abs, instruction_set_bit,
    extract_ite, length_ite, length_insert, extract_insert_disjoint, extract_insert_sub,
    extract_zero, vs_reg_type.val]

theorem field_swz (instr : vs_instr) (last : Int) :
    instruction_extract (emit_bits instr last) 18 18 =
      if instr.sdst.mask = 0 then 0 else instr.sdst.mask / 2 % 2 := by
  simp [emit_bits, fetch_last_bits, src_bits, emit_ops_bits, sat_varying_bits, vector_part,
    scalar_part, vector_bits, scalar_bits, emit_pred, emit_abs, instruction_set_bit,
    extract_ite, length_ite, length_insert, extract_insert_disjoint, extract_insert_sub,
    extract_zero, vs_reg_type.val]

theorem field_sww (instr : vs_instr) (last : Int) :
    instruction_extract (emit_bits instr last) 17 17 =
      if instr.sdst.mask = 0 then 0 else instr.sdst.mask % 2 := by
  simp [emit_bits, fetch_last_bits, src_bits, emit_ops_bits, sat_varying_bits, vector_part,
    scalar_part, vector_bits, scalar_bits, emit_pred, emit_abs, instruction_set_bit,
    extract_ite, length_ite, length_insert, extract_insert_disjoint, extract_insert_sub,
    extract_zero, vs_reg_type.val]

theorem field_sop (instr : vs_instr) (last : Int) :
    instruction_extract (emit_bits instr last) 91 94 =
      if instr.sdst.mask = 0 then 0 else instr.sop % 16 := by
  simp [emit_bits, fetch_last_bits, src_bits, emit_ops_bits, sat_varying_bits, vector_part,
    scalar_part, vector_bits, scalar_bits, emit_pred, emit_abs, instruction_set_bit,
    extract_ite, length_ite, length_insert, extract_insert_disjoint, extract_insert_sub,
    extract_zero, vs_reg_type.val]

theorem field_sreg (instr : vs_instr) (last : Int) :
    instruction_extract (emit_bits instr last) 7 12 =
      if instr.sdst.mask = 0 then 0 else (if instr.sdst.type = VS_REG_TYPE_TEMP then u32 instr.sdst.reg else 63) % 64 := by
  simp [emit_bits, fetch_last_bits, src_bits, emit_ops_bits, sat_varying_bits, vector_part,
    scalar_part, vector_bits, scalar_bits, emit_pred, emit_abs, instruction_set_bit,
    extract_ite, length_ite, length_insert, extract_insert_disjoint, extract_insert_sub,
    extract_zero, vs_reg_type.val]

theorem field_last (instr : vs_instr) (last : Int) :
    instruction_extract (emit_bits instr last) 0 0 =
      u32 last % 2 := by
  simp [emit_bits, fetch_last_bits, src_bits, emit_ops_bits, sat_varying_bits, vector_part,
    scalar_part, vector_bits, scalar_bits, emit_pred, emit_abs, instruction_set_bit,
    extract_ite, length_ite, length_insert, extract_insert_disjoint, extract_insert_sub,
    extract_zero, vs_reg_type.val]

theorem field_neg0 (instr : vs_instr) (last : Int) :
    instruction_extract (emit_bits instr last) 71 71 =
      u32 (instr.src 0).neg % 2 := by
  simp [emit_bits, fetch_last_bits, src_bits, emit_ops_bits, sat_varying_bits, vector_part,
    scalar_part, vector_bits, scalar_bits, emit_pred, emit_abs, instruction_set_bit,
    extract_ite, length_ite, length_insert, extract_insert_disjoint, extract_insert_sub,
    extract_zero, vs_reg_type.val]

theorem field_sx0 (instr : vs_instr) (last : Int) :
    instruction_extract (emit_bits instr last) 69 70 =
      (instr.src 0).swz / 64 % 4 := by
  simp [emit_bits, fetch_last_bits, src_bits, emit_ops_bits, sat_varying_bits, vector_part,
    scalar_part, vector_bits, scalar_bits, emit_pred, emit_abs, instruction_set_bit,
    extract_ite, length_ite, length_insert, extract_insert_disjoint, extract_insert_sub,
    extract_zero, vs_reg_type.val]

theorem field_sy0 (instr : vs_instr) (last : Int) :
    instruction_extract (emit_bits instr last) 67 68 =
      (instr.src 0).swz / 16 % 4 := by
  simp [emit_bits, fetch_last_bits, src_bits, emit_ops_bits, sat_varying_bits, vector_part,
    scalar_part, vector_bits, scalar_bits, emit_pred, emit_abs, instruction_set_bit,
    extract_ite, length_ite, length_insert, extract_insert_disjoint, extract_insert_sub,
    extract_zero, vs_reg_type.val]

theorem field_sz0 (instr : vs_instr) (last : Int) :
    instruction_extract (emit_bits instr last) 65 66 =
      (instr.src 0).swz / 4 % 4 := by
  simp [emit_bits, fetch_last_bits, src_bits, emit_ops_bits, sat_varying_bits, vector_part,
    scalar_part, vector_bits, scalar_bits, emit_pred, emit_abs, instruction_set_bit,
    extract_ite, length_ite, length_insert, extract_insert_disjoint, extract_insert_sub,
    extract_zero, vs_reg_type.val]

theorem field_sw0 (instr : vs_instr) (last : Int) :
    instruction_extract (emit_bits instr last) 63 64 =
      (instr.src 0).swz % 4 := by
  simp [emit_bits, fetch_last_bits, src_bits, emit_ops_bits, sat_varying_bits, vector_part,
    scalar_part, vector_bits, scalar_bits, emit_pred, emit_abs, instruction_set_bit,
    extract_ite, length_ite, length_insert, extract_insert_disjoint, extract_insert_sub,
    extract_zero, vs_reg_type.val]

theorem field_abs0 (instr : vs_instr) (last : Int) :
    instruction_extract (emit_bits instr last) 117 117 =
      u32 (instr.src 0).abs % 2 := by
  simp [emit_bits, fetch_last_bits, src_bits, emit_ops_bits, sat_varying_bits, vector_part,
    scalar_part, vector_bits, scalar_bits, emit_pred, emit_abs, instruction_set_bit,
    extract_ite, length_ite, length_insert, extract_insert_disjoint, extract_insert_sub,
    extract_zero, vs_reg_type.val]

theorem field_reg0 (instr : vs_instr) (last : Int) :
    instruction_extract (emit_bits instr last) 57 62 =
      u32 (slot_reg (instr.src 0)) % 64 := by
  simp [emit_bits, fetch_last_bits, src_bits, emit_ops_bits, sat_varying_bits, vector_part,
    scalar_part, vector_bits, scalar_bits, emit_pred, emit_abs, instruction_set_bit,
    extract_ite, length_ite, length_insert, extract_insert_disjoint, extract_insert_sub,
    extract_zero, vs_reg_type.val]

theorem field_type0 (instr : vs_instr) (last : Int) :
    instruction_extract (emit_bits instr last) 55 56 =
      (if (instr.src 0).type = VS_REG_TYPE_INVALID then 2 else (instr.src 0).type.val) % 4 := by
  simp [emit_bits, fetch_last_bits, src_bits, emit_ops_bits, sat_varying_bits, vector_part,
    scalar_part, vector_bits, scalar_bits, emit_pred, emit_abs, instruction_set_bit,
    extract_ite, length_ite, length_insert, extract_insert_disjoint, extract_insert_sub,
    extract_zero, vs_reg_type.val]

theorem field_neg1 (instr : vs_instr) (last : Int) :
    instruction_extract (emit_bits instr last) 54 54 =
      u32 (instr.src 1).neg % 2 := by
  simp [emit_bits, fetch_last_bits, src_bits, emit_ops_bits, sat_varying_bits, vector_part,
    scalar_part, vector_bits, scalar_bits, emit_pred, emit_abs, instruction_set_bit,
    extract_ite, length_ite, length_insert, extract_insert_disjoint, extract_insert_sub,
    extract_zero, vs_reg_type.val]

theorem field_sx1 (instr : vs_instr) (last : Int) :
    instruction_extract (emit_bits instr last) 52 53 =
      (instr.src 1).swz / 64 % 4 := by
  simp [emit_bits, fetch_last_bits, src_bits, emit_ops_bits, sat_varying_bits, vector_part,
    scalar_part, vector_bits, scalar_bits, emit_pred, emit_abs, instruction_set_bit,
    extract_ite, length_ite, length_insert, extract_insert_disjoint, extract_insert_sub,
    extract_zero, vs_reg_type.val]

theorem field_sy1 (instr : vs_instr) (last : Int) :
    instruction_extract (emit_bits instr last) 50 51 =
      (instr.src 1).swz / 16 % 4 := by
  simp [emit_bits, fetch_last_bits, src_bits, emit_ops_bits, sat_varying_bits, vector_part,
    scalar_part, vector_bits, scalar_bits, emit_pred, emit_abs, instruction_set_bit,
    extract_ite, length_ite, length_insert, extract_insert_disjoint, extract_insert_sub,
    extract_zero, vs_reg_type.val]

theorem field_sz1 (instr : vs_instr) (last : Int) :
    instruction_extract (emit_bits instr last) 48 49 =
      (instr.src 1).swz / 4 % 4 := by
  simp [emit_bits, fetch_last_bits, src_bits, emit_ops_bits, sat_varying_bits, vector_part,
    scalar_part, vector_bits, scalar_bits, emit_pred, emit_abs, instruction_set_bit,
    extract_ite, length_ite, length_insert, extract_insert_disjoint, extract_insert_sub,
    extract_zero, vs_reg_type.val]

theorem field_sw1 (instr : vs_instr) (last : Int) :
    instruction_extract (emit_bits instr last) 46 47 =
      (instr.src 1).swz % 4 := by
  simp [emit_bits, fetch_last_bits, src_bits, emit_ops_bits, sat_varying_bits, vector_part,
    scalar_part, vector_bits, scalar_bits, emit_pred, emit_abs, instruction_set_bit,
    extract_ite, length_ite, length_insert, extract_insert_disjoint, extract_insert_sub,
    extract_zero, vs_reg_type.val]

theorem field_abs1 (instr : vs_instr) (last : Int) :
    instruction_extract (emit_bits instr last) 118 118 =
      u32 (instr.src 1).abs % 2 := by
  simp [emit_bits, fetch_last_bits, src_bits, emit_ops_bits, sat_varying_bits, vector_part,
    scalar_part, vector_bits, scalar_bits, emit_pred, emit_abs, instruction_set_bit,
    extract_ite, length_ite, length_insert, extract_insert_disjoint, extract_insert_sub,
    extract_zero, vs_reg_type.val]

theorem field_reg1 (instr : vs_instr) (last : Int) :
    instruction_extract (emit_bits instr last) 40 45 =
      u32 (slot_reg (instr.src 1)) % 64 := by
  simp [emit_bits, fetch_last_bits, src_bits, emit_ops_bits, sat_varying_bits, vector_part,
    scalar_part, vector_bits, scalar_bits, emit_pred, emit_abs, instruction_set_bit,
    extract_ite, length_ite, length_insert, extract_insert_disjoint, extract_insert_sub,
    extract_zero, vs_reg_type.val]

theorem field_type1 (instr : vs_instr) (last : Int) :
    instruction_extract (emit_bits instr last) 38 39 =
      (if (instr.src 1).type = VS_REG_TYPE_INVALID then 2 else (instr.src 1).type.val) % 4 := by
  simp [emit_bits, fetch_last_bits, src_bits, emit_ops_bits, sat_varying_bits, vector_part,
    scalar_part, vector_bits, scalar_bits, emit_pred, emit_abs, instruction_set_bit,
    extract_ite, length_ite, length_insert, extract_insert_disjoint, extract_insert_sub,
    extract_zero, vs_reg_type.val]

theorem field_neg2 (instr : vs_instr) (last : Int) :
    instruction_extract (emit_bits instr last) 37 37 =
      u32 (instr.src 2).neg % 2 := by
  simp [emit_bits, fetch_last_bits, src_bits, emit_ops_bits, sat_varying_bits, vector_part,
    scalar_part, vector_bits, scalar_bits, emit_pred, emit_abs, instruction_set_bit,
    extract_ite, length_ite, length_insert, extract_insert_disjoint, extract_insert_sub,
    extract_zero, vs_reg_type.val]

theorem field_sx2 (instr : vs_instr) (last : Int) :
    instruction_extract (emit_bits instr last) 35 36 =
      (instr.src 2).swz / 64 % 4 := by
  simp [emit_bits, fetch_last_bits, src_bits, emit_ops_bits, sat_varying_bits, vector_part,
    scalar_part, vector_bits, scalar_bits, emit_pred, emit_abs, instruction_set_bit,
    extract_ite, length_ite, length_insert, extract_insert_disjoint, extract_insert_sub,
    extract_zero, vs_reg_type.val]

theorem field_sy2 (instr : vs_instr) (last : Int) :
    instruction_extract (emit_bits instr last) 33 34 =
      (instr.src 2).swz / 16 % 4 := by
  simp [emit_bits, fetch_last_bits, src_bits, emit_ops_bits, sat_varying_bits, vector_part,
    scalar_part, vector_bits, scalar_bits, emit_pred, emit_abs, instruction_set_bit,
    extract_ite, length_ite, length_insert, extract_insert_disjoint, extract_insert_sub,
    extract_zero, vs_reg_type.val]

theorem field_sz2 (instr : vs_instr) (last : Int) :
    instruction_extract (emit_bits instr last) 31 32 =
      (instr.src 2).swz / 4 % 4 := by
  simp [emit_bits, fetch_last_bits, src_bits, emit_ops_bits, sat_varying_bits, vector_part,
    scalar_part, vector_bits, scalar_bits, emit_pred, emit_abs, instruction_set_bit,
    extract_ite, length_ite, length_insert, extract_insert_disjoint, extract_insert_sub,
    extract_zero, vs_reg_type.val]

theorem field_sw2 (instr : vs_instr) (last : Int) :
    instruction_extract (emit_bits instr last) 29 30 =
      (instr.src 2).swz % 4 := by
  simp [emit_bits, fetch_last_bits, src_bits, emit_ops_bits, sat_varying_bits, vector_part,
    scalar_part, vector_bits, scalar_bits, emit_pred, emit_abs, instruction_set_bit,
    extract_ite, length_ite, length_insert, extract_insert_disjoint, extract_insert_sub,
    extract_zero, vs_reg_type.val]

theorem field_abs2 (instr : vs_instr) (last : Int) :
    instruction_extract (emit_bits instr last) 119 119 =
      u32 (instr.src 2).abs % 2 := by
  simp [emit_bits, fetch_last_bits, src_bits, emit_ops_bits, sat_varying_bits, vector_part,
    scalar_part, vector_bits, scalar_bits, emit_pred, emit_abs, instruction_set_bit,
    extract_ite, length_ite, length_insert, extract_insert_disjoint, extract_insert_sub,
    extract_zero, vs_reg_type.val]

theorem field_reg2 (instr : vs_instr) (last : Int) :
    instruction_extract (emit_bits instr last) 23 28 =
      u32 (slot_reg (instr.src 2)) % 64 := by
  simp [emit_bits, fetch_last_bits, src_bits, emit_ops_bits, sat_varying_bits, vector_part,
    scalar_part, vector_bits, scalar_bits, emit_pred, emit_abs, instruction_set_bit,
    extract_ite, length_ite, length_insert, extract_insert_disjoint, extract_insert_sub,
    extract_zero, vs_reg_type.val]

theorem field_type2 (instr : vs_instr) (last : Int) :
    instruction_extract (emit_bits instr last) 21 22 =
      (if (instr.src 2).type = VS_REG_TYPE_INVALID then 2 else (instr.src 2).type.val) % 4 := by
  simp [emit_bits, fetch_last_bits, src_bits, emit_ops_bits, sat_varying_bits, vector_part,
    scalar_part, vector_bits, scalar_bits, emit_pred, emit_abs, instruction_set_bit,
    extract_ite, length_ite, length_insert, extract_insert_disjoint, extract_insert_sub,
    extract_zero, vs_reg_type.val]

/-! ## The round trip -/

theorem swizzle_get (n : Nat) (h : n < 4) : swizzle[n]? = some (component_letter n) := by
  interval_cases n <;> rfl

theorem u32_of_nonneg (x : Int) (h0 : 0 ≤ x) (h1 : x < 4294967296) : u32 x = x.toNat := by
  unfold u32
  rw [Int.emod_eq_of_lt h0 h1]

theorem u32_zero : u32 0 = 0 := rfl
theorem u32_one : u32 1 = 1 := rfl

theorem flag_bit (x : Int) (h : is_flag x) : u32 x % 2 = x.toNat := by
  rcases h with h | h <;> subst h <;> rfl

theorem flag_ne (x : Int) (h : is_flag x) : x.toNat ≠ 0 ↔ x ≠ 0 := by
  rcases h with h | h <;> subst h <;> simp

theorem vec_src_text_eq (s : vs_src) (attrib constant : Nat) (hf : src_fits s)
    (hu : s.type ≠ VS_REG_TYPE_INVALID) (hv : s.type ≠ VS_REG_TYPE_VAR)
    (ha : s.type = VS_REG_TYPE_ATTR → attrib = s.reg.toNat)
    (hc : s.type = VS_REG_TYPE_CONST → constant = s.reg.toNat) :
    vec_src_text (u32 s.neg % 2) (s.swz / 64 % 4) (s.swz / 16 % 4) (s.swz / 4 % 4) (s.swz % 4)
      (u32 s.abs % 2) (u32 (slot_reg s) % 64)
      ((if s.type = VS_REG_TYPE_INVALID then 2 else s.type.val) % 4) attrib constant =
      some (expected_src s) := by
  obtain ⟨reg, type, swz, neg, abs⟩ := s
  obtain ⟨hswz, hneg, habs, ht, hat, hct⟩ := hf
  simp only [] at hswz hneg habs ht hat hct hu hv ha hc
  unfold vec_src_text expected_src expected_swizzle
  simp only []
  rw [flag_bit _ hneg, flag_bit _ habs]
  simp only [swizzle_get _ (Nat.mod_lt _ (by decide : 0 < 4)), flag_ne _ hneg, flag_ne _ habs]
  cases type
  · exact absurd rfl hu
  · obtain ⟨h0, h1⟩ := ht rfl
    have e : u32 reg % 64 = reg.toNat := by
      rw [u32_of_nonneg _ h0 (by omega)]; omega
    simp [slot_reg, vs_reg_type.val, reg_type_letters, reg_letter, src_reg, e]
  · obtain ⟨h0, h1⟩ := hat rfl
    simp [slot_reg, vs_reg_type.val, reg_type_letters, reg_letter, src_reg, ha rfl, u32_zero]
  · obtain ⟨h0, h1⟩ := hct rfl
    simp [slot_reg, vs_reg_type.val, reg_type_letters, reg_letter, src_reg, hc rfl, u32_zero]
  · exact absurd rfl hv

theorem afetch_of_eq (instr : vs_instr) (hA : slots_agree VS_REG_TYPE_ATTR instr) (i : Nat) (hi : i < 3)
    (h : (instr.src i).type = VS_REG_TYPE_ATTR) : afetch_of instr = (instr.src i).reg := by
  have a02 := fun h0 h2 => hA 0 (by decide) 2 (by decide) h0 h2
  have a01 := fun h0 h1 => hA 0 (by decide) 1 (by decide) h0 h1
  have a12 := fun h1 h2 => hA 1 (by decide) 2 (by decide) h1 h2
  unfold afetch_of afetch_step
  interval_cases i
  · by_cases h2 : (instr.src 2).type = VS_REG_TYPE_ATTR
    · rw [if_pos h2]; exact (a02 h h2).symm
    · rw [if_neg h2]
      by_cases h1 : (instr.src 1).type = VS_REG_TYPE_ATTR
      · rw [if_pos h1]; exact (a01 h h1).symm
      · rw [if_neg h1, if_pos h]
  · by_cases h2 : (instr.src 2).type = VS_REG_TYPE_ATTR
    · rw [if_pos h2]; exact (a12 h h2).symm
    · rw [if_neg h2, if_pos h]
  · rw [if_pos h]

theorem cfetch_of_eq (instr : vs_instr) (hA : slots_agree VS_REG_TYPE_CONST instr) (i : Nat) (hi : i < 3)
    (h : (instr.src i).type = VS_REG_TYPE_CONST) : cfetch_of instr = (instr.src i).reg := by
  have a02 := fun h0 h2 => hA 0 (by decide) 2 (by decide) h0 h2
  have a01 := fun h0 h1 => hA 0 (by decide) 1 (by decide) h0 h1
  have a12 := fun h1 h2 => hA 1 (by decide) 2 (by decide) h1 h2
  unfold cfetch_of cfetch_step
  interval_cases i
  · by_cases h2 : (instr.src 2).type = VS_REG_TYPE_CONST
    · rw [if_pos h2]; exact (a02 h h2).symm
    · rw [if_neg h2]
      by_cases h1 : (instr.src 1).type = VS_REG_TYPE_CONST
      · rw [if_pos h1]; exact (a01 h h1).symm
      · rw [if_neg h1, if_pos h]
  · by_cases h2 : (instr.src 2).type = VS_REG_TYPE_CONST
    · rw [if_pos h2]; exact (a12 h h2).symm
    · rw [if_neg h2, if_pos h]
  · rw [if_pos h]

theorem attribute_field_eq (instr : vs_instr) (hA : slots_agree VS_REG_TYPE_ATTR instr)
    (i : Nat) (hi : i < 3) (h : (instr.src i).type = VS_REG_TYPE_ATTR)
    (h0 : 0 ≤ (instr.src i).reg) (h1 : (instr.src i).reg < 16) :
    u32 (if afetch_of instr ≥ 0 then afetch_of instr else 0) % 16 = (instr.src i).reg.toNat := by
  rw [afetch_of_eq instr hA i hi h, if_pos h0, u32_of_nonneg _ h0 (by omega)]
  omega

theorem constant_field_eq (instr : vs_instr) (hA : slots_agree VS_REG_TYPE_CONST instr)
    (i : Nat) (hi : i < 3) (h : (instr.src i).type = VS_REG_TYPE_CONST)
    (h0 : 0 ≤ (instr.src i).reg) (h1 : (instr.src i).reg < 256) :
    u32 (if cfetch_of instr ≥ 0 then cfetch_of instr else 0) % 256 = (instr.src i).reg.toNat := by
  rw [cfetch_of_eq instr hA i hi h, if_pos h0, u32_of_nonneg _ h0 (by omega)]
  omega

theorem asserts_pass_of_agree (instr : vs_instr) (hC : slots_agree VS_REG_TYPE_CONST instr)
    (hA : slots_agree VS_REG_TYPE_ATTR instr)
    (hv : ∀ i, i < 3 → (instr.src i).type ≠ VS_REG_TYPE_VAR) (hd : dst_asserts_pass instr) :
    asserts_pass instr := by
  refine ⟨hd, ⟨fun _ => Or.inl (by decide), fun _ => Or.inl (by decide), hv 0 (by decide)⟩,
    ⟨?_, ?_, hv 1 (by decide)⟩, ⟨?_, ?_, hv 2 (by decide)⟩⟩
  · intro h1
    unfold cfetch_step
    by_cases h0 : (instr.src 0).type = VS_REG_TYPE_CONST
    · rw [if_pos h0]; exact Or.inr (hC 0 (by decide) 1 (by decide) h0 h1)
    · rw [if_neg h0]; exact Or.inl (by decide)
  · intro h1
    unfold afetch_step
    by_cases h0 : (instr.src 0).type = VS_REG_TYPE_ATTR
    · rw [if_pos h0]; exact Or.inr (hA 0 (by decide) 1 (by decide) h0 h1)
    · rw [if_neg h0]; exact Or.inl (by decide)
  · intro h2
    unfold cfetch_step
    by_cases h1 : (instr.src 1).type = VS_REG_TYPE_CONST
    · rw [if_pos h1]; exact Or.inr (hC 1 (by decide) 2 (by decide) h1 h2)
    · rw [if_neg h1]
      by_cases h0 : (instr.src 0).type = VS_REG_TYPE_CONST
      · rw [if_pos h0]; exact Or.inr (hC 0 (by decide) 2 (by decide) h0 h2)
      · rw [if_neg h0]; exact Or.inl (by decide)
  · intro h2
    unfold afetch_step
    by_cases h1 : (instr.src 1).type = VS_REG_TYPE_ATTR
    · rw [if_pos h1]; exact Or.inr (hA 1 (by decide) 2 (by decide) h1 h2)
    · rw [if_neg h1]
      by_cases h0 : (instr.src 0).type = VS_REG_TYPE_ATTR
      · rw [if_pos h0]; exact Or.inr (hA 0 (by decide) 2 (by decide) h0 h2)
      · rw [if_neg h0]; exact Or.inl (by decide)

theorem scalar_src_text_eq (s : vs_src) (attrib constant : Nat) (hf : src_fits s)
    (hu : s.type ≠ VS_REG_TYPE_INVALID) (hv : s.type ≠ VS_REG_TYPE_VAR)
    (ha : s.type = VS_REG_TYPE_ATTR → attrib = s.reg.toNat)
    (hc : s.type = VS_REG_TYPE_CONST → constant = s.reg.toNat) :
    scalar_src_text (u32 s.neg % 2) (s.swz / 64 % 4) (u32 s.abs % 2) (u32 (slot_reg s) % 64)
      ((if s.type = VS_REG_TYPE_INVALID then 2 else s.type.val) % 4) attrib constant =
      some (expected_scalar_src s) := by
  obtain ⟨reg, type, swz, neg, abs⟩ := s
  obtain ⟨hswz, hneg, habs, ht, hat, hct⟩ := hf
  simp only [] at hswz hneg habs ht hat hct hu hv ha hc
  unfold scalar_src_text expected_scalar_src
  simp only []
  rw [flag_bit _ hneg, flag_bit _ habs]
  simp only [swizzle_get _ (Nat.mod_lt _ (by decide : 0 < 4)), flag_ne _ hneg, flag_ne _ habs]
  cases type
  · exact absurd rfl hu
  · obtain ⟨h0, h1⟩ := ht rfl
    have e : u32 reg % 64 = reg.toNat := by
      rw [u32_of_nonneg _ h0 (by omega)]; omega
    simp [slot_reg, vs_reg_type.val, reg_type_letters, reg_letter, src_reg, e]
  · obtain ⟨h0, h1⟩ := hat rfl
    simp [slot_reg, vs_reg_type.val, reg_type_letters, reg_letter, src_reg, ha rfl, u32_zero]
  · obtain ⟨h0, h1⟩ := hct rfl
    simp [slot_reg, vs_reg_type.val, reg_type_letters, reg_letter, src_reg, hc rfl, u32_zero]
  · exact absurd rfl hv

theorem pred_text_emitted : pred_text 0 1 0 1 2 3 = some "" := rfl

theorem mask_ne_zero (mask : Nat) (h : mask < 16) :
    (mask / 8 % 2 ≠ 0 ∨ mask / 4 % 2 ≠ 0 ∨ mask / 2 % 2 ≠ 0 ∨ mask % 2 ≠ 0) ↔ mask ≠ 0 := by
  omega

theorem dst_text_temp (wv varying sat mask : Nat) (dst : vs_dst) (hf : dst_fits dst)
    (ht : dst.type = VS_REG_TYPE_TEMP) (hs : sat = dst.sat.toNat) (hm : mask = dst.mask) :
    dst_text wv 0 varying ((if dst.type = VS_REG_TYPE_TEMP then u32 dst.reg else 63) % 64) sat
      (mask / 8 % 2) (mask / 4 % 2) (mask / 2 % 2) (mask % 2) = expected_dst dst := by
  obtain ⟨reg, type, dmask, dsat⟩ := dst
  obtain ⟨hmask, hsat, htemp, hvar⟩ := hf
  simp only [] at hmask hsat htemp hvar ht hs hm
  subst ht hs hm
  obtain ⟨h0, h1⟩ := htemp rfl
  have e : u32 reg % 64 = reg.toNat := by
    rw [u32_of_nonneg _ h0 (by omega)]; omega
  have e2 : ¬ reg.toNat = 63 := by omega
  unfold dst_text expected_dst
  simp [e, e2, flag_ne _ hsat]

theorem dst_text_var (sat mask : Nat) (dst : vs_dst) (hf : dst_fits dst)
    (ht : dst.type = VS_REG_TYPE_VAR) (hs : sat = dst.sat.toNat) (hm : mask = dst.mask) :
    dst_text ((if dst.type = VS_REG_TYPE_VAR then 1 else 0) % 2) 0
      ((if dst.type = VS_REG_TYPE_VAR then u32 dst.reg else 0) % 16)
      ((if dst.type = VS_REG_TYPE_TEMP then u32 dst.reg else 63) % 64) sat
      (mask / 8 % 2) (mask / 4 % 2) (mask / 2 % 2) (mask % 2) = expected_dst dst := by
  obtain ⟨reg, type, dmask, dsat⟩ := dst
  obtain ⟨hmask, hsat, htemp, hvar⟩ := hf
  simp only [] at hmask hsat htemp hvar ht hs hm
  subst ht hs hm
  obtain ⟨h0, h1⟩ := hvar rfl
  have e : u32 reg % 16 = reg.toNat := by
    rw [u32_of_nonneg _ h0 (by omega)]; omega
  unfold dst_text expected_dst
  simp [e, flag_ne _ hsat]

theorem u8_extract (inst : instruction) (lo hi : Nat) (h : hi < lo + 8) :
    u8 (instruction_extract inst lo hi) = instruction_extract inst lo hi := by
  unfold u8
  apply Nat.mod_eq_of_lt
  have h1 := extract_lt inst lo hi
  have h2 : 2 ^ (hi - lo + 1) ≤ 2 ^ 8 := Nat.pow_le_pow_right (by decide) (by omega)
  omega

theorem disassemble_vec_emitted (instr : vs_instr) (last : Int) (hc : self_consistent instr)
    (hr : renderable instr) :
    disassemble_vec (emit_bits instr last) = some (expected_vec instr) := by
  obtain ⟨hvop, hsop, hvd, hsd, hsrc, hA, hsat, hvar, hnv⟩ := hc
  unfold disassemble_vec expected_vec
  simp only [instruction_get_bit]
  simp only [u8_extract, Nat.reduceAdd, Nat.reduceLT, Nat.lt_add_one]
  simp only [field_constant, field_attribute, field_varying, field_pred, field_pneg, field_psx,
    field_psy, field_psz, field_psw, field_write_varying, field_write_pred, field_sat,
    field_vwx, field_vwy, field_vwz, field_vww, field_vop, field_vreg,
    field_neg0, field_sx0, field_sy0, field_sz0, field_sw0, field_abs0, field_reg0, field_type0,
    field_neg1, field_sx1, field_sy1, field_sz1, field_sw1, field_abs1, field_reg1, field_type1,
    field_neg2, field_sx2, field_sy2, field_sz2, field_sw2, field_abs2, field_reg2, field_type2]
  by_cases hm : instr.vdst.mask = 0
  · simp [hm]
  · obtain ⟨hty, hu0, hu1, hu2⟩ := hr.1 hm
    have hsatv : u32 (sat_of instr) % 2 = instr.vdst.sat.toNat := by
      unfold sat_of; rw [if_pos hm]; exact flag_bit _ hvd.2.1
    have e0 := vec_src_text_eq (instr.src 0)
      (u32 (if afetch_of instr ≥ 0 then afetch_of instr else 0) % 16)
      (u32 (if cfetch_of instr ≥ 0 then cfetch_of instr else 0) % 256)
      (hsrc 0 (by decide)) hu0 (hnv 0 (by decide))
      (fun h => attribute_field_eq instr hA.2 0 (by decide) h
        ((hsrc 0 (by decide)).2.2.2.2.1 h).1 ((hsrc 0 (by decide)).2.2.2.2.1 h).2)
      (fun h => constant_field_eq instr hA.1 0 (by decide) h
        ((hsrc 0 (by decide)).2.2.2.2.2 h).1 ((hsrc 0 (by decide)).2.2.2.2.2 h).2)
    have e1 := fun hu => vec_src_text_eq (instr.src 1)
      (u32 (if afetch_of instr ≥ 0 then afetch_of instr else 0) % 16)
      (u32 (if cfetch_of instr ≥ 0 then cfetch_of instr else 0) % 256)
      (hsrc 1 (by decide)) (hu1 hu) (hnv 1 (by decide))
      (fun h => attribute_field_eq instr hA.2 1 (by decide) h
        ((hsrc 1 (by decide)).2.2.2.2.1 h).1 ((hsrc 1 (by decide)).2.2.2.2.1 h).2)
      (fun h => constant_field_eq instr hA.1 1 (by decide) h
        ((hsrc 1 (by decide)).2.2.2.2.2 h).1 ((hsrc 1 (by decide)).2.2.2.2.2 h).2)
    have e2 := fun hu => vec_src_text_eq (instr.src 2)
      (u32 (if afetch_of instr ≥ 0 then afetch_of instr else 0) % 16)
      (u32 (if cfetch_of instr ≥ 0 then cfetch_of instr else 0) % 256)
      (hsrc 2 (by decide)) (hu2 hu) (hnv 2 (by decide))
      (fun h => attribute_field_eq instr hA.2 2 (by decide) h
        ((hsrc 2 (by decide)).2.2.2.2.1 h).1 ((hsrc 2 (by decide)).2.2.2.2.1 h).2)
      (fun h => constant_field_eq instr hA.1 2 (by decide) h
        ((hsrc 2 (by decide)).2.2.2.2.2 h).1 ((hsrc 2 (by decide)).2.2.2.2.2 h).2)
    have hd : dst_text ((if instr.vdst.type = VS_REG_TYPE_VAR then 1 else 0) % 2) 0
        ((if instr.vdst.type = VS_REG_TYPE_VAR then u32 instr.vdst.reg else 0) % 16)
        ((if instr.vdst.type = VS_REG_TYPE_TEMP then u32 instr.vdst.reg else 63) % 64)
        (u32 (sat_of instr) % 2) (instr.vdst.mask / 8 % 2) (instr.vdst.mask / 4 % 2)
        (instr.vdst.mask / 2 % 2) (instr.vdst.mask % 2) = expected_dst instr.vdst := by
      rcases hty with ht | ht
      · exact dst_text_temp _ _ _ _ _ hvd ht hsatv rfl
      · exact dst_text_var _ _ _ hvd ht hsatv rfl
    simp only [hm, if_false, Nat.mod_eq_of_lt hvop, if_pos ((mask_ne_zero _ hvd.1).mpr hm),
      pred_text_emitted, e0, hd, ne_eq, not_false_eq_true, if_true]
    by_cases hb : (vec_opcode instr.vop).2.1 = true
    · by_cases hcc : (vec_opcode instr.vop).2.2 = true
      · simp [hb, hcc, e1 hb, e2 hcc]
      · simp [hb, hcc, e1 hb]
    · by_cases hcc : (vec_opcode instr.vop).2.2 = true
      · simp [hb, hcc, e2 hcc]
      · simp [hb, hcc]

theorem disassemble_scalar_emitted (instr : vs_instr) (last : Int) (hc : self_consistent instr)
    (hr : renderable instr) :
    disassemble_scalar (emit_bits instr last) = some (expected_scalar instr) := by
  obtain ⟨hvop, hsop, hvd, hsd, hsrc, hA, hsat, hvar, hnv⟩ := hc
  unfold disassemble_scalar expected_scalar
  simp only [instruction_get_bit]
  simp only [u8_extract, Nat.reduceAdd, Nat.reduceLT, Nat.lt_add_one]
  simp only [field_constant, field_attribute, field_varying, field_pred, field_pneg, field_psx,
    field_psy, field_psz, field_psw, field_write_varying, field_write_pred, field_sat,
    field_swx, field_swy, field_swz, field_sww, field_sop, field_sreg,
    field_neg2, field_sx2, field_abs2, field_reg2, field_type2]
  by_cases hm : instr.sdst.mask = 0
  · simp [hm]
  · obtain ⟨hty, hu2⟩ := hr.2 hm
    have hsats : u32 (sat_of instr) % 2 = instr.sdst.sat.toNat := by
      unfold sat_of
      by_cases hv : instr.vdst.mask = 0
      · rw [if_neg (by simpa using hv), if_pos hm]; exact flag_bit _ hsd.2.1
      · rw [if_pos hv, hsat hv hm]; exact flag_bit _ hsd.2.1
    have e2 := scalar_src_text_eq (instr.src 2)
      (u32 (if afetch_of instr ≥ 0 then afetch_of instr else 0) % 16)
      (u32 (if cfetch_of instr ≥ 0 then cfetch_of instr else 0) % 256)
      (hsrc 2 (by decide)) hu2 (hnv 2 (by decide))
      (fun h => attribute_field_eq instr hA.2 2 (by decide) h
        ((hsrc 2 (by decide)).2.2.2.2.1 h).1 ((hsrc 2 (by decide)).2.2.2.2.1 h).2)
      (fun h => constant_field_eq instr hA.1 2 (by decide) h
        ((hsrc 2 (by decide)).2.2.2.2.2 h).1 ((hsrc 2 (by decide)).2.2.2.2.2 h).2)
    have hd : ∀ wv varying, dst_text wv 0 varying
        ((if instr.sdst.type = VS_REG_TYPE_TEMP then u32 instr.sdst.reg else 63) % 64)
        (u32 (sat_of instr) % 2) (instr.sdst.mask / 8 % 2) (instr.sdst.mask / 4 % 2)
        (instr.sdst.mask / 2 % 2) (instr.sdst.mask % 2) = expected_dst instr.sdst :=
      fun wv varying => dst_text_temp wv varying _ _ _ hsd hty hsats rfl
    simp only [hm, if_false, Nat.mod_eq_of_lt hsop, if_pos ((mask_ne_zero _ hsd.1).mpr hm),
      pred_text_emitted, e2, hd, ne_eq, not_false_eq_true, if_true]
    simp

theorem disassemble_done_emitted (instr : vs_instr) (last : Bool) :
    disassemble_done (emit_bits instr (if last then 1 else 0)) =
      if last then "    done\n" else "" := by
  unfold disassemble_done instruction_get_bit
  rw [field_last]
  cases last <;> simp [u32_zero, u32_one]

theorem dst_asserts_of_renderable (instr : vs_instr) (hc : self_consistent instr)
    (hr : renderable instr) : dst_asserts_pass instr := by
  intro hv
  refine ⟨?_, ?_⟩
  · intro h1 h2
    have := (hr.2 h2).1
    rw [h1] at this
    exact absurd this (by decide)
  · intro h2
    exact Or.inr (hc.2.2.2.2.2.2.1 hv h2).symm

theorem asserts_pass_of_consistent (instr : vs_instr) (hc : self_consistent instr)
    (hr : renderable instr) : asserts_pass instr :=
  asserts_pass_of_agree instr hc.2.2.2.2.2.1.1 hc.2.2.2.2.2.1.2 hc.2.2.2.2.2.2.2.2
    (dst_asserts_of_renderable instr hc hr)

/-- C1 (amended): for every self-consistent descriptor (every field fitting its
bit field, with a temp destination index below 63 and a varying destination
index below 16; agreeing constant and attribute fetches; agreeing saturate flags
and varying targets of two present ops; no varying source) whose present vector
op writes a temp or a varying, whose present scalar op writes a temp, and whose
printed source slots are all in use, and for both values of the last flag,
`vs_emit_instr` succeeds and disassembling the four words it wrote yields exactly
the mnemonic text derived from the descriptor. -/
theorem C1_round_trip (stream : List Nat) (instr : vs_instr) (last : Bool)
    (hs : stream.length = 4) (hc : self_consistent instr) (hr : renderable instr) :
    (vs_emit_instr true stream instr (if last then 1 else 0)).outcome = .emitted ∧
    disassemble_ops (instruction_create_from_words
        (vs_emit_instr true stream instr (if last then 1 else 0)).stream 4) =
      some (expected_mnemonic_text instr last) := by
  have hp := asserts_pass_of_consistent instr hc hr
  refine ⟨by rw [vs_emit_instr_ok _ _ _ hp], ?_⟩
  rw [decode_emitted _ _ _ hp hs]
  unfold disassemble_ops expected_mnemonic_text
  rw [disassemble_vec_emitted _ _ hc hr, disassemble_scalar_emitted _ _ hc hr,
    disassemble_done_emitted]
  rfl

/-- C1 witness: the vector-only `dp4 r0.xyzw, v3.xyzw, -abs(c9.xyzw)`, last
flag set, is self-consistent and renderable, and its four emitted words
disassemble to exactly that line followed by the terminal marker. -/
theorem C1_round_trip_witness :
    self_consistent dp4_instr ∧ renderable dp4_instr ∧
    disassemble_ops (instruction_create_from_words
        (vs_emit_instr true [0, 0, 0, 0] dp4_instr 1).stream 4) =
      some "      vec op\n        dp4 r0.xyzw, v3.xyzw, -abs(c9.xyzw)\n    done\n" :=
  ⟨by decide, by decide,
    (C1_round_trip [0, 0, 0, 0] dp4_instr true rfl (by decide) (by decide)).2⟩

set_option maxRecDepth 100000 in
/-- C1 counterexample: two self-consistent descriptors that encode, and whose
disassembly is not the text of the descriptor. A vector op with an unassigned
opcode prints its two unused source slots as attribute `v0` instead of as unused;
a scalar op writing varying 3 is printed with destination `r63` instead of `o3`. -/
theorem C1_counterexample :
    (self_consistent unknown_op_instr ∧
      (vs_emit_instr true [0, 0, 0, 0] unknown_op_instr 0).outcome = .emitted ∧
      disassemble_ops (instruction_create_from_words
          (vs_emit_instr true [0, 0, 0, 0] unknown_op_instr 0).stream 4) =
        some "      vec op\n        unknown(6) r0.xyzw, r1.xyzw, v0.xxxx, v0.xxxx\n" ∧
      expected_mnemonic_text unknown_op_instr false =
        "      vec op\n        unknown(6) r0.xyzw, r1.xyzw, ?0.xxxx, ?0.xxxx\n" ∧
      disassemble_ops (instruction_create_from_words
          (vs_emit_instr true [0, 0, 0, 0] unknown_op_instr 0).stream 4) ≠
        some (expected_mnemonic_text unknown_op_instr false)) ∧
    (self_consistent scalar_varying_instr ∧
      (vs_emit_instr true [0, 0, 0, 0] scalar_varying_instr 0).outcome = .emitted ∧
      disassemble_ops (instruction_create_from_words
          (vs_emit_instr true [0, 0, 0, 0] scalar_varying_instr 0).stream 4) =
        some "      scalar op\n        mov r63.x, r1.x\n" ∧
      expected_mnemonic_text scalar_varying_instr false =
        "      scalar op\n        mov o3.x, r1.x\n" ∧
      disassemble_ops (instruction_create_from_words
          (vs_emit_instr true [0, 0, 0, 0] scalar_varying_instr 0).stream 4) ≠
        some (expected_mnemonic_text scalar_varying_instr false)) := by
  refine ⟨⟨by decide, by decide, by decide, by decide, by decide⟩,
    ⟨by decide, by decide, by decide, by decide, by decide⟩⟩

set_option maxRecDepth 100000 in
/-- Why a temp destination must stay below 63 for the round trip: a vector
`mov o3.xyzw, r1.xyzw` paired with a scalar `mov r63.x, r1.x` is renderable, its
fields all fit their bit widths and its assertions hold, so it is emitted; but
the scalar destination field 63 together with the varying-write flag of the
vector op reads back as `o3`, not as `r63`. The descriptor is not
self-consistent, because `dst_fits` asks for a temp index below 63. -/
theorem temp_63_reads_as_varying :
    renderable temp_63_instr ∧ ¬ self_consistent temp_63_instr ∧
    temp_63_instr.sdst.reg < 64 ∧
    (vs_emit_instr true [0, 0, 0, 0] temp_63_instr 0).outcome = .emitted ∧
    disassemble_ops (instruction_create_from_words
        (vs_emit_instr true [0, 0, 0, 0] temp_63_instr 0).stream 4) =
      some "      vec op\n        mov o3.xyzw, r1.xyzw\n      scalar op\n        mov o3.x, r1.x\n" ∧
    expected_mnemonic_text temp_63_instr false =
      "      vec op\n        mov o3.xyzw, r1.xyzw\n      scalar op\n        mov r63.x, r1.x\n" := by
  refine ⟨by decide, by decide, by decide, by decide, by decide, by decide⟩

/-! ## Failing assertions -/

theorem emit_vector_error (instr : vs_instr) (inst : instruction) (h : ¬ dst_asserts_pass instr) :
    ∃ e, emit_vector instr
        (emit_scalar instr { inst := inst, cfetch := -1, afetch := -1, vwrite := -1, sat := -1 }) =
      .error e ∧ (e = .varying_write_mismatch ∨ e = .saturate_mismatch) := by
  unfold dst_asserts_pass at h
  unfold emit_vector emit_scalar
  by_cases hv : instr.vdst.mask = 0
  · exact absurd (fun c => absurd hv c) h
  · by_cases hs : instr.sdst.mask = 0
    · exfalso; apply h; intro _
      exact ⟨fun _ c => absurd hs c, fun c => absurd hs c⟩
    · simp only [ne_eq, hv, not_false_eq_true, hs, if_true]
      by_cases c1 : instr.sdst.type = VS_REG_TYPE_VAR ∧
          ¬ ((if instr.vdst.type = VS_REG_TYPE_VAR then instr.vdst.reg else -1) < 0 ∨
            (if instr.vdst.type = VS_REG_TYPE_VAR then instr.vdst.reg else -1) = instr.vdst.sat)
      · rw [if_pos c1]; exact ⟨_, rfl, Or.inl rfl⟩
      · rw [if_neg c1]
        by_cases c2 : ¬ (instr.sdst.sat < 0 ∨ instr.sdst.sat = instr.vdst.sat)
        · rw [if_pos c2]; exact ⟨_, rfl, Or.inr rfl⟩
        · exfalso; apply h; intro _
          refine ⟨fun a _ b => ?_, fun _ => not_not.mp c2⟩
          have := not_not.mp (not_and.mp c1 a)
          simpa [b] using this

theorem emit_src_error (i : Nat) (src : vs_src) (st : emit_state)
    (h : ¬ src_asserts_pass src st.cfetch st.afetch) :
    ∃ e, emit_src i src st = .error e ∧
      (e = .cfetch_conflict ∨ e = .afetch_conflict ∨ e = .varying_source) ∧
      (e = .cfetch_conflict →
        (src.type = VS_REG_TYPE_CONST ∧ ¬ (st.cfetch < 0 ∨ st.cfetch = src.reg))) ∧
      (e = .afetch_conflict →
        (src.type = VS_REG_TYPE_ATTR ∧ ¬ (st.afetch < 0 ∨ st.afetch = src.reg))) ∧
      (e = .varying_source → src.type = VS_REG_TYPE_VAR) := by
  unfold src_asserts_pass at h
  unfold emit_src
  by_cases c1 : src.type = VS_REG_TYPE_CONST ∧ ¬ (st.cfetch < 0 ∨ st.cfetch = src.reg)
  · rw [if_pos c1]
    exact ⟨_, rfl, Or.inl rfl, fun _ => c1, fun c => (by cases c), fun c => (by cases c)⟩
  · rw [if_neg c1]
    by_cases c2 : src.type = VS_REG_TYPE_ATTR ∧ ¬ (st.afetch < 0 ∨ st.afetch = src.reg)
    · rw [if_pos c2]
      exact ⟨_, rfl, Or.inr (Or.inl rfl), fun c => (by cases c), fun _ => c2,
        fun c => (by cases c)⟩
    · rw [if_neg c2]
      by_cases c3 : src.type = VS_REG_TYPE_VAR
      · rw [if_pos c3]
        exact ⟨_, rfl, Or.inr (Or.inr rfl), fun c => (by cases c), fun c => (by cases c),
          fun _ => c3⟩
      · exfalso; apply h
        exact ⟨fun a => not_not.mp (not_and.mp c1 a), fun a => not_not.mp (not_and.mp c2 a), c3⟩

theorem const_asserts_of_agree (instr : vs_instr) (hC : slots_agree VS_REG_TYPE_CONST instr) :
    ((instr.src 1).type = VS_REG_TYPE_CONST →
      cfetch_step (instr.src 0) (-1) < 0 ∨ cfetch_step (instr.src 0) (-1) = (instr.src 1).reg) ∧
    ((instr.src 2).type = VS_REG_TYPE_CONST →
      cfetch_step (instr.src 1) (cfetch_step (instr.src 0) (-1)) < 0 ∨
      cfetch_step (instr.src 1) (cfetch_step (instr.src 0) (-1)) = (instr.src 2).reg) := by
  refine ⟨?_, ?_⟩
  · intro h1
    unfold cfetch_step
    by_cases h0 : (instr.src 0).type = VS_REG_TYPE_CONST
    · rw [if_pos h0]; exact Or.inr (hC 0 (by decide) 1 (by decide) h0 h1)
    · rw [if_neg h0]; exact Or.inl (by decide)
  · intro h2
    unfold cfetch_step
    by_cases h1 : (instr.src 1).type = VS_REG_TYPE_CONST
    · rw [if_pos h1]; exact Or.inr (hC 1 (by decide) 2 (by decide) h1 h2)
    · rw [if_neg h1]
      by_cases h0 : (instr.src 0).type = VS_REG_TYPE_CONST
      · rw [if_pos h0]; exact Or.inr (hC 0 (by decide) 2 (by decide) h0 h2)
      · rw [if_neg h0]; exact Or.inl (by decide)

theorem attr_asserts_of_agree (instr : vs_instr) (hA : slots_agree VS_REG_TYPE_ATTR instr) :
    ((instr.src 1).type = VS_REG_TYPE_ATTR →
      afetch_step (instr.src 0) (-1) < 0 ∨ afetch_step (instr.src 0) (-1) = (instr.src 1).reg) ∧
    ((instr.src 2).type = VS_REG_TYPE_ATTR →
      afetch_step (instr.src 1) (afetch_step (instr.src 0) (-1)) < 0 ∨
      afetch_step (instr.src 1) (afetch_step (instr.src 0) (-1)) = (instr.src 2).reg) := by
  refine ⟨?_, ?_⟩
  · intro h1
    unfold afetch_step
    by_cases h0 : (instr.src 0).type = VS_REG_TYPE_ATTR
    · rw [if_pos h0]; exact Or.inr (hA 0 (by decide) 1 (by decide) h0 h1)
    · rw [if_neg h0]; exact Or.inl (by decide)
  · intro h2
    unfold afetch_step
    by_cases h1 : (instr.src 1).type = VS_REG_TYPE_ATTR
    · rw [if_pos h1]; exact Or.inr (hA 1 (by decide) 2 (by decide) h1 h2)
    · rw [if_neg h1]
      by_cases h0 : (instr.src 0).type = VS_REG_TYPE_ATTR
      · rw [if_pos h0]; exact Or.inr (hA 0 (by decide) 2 (by decide) h0 h2)
      · rw [if_neg h0]; exact Or.inl (by decide)

theorem src_error_kind_of (instr : vs_instr) (e : emit_error) (k : Nat) (hk : k < 3)
    (cf af : Int)
    (hc : slots_agree VS_REG_TYPE_CONST instr →
      ((instr.src k).type = VS_REG_TYPE_CONST → cf < 0 ∨ cf = (instr.src k).reg))
    (ha : slots_agree VS_REG_TYPE_ATTR instr →
      ((instr.src k).type = VS_REG_TYPE_ATTR → af < 0 ∨ af = (instr.src k).reg))
    (h1 : e = .cfetch_conflict ∨ e = .afetch_conflict ∨ e = .varying_source)
    (h2 : e = .cfetch_conflict →
      ((instr.src k).type = VS_REG_TYPE_CONST ∧ ¬ (cf < 0 ∨ cf = (instr.src k).reg)))
    (h3 : e = .afetch_conflict →
      ((instr.src k).type = VS_REG_TYPE_ATTR ∧ ¬ (af < 0 ∨ af = (instr.src k).reg)))
    (h4 : e = .varying_source → (instr.src k).type = VS_REG_TYPE_VAR) :
    src_error_kind instr e := by
  refine ⟨h1, ?_, ?_⟩
  · intro hA hv
    rcases h1 with h | h | h
    · exact h
    · exact absurd (ha hA (h3 h).1) (h3 h).2
    · exact absurd (h4 h) (hv k hk)
  · intro hC hv
    rcases h1 with h | h | h
    · exact absurd (hc hC (h2 h).1) (h2 h).2
    · exact h
    · exact absurd (h4 h) (hv k hk)

/-- The error `emit_build` stops at when some assertion does not hold. -/
theorem emit_build_error (instr : vs_instr) (last : Int) (h : ¬ asserts_pass instr) :
    ∃ e, emit_build instr last ⟨List.replicate 4 0⟩ = .error e ∧
      (dst_asserts_pass instr → src_error_kind instr e) := by
  by_cases hd : dst_asserts_pass instr
  · obtain ⟨vw, hvec⟩ := emit_vector_ok instr (emit_pred (emit_abs instr ⟨List.replicate 4 0⟩)) hd
    unfold emit_build
    simp only [bind, Except.bind, pure, Except.pure, hvec, emit_sat_varying]
    by_cases h0 : src_asserts_pass (instr.src 0) (-1) (-1)
    · have e0 := emit_src_ok 0 (instr.src 0)
        { inst := emit_ops_bits instr, cfetch := -1, afetch := -1, vwrite := vw,
          sat := sat_of instr } h0
      simp only [] at e0
      unfold emit_ops_bits at e0
      simp only [e0]
      by_cases h1 : src_asserts_pass (instr.src 1) (cfetch_step (instr.src 0) (-1))
          (afetch_step (instr.src 0) (-1))
      · have e1 := emit_src_ok 1 (instr.src 1)
          { inst := src_bits 0 (instr.src 0) (emit_ops_bits instr),
            cfetch := cfetch_step (instr.src 0) (-1), afetch := afetch_step (instr.src 0) (-1),
            vwrite := vw, sat := sat_of instr } h1
        simp only [] at e1
        unfold emit_ops_bits at e1
        simp only [e1]
        have h2 : ¬ src_asserts_pass (instr.src 2)
            (cfetch_step (instr.src 1) (cfetch_step (instr.src 0) (-1)))
            (afetch_step (instr.src 1) (afetch_step (instr.src 0) (-1))) :=
          fun c => h ⟨hd, h0, h1, c⟩
        obtain ⟨e, he, k1, k2, k3, k4⟩ := emit_src_error 2 (instr.src 2)
          { inst := src_bits 1 (instr.src 1) (src_bits 0 (instr.src 0) (emit_ops_bits instr)),
            cfetch := cfetch_step (instr.src 1) (cfetch_step (instr.src 0) (-1)),
            afetch := afetch_step (instr.src 1) (afetch_step (instr.src 0) (-1)),
            vwrite := vw, sat := sat_of instr } h2
        unfold emit_ops_bits at he
        simp only [he]
        exact ⟨e, rfl, fun _ => src_error_kind_of instr e 2 (by decide) _ _
          (fun hC => (const_asserts_of_agree instr hC).2)
          (fun hA => (attr_asserts_of_agree instr hA).2) k1 k2 k3 k4⟩
      · obtain ⟨e, he, k1, k2, k3, k4⟩ := emit_src_error 1 (instr.src 1)
          { inst := src_bits 0 (instr.src 0) (emit_ops_bits instr),
            cfetch := cfetch_step (instr.src 0) (-1), afetch := afetch_step (instr.src 0) (-1),
            vwrite := vw, sat := sat_of instr } h1
        unfold emit_ops_bits at he
        simp only [he]
        exact ⟨e, rfl, fun _ => src_error_kind_of instr e 1 (by decide) _ _
          (fun hC => (const_asserts_of_agree instr hC).1)
          (fun hA => (attr_asserts_of_agree instr hA).1) k1 k2 k3 k4⟩
    · obtain ⟨e, he, k1, k2, k3, k4⟩ := emit_src_error 0 (instr.src 0)
        { inst := emit_ops_bits instr, cfetch := -1, afetch := -1, vwrite := vw,
          sat := sat_of instr } h0
      unfold emit_ops_bits at he
      simp only [he]
      exact ⟨e, rfl, fun _ => src_error_kind_of instr e 0 (by decide) (-1) (-1)
        (fun _ _ => Or.inl (by decide)) (fun _ _ => Or.inl (by decide)) k1 k2 k3 k4⟩
  · obtain ⟨e, he, _⟩ :=
      emit_vector_error instr (emit_pred (emit_abs instr ⟨List.replicate 4 0⟩)) hd
    unfold emit_build
    simp only [bind, Except.bind, pure, Except.pure, he]
    exact ⟨e, rfl, fun c => absurd c hd⟩

theorem vs_emit_instr_failed (stream : List Nat) (instr : vs_instr) (last : Int)
    (h : ¬ asserts_pass instr) :
    ∃ e, vs_emit_instr true stream instr last =
        { outcome := .assertion_failed e, stream := stream } ∧
      (dst_asserts_pass instr → src_error_kind instr e) := by
  obtain ⟨e, he, hk⟩ := emit_build_error instr last h
  refine ⟨e, ?_, hk⟩
  unfold vs_emit_instr instruction_create
  simp only [if_true, he]

theorem vs_emit_instr_no_memory (stream : List Nat) (instr : vs_instr) (last : Int) :
    vs_emit_instr false stream instr last = { outcome := .no_instruction, stream := stream } := by
  unfold vs_emit_instr instruction_create
  simp

/-- C4: whenever `vs_emit_instr` does not end by emitting (an assertion fails,
or the working instruction cannot be created), the caller's stream is exactly
as it was before the call; and it emits only when the working instruction was
created and every assertion holds. -/
theorem C4_emit_atomic (mem_ok : Bool) (stream : List Nat) (instr : vs_instr) (last : Int)
    (h : (vs_emit_instr mem_ok stream instr last).outcome ≠ .emitted) :
    (vs_emit_instr mem_ok stream instr last).stream = stream ∧
    ¬ (mem_ok = true ∧ asserts_pass instr) := by
  cases mem_ok with
  | false => rw [vs_emit_instr_no_memory]; exact ⟨rfl, fun c => by cases c.1⟩
  | true =>
    by_cases hp : asserts_pass instr
    · rw [vs_emit_instr_ok _ _ _ hp] at h
      exact absurd rfl h
    · obtain ⟨e, he, _⟩ := vs_emit_instr_failed stream instr last hp
      rw [he]
      exact ⟨rfl, fun c => hp c.2⟩

/-- C4 witness: two constant sources with different indices trip an assertion,
and the stream still holds the words it held before the call. -/
theorem C4_emit_atomic_witness :
    (vs_emit_instr true [1, 2, 3, 4] two_constants_instr 1).outcome ≠ .emitted ∧
    (vs_emit_instr true [1, 2, 3, 4] two_constants_instr 1).stream = [1, 2, 3, 4] :=
  ⟨by decide, (C4_emit_atomic true [1, 2, 3, 4] two_constants_instr 1 (by decide)).1⟩

theorem const_conflict_not_pass (instr : vs_instr) (i j : Nat) (hij : i < j) (hj : j < 3)
    (ti : (instr.src i).type = VS_REG_TYPE_CONST) (tj : (instr.src j).type = VS_REG_TYPE_CONST)
    (h0 : 0 ≤ (instr.src i).reg) (hne : (instr.src i).reg ≠ (instr.src j).reg) :
    ¬ asserts_pass instr := by
  rintro ⟨_, _, h1, h2⟩
  have hcases : (i = 0 ∧ j = 1) ∨ (i = 0 ∧ j = 2) ∨ (i = 1 ∧ j = 2) := by omega
  rcases hcases with ⟨rfl, rfl⟩ | ⟨rfl, rfl⟩ | ⟨rfl, rfl⟩
  · have := h1.1 tj
    unfold cfetch_step at this
    rw [if_pos ti] at this
    rcases this with c | c
    · omega
    · exact hne c
  · have e1 := h1.1
    have := h2.1 tj
    unfold cfetch_step at this e1
    rw [if_pos ti] at this e1
    by_cases t1 : (instr.src 1).type = VS_REG_TYPE_CONST
    · rw [if_pos t1] at this
      rcases e1 t1 with c | c
      · omega
      · rcases this with d | d
        · omega
        · exact hne (c.trans d)
    · rw [if_neg t1] at this
      rcases this with c | c
      · omega
      · exact hne c
  · have := h2.1 tj
    unfold cfetch_step at this
    rw [if_pos ti] at this
    rcases this with c | c
    · omega
    · exact hne c

theorem attr_conflict_not_pass (instr : vs_instr) (i j : Nat) (hij : i < j) (hj : j < 3)
    (ti : (instr.src i).type = VS_REG_TYPE_ATTR) (tj : (instr.src j).type = VS_REG_TYPE_ATTR)
    (h0 : 0 ≤ (instr.src i).reg) (hne : (instr.src i).reg ≠ (instr.src j).reg) :
    ¬ asserts_pass instr := by
  rintro ⟨_, _, h1, h2⟩
  have hcases : (i = 0 ∧ j = 1) ∨ (i = 0 ∧ j = 2) ∨ (i = 1 ∧ j = 2) := by omega
  rcases hcases with ⟨rfl, rfl⟩ | ⟨rfl, rfl⟩ | ⟨rfl, rfl⟩
  · have := h1.2.1 tj
    unfold afetch_step at this
    rw [if_pos ti] at this
    rcases this with c | c
    · omega
    · exact hne c
  · have e1 := h1.2.1
    have := h2.2.1 tj
    unfold afetch_step at this e1
    rw [if_pos ti] at this e1
    by_cases t1 : (instr.src 1).type = VS_REG_TYPE_ATTR
    · rw [if_pos t1] at this
      rcases e1 t1 with c | c
      · omega
      · rcases this with d | d
        · omega
        · exact hne (c.trans d)
    · rw [if_neg t1] at this
      rcases this with c | c
      · omega
      · exact hne c
  · have := h2.2.1 tj
    unfold afetch_step at this
    rw [if_pos ti] at this
    rcases this with c | c
    · omega
    · exact hne c

theorem emitted_field (stream : List Nat) (instr : vs_instr) (last : Int) (lo hi : Nat)
    (h : asserts_pass instr) (hs : stream.length = 4) :
    instruction_extract (instruction_create_from_words
      (vs_emit_instr true stream instr last).stream 4) lo hi =
    instruction_extract (emit_bits instr last) lo hi := by
  rw [decode_emitted stream instr last h hs]

/-- C2: (1) when two source slots are constants with different register
indices, `vs_emit_instr` stops at an assertion and leaves the stream as it was;
the assertion is the constant-fetch one when the destination assertions hold, the
attribute slots agree and no source is a varying. (2) When every constant slot
carries the same index `c < 256` and the other assertions hold, it emits, and
bits 76..83 of the emitted word hold `c`. -/
theorem C2_constant_fetch (stream : List Nat) (instr : vs_instr) (last : Int) :
    (∀ i j, i < j → j < 3 →
      (instr.src i).type = VS_REG_TYPE_CONST → (instr.src j).type = VS_REG_TYPE_CONST →
      0 ≤ (instr.src i).reg → (instr.src i).reg ≠ (instr.src j).reg →
      ∃ e, vs_emit_instr true stream instr last =
          { outcome := .assertion_failed e, stream := stream } ∧
        (dst_asserts_pass instr → slots_agree VS_REG_TYPE_ATTR instr →
          (∀ k, k < 3 → (instr.src k).type ≠ VS_REG_TYPE_VAR) → e = .cfetch_conflict)) ∧
    (∀ c : Nat, c < 256 → stream.length = 4 →
      (∃ i, i < 3 ∧ (instr.src i).type = VS_REG_TYPE_CONST) →
      (∀ i, i < 3 → (instr.src i).type = VS_REG_TYPE_CONST → (instr.src i).reg = c) →
      dst_asserts_pass instr → slots_agree VS_REG_TYPE_ATTR instr →
      (∀ k, k < 3 → (instr.src k).type ≠ VS_REG_TYPE_VAR) →
      (vs_emit_instr true stream instr last).outcome = .emitted ∧
      instruction_extract (instruction_create_from_words
        (vs_emit_instr true stream instr last).stream 4) 76 83 = c) := by
  refine ⟨?_, ?_⟩
  · intro i j hij hj ti tj h0 hne
    obtain ⟨e, he, hk⟩ := vs_emit_instr_failed stream instr last
      (const_conflict_not_pass instr i j hij hj ti tj h0 hne)
    exact ⟨e, he, fun hd hA hv => (hk hd).2.1 hA hv⟩
  · intro c hc hs ⟨i, hi, ti⟩ hall hd hA hv
    have hC : slots_agree VS_REG_TYPE_CONST instr := by
      intro a ha b hb ta tb
      rw [hall a ha ta, hall b hb tb]
    have hp := asserts_pass_of_agree instr hC hA hv hd
    refine ⟨by rw [vs_emit_instr_ok _ _ _ hp], ?_⟩
    rw [emitted_field _ _ _ _ _ hp hs, field_constant,
      constant_field_eq instr hC i hi ti (by rw [hall i hi ti]; omega)
        (by rw [hall i hi ti]; omega), hall i hi ti]
    rfl

/-- C2 witness: `c5` against `c7` stops at the constant-fetch assertion with the
stream untouched; `c5` twice emits a word whose bits 76..83 hold 5. -/
theorem C2_constant_fetch_witness :
    vs_emit_instr true [0, 0, 0, 0] two_constants_instr 0 =
      { outcome := .assertion_failed .cfetch_conflict, stream := [0, 0, 0, 0] } ∧
    ((vs_emit_instr true [0, 0, 0, 0] same_constant_instr 0).outcome = .emitted ∧
      instruction_extract (instruction_create_from_words
        (vs_emit_instr true [0, 0, 0, 0] same_constant_instr 0).stream 4) 76 83 = 5) := by
  refine ⟨?_, (C2_constant_fetch [0, 0, 0, 0] same_constant_instr 0).2 5 (by decide) rfl
    ⟨0, by decide, rfl⟩ (by decide) (by decide) (by decide) (by decide)⟩
  obtain ⟨e, he, hk⟩ := (C2_constant_fetch [0, 0, 0, 0] two_constants_instr 0).1 0 1
    (by decide) (by decide) rfl rfl (by decide) (by decide)
  rw [he, hk (by decide) (by decide) (by decide)]

/-- C3: (1) when two source slots are attributes with different register
indices, `vs_emit_instr` stops at an assertion and leaves the stream as it was;
the assertion is the attribute-fetch one when the destination assertions hold,
the constant slots agree and no source is a varying. (2) The two fetch fields
are independent: with a constant slot of index `c < 256` and an attribute slot
of index `a < 16` (equal or not), no other constant or attribute slot asking for
another index, and the other assertions holding, it emits a word with `c` in
bits 76..83 and `a` in bits 72..75. -/
theorem C3_attribute_fetch (stream : List Nat) (instr : vs_instr) (last : Int) :
    (∀ i j, i < j → j < 3 →
      (instr.src i).type = VS_REG_TYPE_ATTR → (instr.src j).type = VS_REG_TYPE_ATTR →
      0 ≤ (instr.src i).reg → (instr.src i).reg ≠ (instr.src j).reg →
      ∃ e, vs_emit_instr true stream instr last =
          { outcome := .assertion_failed e, stream := stream } ∧
        (dst_asserts_pass instr → slots_agree VS_REG_TYPE_CONST instr →
          (∀ k, k < 3 → (instr.src k).type ≠ VS_REG_TYPE_VAR) → e = .afetch_conflict)) ∧
    (∀ c a : Nat, c < 256 → a < 16 → stream.length = 4 →
      ∀ i j, i < 3 → j < 3 →
      (instr.src i).type = VS_REG_TYPE_CONST → (instr.src i).reg = c →
      (instr.src j).type = VS_REG_TYPE_ATTR → (instr.src j).reg = a →
      slots_agree VS_REG_TYPE_CONST instr → slots_agree VS_REG_TYPE_ATTR instr →
      dst_asserts_pass instr → (∀ k, k < 3 → (instr.src k).type ≠ VS_REG_TYPE_VAR) →
      (vs_emit_instr true stream instr last).outcome = .emitted ∧
      instruction_extract (instruction_create_from_words
        (vs_emit_instr true stream instr last).stream 4) 76 83 = c ∧
      instruction_extract (instruction_create_from_words
        (vs_emit_instr true stream instr last).stream 4) 72 75 = a) := by
  refine ⟨?_, ?_⟩
  · intro i j hij hj ti tj h0 hne
    obtain ⟨e, he, hk⟩ := vs_emit_instr_failed stream instr last
      (attr_conflict_not_pass instr i j hij hj ti tj h0 hne)
    exact ⟨e, he, fun hd hC hv => (hk hd).2.2 hC hv⟩
  · intro c a hc ha hs i j hi hj ti ri tj rj hC hA hd hv
    have hp := asserts_pass_of_agree instr hC hA hv hd
    refine ⟨by rw [vs_emit_instr_ok _ _ _ hp], ?_, ?_⟩
    · rw [emitted_field _ _ _ _ _ hp hs, field_constant,
        constant_field_eq instr hC i hi ti (by rw [ri]; omega) (by rw [ri]; omega), ri]
      rfl
    · rw [emitted_field _ _ _ _ _ hp hs, field_attribute,
        attribute_field_eq instr hA j hj tj (by rw [rj]; omega) (by rw [rj]; omega), rj]
      rfl

/-- C3 witness: `v2` against `v3` stops at the attribute-fetch assertion with the
stream untouched; the `dp4` with sources `v3` and `c9` emits a word with 9 in
bits 76..83 and 3 in bits 72..75. -/
theorem C3_attribute_fetch_witness :
    vs_emit_instr true [0, 0, 0, 0] two_attributes_instr 0 =
      { outcome := .assertion_failed .afetch_conflict, stream := [0, 0, 0, 0] } ∧
    ((vs_emit_instr true [0, 0, 0, 0] dp4_instr 1).outcome = .emitted ∧
      instruction_extract (instruction_create_from_words
        (vs_emit_instr true [0, 0, 0, 0] dp4_instr 1).stream 4) 76 83 = 9 ∧
      instruction_extract (instruction_create_from_words
        (vs_emit_instr true [0, 0, 0, 0] dp4_instr 1).stream 4) 72 75 = 3) := by
  refine ⟨?_, (C3_attribute_fetch [0, 0, 0, 0] dp4_instr 1).2 9 3 (by decide) (by decide) rfl
    1 0 (by decide) (by decide) rfl rfl rfl rfl (by decide) (by decide) (by decide) (by decide)⟩
  obtain ⟨e, he, hk⟩ := (C3_attribute_fetch [0, 0, 0, 0] two_attributes_instr 0).1 0 1
    (by decide) (by decide) rfl rfl (by decide) (by decide)
  rw [he, hk (by decide) (by decide) (by decide)]

/-! ## Totality of the disassembler -/

theorem u8_extract_lt_four (inst : instruction) (lo : Nat) :
    u8 (instruction_extract inst lo (lo + 1)) < 4 := by
  have h := extract_lt inst lo (lo + 1)
  have e : lo + 1 - lo + 1 = 2 := by omega
  rw [e] at h
  unfold u8
  have : instruction_extract inst lo (lo + 1) % 256 ≤ instruction_extract inst lo (lo + 1) :=
    Nat.mod_le _ _
  omega

theorem extract_lt_four (inst : instruction) (lo : Nat) :
    instruction_extract inst lo (lo + 1) < 4 := by
  have h := extract_lt inst lo (lo + 1)
  have e : lo + 1 - lo + 1 = 2 := by omega
  rw [e] at h
  exact h

theorem reg_type_letters_get (n : Nat) (h : n < 4) : ∃ c, reg_type_letters[n]? = some c := by
  interval_cases n <;> exact ⟨_, rfl⟩

theorem pred_text_some (pred pneg psx psy psz psw : Nat)
    (hx : psx < 4) (hy : psy < 4) (hz : psz < 4) (hw : psw < 4) :
    ∃ t, pred_text pred pneg psx psy psz psw = some t := by
  unfold pred_text
  by_cases h : pred ≠ 0
  · rw [if_pos h]
    simp [swizzle_get _ hx, swizzle_get _ hy, swizzle_get _ hz, swizzle_get _ hw]
  · rw [if_neg h]; exact ⟨_, rfl⟩

theorem vec_src_text_some (neg sx sy sz sw abs reg type attrib constant : Nat)
    (ht : type < 4) (hx : sx < 4) (hy : sy < 4) (hz : sz < 4) (hw : sw < 4) :
    ∃ t, vec_src_text neg sx sy sz sw abs reg type attrib constant = some t := by
  obtain ⟨c, hc⟩ := reg_type_letters_get type ht
  unfold vec_src_text
  simp [hc, swizzle_get _ hx, swizzle_get _ hy, swizzle_get _ hz, swizzle_get _ hw]

theorem scalar_src_text_some (neg sx abs reg type attrib constant : Nat)
    (ht : type < 4) (hx : sx < 4) :
    ∃ t, scalar_src_text neg sx abs reg type attrib constant = some t := by
  obtain ⟨c, hc⟩ := reg_type_letters_get type ht
  unfold scalar_src_text
  simp [hc, swizzle_get _ hx]

/-- The vector op block always yields text, and the text names the opcode by
`vec_opcode` right after the predicate prefix. -/
theorem disassemble_vec_some (inst : instruction) :
    ∃ text, disassemble_vec inst = some text ∧
      ((u8 (instruction_get_bit inst 16) ≠ 0 ∨ u8 (instruction_get_bit inst 15) ≠ 0 ∨
          u8 (instruction_get_bit inst 14) ≠ 0 ∨ u8 (instruction_get_bit inst 13) ≠ 0) →
        ∃ p rest, text = "      vec op\n" ++ "        " ++ p ++
          (vec_opcode (u8 (instruction_extract inst 86 90))).1 ++ rest) := by
  obtain ⟨p, hp⟩ := pred_text_some (u8 (instruction_get_bit inst 109))
    (u8 (instruction_get_bit inst 107)) _ _ _ _
    (u8_extract_lt_four inst 104) (u8_extract_lt_four inst 102)
    (u8_extract_lt_four inst 100) (u8_extract_lt_four inst 98)
  obtain ⟨a, ha⟩ := vec_src_text_some (u8 (instruction_get_bit inst 71)) _ _ _ _
    (u8 (instruction_get_bit inst 117)) (instruction_extract inst 57 62) _
    (u8 (instruction_extract inst 72 75)) (u8 (instruction_extract inst 76 83))
    (extract_lt_four inst 55) (u8_extract_lt_four inst 69) (u8_extract_lt_four inst 67)
    (u8_extract_lt_four inst 65) (u8_extract_lt_four inst 63)
  obtain ⟨b, hb⟩ := vec_src_text_some (u8 (instruction_get_bit inst 54)) _ _ _ _
    (u8 (instruction_get_bit inst 118)) (instruction_extract inst 40 45) _
    (u8 (instruction_extract inst 72 75)) (u8 (instruction_extract inst 76 83))
    (extract_lt_four inst 38) (u8_extract_lt_four inst 52) (u8_extract_lt_four inst 50)
    (u8_extract_lt_four inst 48) (u8_extract_lt_four inst 46)
  obtain ⟨c, hc⟩ := vec_src_text_some (u8 (instruction_get_bit inst 37)) _ _ _ _
    (u8 (instruction_get_bit inst 119)) (instruction_extract inst 23 28) _
    (u8 (instruction_extract inst 72 75)) (u8 (instruction_extract inst 76 83))
    (extract_lt_four inst 21) (u8_extract_lt_four inst 35) (u8_extract_lt_four inst 33)
    (u8_extract_lt_four inst 31) (u8_extract_lt_four inst 29)
  unfold disassemble_vec
  simp only [hp, ha, hb, hc]
  by_cases hm : u8 (instruction_get_bit inst 16) ≠ 0 ∨ u8 (instruction_get_bit inst 15) ≠ 0 ∨
      u8 (instruction_get_bit inst 14) ≠ 0 ∨ u8 (instruction_get_bit inst 13) ≠ 0
  · rw [if_pos hm]
    cases hrb : (vec_opcode (u8 (instruction_extract inst 86 90))).2.1 <;>
    cases hrc : (vec_opcode (u8 (instruction_extract inst 86 90))).2.2 <;>
    simp [String.append_assoc] <;> exact fun _ => ⟨p, _, rfl⟩
  · rw [if_neg hm]
    exact ⟨_, rfl, fun c => absurd c hm⟩

/-- The scalar op block always yields text, and the text names the opcode by
`scalar_opcode` right after the predicate prefix. -/
theorem disassemble_scalar_some (inst : instruction) :
    ∃ text, disassemble_scalar inst = some text ∧
      ((u8 (instruction_get_bit inst 20) ≠ 0 ∨ u8 (instruction_get_bit inst 19) ≠ 0 ∨
          u8 (instruction_get_bit inst 18) ≠ 0 ∨ u8 (instruction_get_bit inst 17) ≠ 0) →
        ∃ p rest, text = "      scalar op\n" ++ "        " ++ p ++
          scalar_opcode (u8 (instruction_extract inst 91 94)) ++ rest) := by
  obtain ⟨p, hp⟩ := pred_text_some (u8 (instruction_get_bit inst 109))
    (u8 (instruction_get_bit inst 107)) _ _ _ _
    (u8_extract_lt_four inst 104) (u8_extract_lt_four inst 102)
    (u8_extract_lt_four inst 100) (u8_extract_lt_four inst 98)
  obtain ⟨c, hc⟩ := scalar_src_text_some (u8 (instruction_get_bit inst 37)) _
    (u8 (instruction_get_bit inst 119)) (instruction_extract inst 23 28) _
    (u8 (instruction_extract inst 72 75)) (u8 (instruction_extract inst 76 83))
    (extract_lt_four inst 21) (u8_extract_lt_four inst 35)
  unfold disassemble_scalar
  simp only [hp, hc]
  by_cases hm : u8 (instruction_get_bit inst 20) ≠ 0 ∨ u8 (instruction_get_bit inst 19) ≠ 0 ∨
      u8 (instruction_get_bit inst 18) ≠ 0 ∨ u8 (instruction_get_bit inst 17) ≠ 0
  · rw [if_pos hm]
    simp [String.append_assoc]
    exact fun _ => ⟨p, _, rfl⟩
  · rw [if_neg hm]
    exact ⟨_, rfl, fun c => absurd c hm⟩

/-- The opcodes the vector `switch` of the disassembler knows. -/
theorem vec_opcode_unknown (op : Nat)
    (h : op ∉ [0x1, 0x2, 0x3, 0x4, 0x5, 0x7, 0x9, 0xa, 0xb, 0xc, 0xd, 0xe, 0xf, 0x10, 0x12,
      0x13, 0x14]) :
    vec_opcode op = ("unknown(" ++ hex op ++ ")", true, true) := by
  simp only [List.mem_cons, List.mem_singleton, not_or, List.mem_nil_iff, or_false] at h
  obtain ⟨h1, h2, h3, h4, h5, h6, h7, h8, h9, h10, h11, h12, h13, h14, h15, h16, h17⟩ := h
  unfold vec_opcode
  simp only [h1, h2, h3, h4, h5, h6, h7, h8, h9, h10, h11, h12, h13, h14, h15, h16, h17, if_false]

theorem scalar_opcode_unknown (op : Nat) (h : op ∉ [0x0, 0x1, 0x2, 0x4, 0xd, 0xe, 0xf]) :
    scalar_opcode op = "unknown(" ++ hex op ++ ")" := by
  simp only [List.mem_cons, List.mem_singleton, not_or, List.mem_nil_iff, or_false] at h
  obtain ⟨h1, h2, h3, h4, h5, h6, h7⟩ := h
  unfold scalar_opcode
  simp only [h1, h2, h3, h4, h5, h6, h7, if_false]

/-- C6: the disassembler is total over instruction words. For every four words
(whatever their values) it yields text, never an access outside `swizzle` or
`"?rvc"`; and when the printed vector (scalar) op has an opcode outside the
opcode table, the opcode is printed as `unknown(<hex>)`, right after the
predicate prefix. -/
theorem C6_disassemble_total (words : List Nat) :
    (∃ text, disassemble_instr words = some text) ∧
    (∃ vec, disassemble_vec (instruction_create_from_words words 4) = some vec ∧
      ((u8 (instruction_get_bit (instruction_create_from_words words 4) 16) ≠ 0 ∨
        u8 (instruction_get_bit (instruction_create_from_words words 4) 15) ≠ 0 ∨
        u8 (instruction_get_bit (instruction_create_from_words words 4) 14) ≠ 0 ∨
        u8 (instruction_get_bit (instruction_create_from_words words 4) 13) ≠ 0) →
       u8 (instruction_extract (instruction_create_from_words words 4) 86 90) ∉
         [0x1, 0x2, 0x3, 0x4, 0x5, 0x7, 0x9, 0xa, 0xb, 0xc, 0xd, 0xe, 0xf, 0x10, 0x12,
           0x13, 0x14] →
       ∃ p rest, vec = "      vec op\n" ++ "        " ++ p ++ ("unknown(" ++
         hex (u8 (instruction_extract (instruction_create_from_words words 4) 86 90)) ++ ")") ++
         rest)) ∧
    (∃ sc, disassemble_scalar (instruction_create_from_words words 4) = some sc ∧
      ((u8 (instruction_get_bit (instruction_create_from_words words 4) 20) ≠ 0 ∨
        u8 (instruction_get_bit (instruction_create_from_words words 4) 19) ≠ 0 ∨
        u8 (instruction_get_bit (instruction_create_from_words words 4) 18) ≠ 0 ∨
        u8 (instruction_get_bit (instruction_create_from_words words 4) 17) ≠ 0) →
       u8 (instruction_extract (instruction_create_from_words words 4) 91 94) ∉
         [0x0, 0x1, 0x2, 0x4, 0xd, 0xe, 0xf] →
       ∃ p rest, sc = "      scalar op\n" ++ "        " ++ p ++ ("unknown(" ++
         hex (u8 (instruction_extract (instruction_create_from_words words 4) 91 94)) ++ ")") ++
         rest)) := by
  obtain ⟨v, hv, hv2⟩ := disassemble_vec_some (instruction_create_from_words words 4)
  obtain ⟨s, hs, hs2⟩ := disassemble_scalar_some (instruction_create_from_words words 4)
  refine ⟨?_, ⟨v, hv, ?_⟩, ⟨s, hs, ?_⟩⟩
  · unfold disassemble_instr disassemble_ops
    simp [hv, hs]
  · intro hm hop
    obtain ⟨p, rest, h⟩ := hv2 hm
    rw [vec_opcode_unknown _ hop] at h
    exact ⟨p, rest, h⟩
  · intro hm hop
    obtain ⟨p, rest, h⟩ := hs2 hm
    rw [scalar_opcode_unknown _ hop] at h
    exact ⟨p, rest, h⟩

/-- C6 witness: four words with every bit set disassemble to text; the vector
opcode `0x1f` is outside the table and is printed as `unknown(1f)`. -/
theorem C6_disassemble_total_witness :
    (∃ text, disassemble_instr [4294967295, 4294967295, 4294967295, 4294967295] = some text) ∧
    (∃ vec, disassemble_vec (instruction_create_from_words
        [4294967295, 4294967295, 4294967295, 4294967295] 4) = some vec ∧
      ∃ p rest, vec = "      vec op\n" ++ "        " ++ p ++ ("unknown(" ++ hex 31 ++ ")") ++ rest) := by
  have h := C6_disassemble_total [4294967295, 4294967295, 4294967295, 4294967295]
  obtain ⟨h1, ⟨vec, hv, hv2⟩, _⟩ := h
  exact ⟨h1, vec, hv, hv2 (by decide) (by decide)⟩

/-! ## The container parser -/

theorem resolve_kind_kind (binary : List Nat) (sym : cgc_header_symbol) (name : Option String)
    (k : glsl_kind × List Nat × List String) (h : resolve_kind binary sym name = .ok k) :
    k.1 = kind_of_tag sym.unknown02 := by
  unfold resolve_kind at h
  unfold kind_of_tag
  by_cases h5 : sym.unknown02 = 0x1005
  · rw [if_pos h5] at h ⊢; cases h; rfl
  · rw [if_neg h5] at h ⊢
    by_cases h6 : sym.unknown02 = 0x1006
    · rw [if_pos h6] at h ⊢; cases h; rfl
    · rw [if_neg h6] at h ⊢
      by_cases h7 : sym.unknown02 = 0x1007
      · rw [if_pos h7] at h ⊢
        by_cases hv : sym.values_offset ≠ 0
        · rw [if_pos hv] at h
          split at h
          · cases h; rfl
          · cases h
        · rw [if_neg hv] at h; cases h; rfl
      · rw [if_neg h7] at h ⊢; cases h; rfl

theorem resolve_symbol_inv (binary : List Nat) (i : Nat) (sym : cgc_header_symbol) (r : resolved)
    (h : resolve_symbol binary i sym = .ok r) :
    ∃ glsl name k,
      resolve_type_loop i (sym.unknown00 % 256) data_types.length = .ok glsl ∧
      resolve_name binary sym = .ok name ∧
      resolve_kind binary sym name = .ok k ∧
      r = { symbol := { location := to_int sym.unknown03, kind := k.1, type := glsl,
                        name := name, vector := k.2.1 },
            diag := k.2.2 } := by
  unfold resolve_symbol at h
  split at h
  · cases h
  · rename_i glsl h1
    split at h
    · cases h
    · rename_i name h2
      split at h
      · cases h
      · rename_i kind vector diag h3
        cases h
        exact ⟨glsl, name, (kind, vector, diag), h1, h2, h3, rfl⟩

theorem resolve_symbol_of (binary : List Nat) (i : Nat) (sym : cgc_header_symbol)
    (glsl : glsl_type) (name : Option String) (k : glsl_kind × List Nat × List String)
    (h1 : resolve_type_loop i (sym.unknown00 % 256) data_types.length = .ok glsl)
    (h2 : resolve_name binary sym = .ok name)
    (h3 : resolve_kind binary sym name = .ok k) :
    resolve_symbol binary i sym =
      .ok { symbol := { location := to_int sym.unknown03, kind := k.1, type := glsl,
                        name := name, vector := k.2.1 },
            diag := k.2.2 } := by
  simp only [resolve_symbol, h1, h2, h3]

theorem parse_loop_inv (binary : List Nat) (n : Nat) :
    ∀ (i : Nat) (rs : List resolved), parse_loop binary i n = .ok rs →
      rs.length = n ∧
      ∀ k, k < n → ∃ sym r, read_symbol binary (i + k) = .ok sym ∧
        resolve_symbol binary (i + k) sym = .ok r ∧ rs[k]? = some r := by
  induction n with
  | zero =>
    intro i rs h
    unfold parse_loop at h
    cases h
    exact ⟨rfl, fun k hk => absurd hk (Nat.not_lt_zero k)⟩
  | succ n ih =>
    intro i rs h
    unfold parse_loop at h
    split at h
    · cases h
    · rename_i sym h1
      split at h
      · cases h
      · rename_i r h2
        split at h
        · cases h
        · rename_i rest h3
          cases h
          obtain ⟨hl, hk⟩ := ih (i + 1) rest h3
          refine ⟨by simp [hl], ?_⟩
          intro k hkn
          cases k with
          | zero => exact ⟨sym, r, h1, h2, by simp⟩
          | succ k =>
            obtain ⟨s, q, a, b, c⟩ := hk k (by omega)
            have e : i + (k + 1) = i + 1 + k := by omega
            rw [e]
            exact ⟨s, q, a, b, by simpa using c⟩

theorem parse_loop_of (binary : List Nat) (n : Nat) :
    ∀ (i : Nat), (∀ k, k < n → ∃ sym r, read_symbol binary (i + k) = .ok sym ∧
        resolve_symbol binary (i + k) sym = .ok r) →
      ∃ rs, parse_loop binary i n = .ok rs := by
  induction n with
  | zero => intro i _; exact ⟨[], rfl⟩
  | succ n ih =>
    intro i h
    obtain ⟨sym, r, h1, h2⟩ := h 0 (by omega)
    obtain ⟨rest, h3⟩ := ih (i + 1) (fun k hk => by
      obtain ⟨s, q, a, b⟩ := h (k + 1) (by omega)
      have e : i + (k + 1) = i + 1 + k := by omega
      rw [e] at a b
      exact ⟨s, q, a, b⟩)
    rw [Nat.add_zero] at h1 h2
    exact ⟨r :: rest, by simp only [parse_loop, h1, h2, h3]⟩

theorem shader_parse_symbols_inv (calloc_ok : Nat → Bool) (shader : cgc_shader) (r : parse_result)
    (h : shader_parse_symbols calloc_ok shader = .ok r) (h0 : r.ret = 0) :
    ∃ header rs, read_header shader.binary = .ok header ∧
      parse_loop shader.binary 0 header.num_symbols = .ok rs ∧
      r.shader.symbols = rs.map (fun q => q.symbol) ∧
      r.shader.num_symbols = header.num_symbols ∧
      r.diag = (rs.map (fun q => q.diag)).flatten := by
  unfold shader_parse_symbols at h
  split at h
  · cases h
  · rename_i header h1
    split at h
    · cases h
      simp [ENOMEM] at h0
    · split at h
      · cases h
      · rename_i rs h2
        cases h
        exact ⟨header, rs, h1, h2, rfl, rfl, rfl⟩

theorem shader_parse_symbols_of (calloc_ok : Nat → Bool) (shader : cgc_shader)
    (header : cgc_header) (rs : List resolved)
    (h1 : read_header shader.binary = .ok header) (hc : calloc_ok header.num_symbols = true)
    (h2 : parse_loop shader.binary 0 header.num_symbols = .ok rs) :
    shader_parse_symbols calloc_ok shader =
      .ok { ret := 0,
            shader := { shader with symbols := rs.map (fun q => q.symbol),
                                    num_symbols := header.num_symbols },
            diag := (rs.map (fun q => q.diag)).flatten } := by
  simp only [shader_parse_symbols, h1, hc, not_true_eq_false, if_false, h2]

/-- C8: in every successful parse, the kind of the symbol at every position `i`
is the kind the tag of record `i` stands for (attribute for `0x1005`, uniform
for `0x1006`, constant for `0x1007`, unknown otherwise); and two records with
the same tag resolve to the same kind, whatever their other fields, their
positions and the buffers they are read from. -/
theorem C8_kind_from_tag (calloc_ok : Nat → Bool) (shader : cgc_shader) (r : parse_result)
    (h : shader_parse_symbols calloc_ok shader = .ok r) (h0 : r.ret = 0) :
    (∀ i, i < r.shader.num_symbols → ∃ sym s, read_symbol shader.binary i = .ok sym ∧
      r.shader.symbols[i]? = some s ∧ s.kind = kind_of_tag sym.unknown02) ∧
    (∀ (b1 b2 : List Nat) (i j : Nat) (s1 s2 : cgc_header_symbol) (r1 r2 : resolved),
      resolve_symbol b1 i s1 = .ok r1 → resolve_symbol b2 j s2 = .ok r2 →
      s1.unknown02 = s2.unknown02 → r1.symbol.kind = r2.symbol.kind) := by
  refine ⟨?_, ?_⟩
  · obtain ⟨header, rs, _, h2, h3, h4, _⟩ := shader_parse_symbols_inv calloc_ok shader r h h0
    intro i hi
    rw [h4] at hi
    obtain ⟨_, hk⟩ := parse_loop_inv shader.binary header.num_symbols 0 rs h2
    obtain ⟨sym, q, a, b, c⟩ := hk i hi
    rw [Nat.zero_add] at a b
    obtain ⟨glsl, name, k, _, _, k3, rfl⟩ := resolve_symbol_inv _ _ _ _ b
    refine ⟨sym, cgc_symbol.mk (to_int sym.unknown03) k.1 glsl name k.2.1, a, ?_,
      resolve_kind_kind _ _ _ _ k3⟩
    rw [h3, List.getElem?_map, c]
    rfl
  · intro b1 b2 i j s1 s2 r1 r2 e1 e2 ht
    obtain ⟨_, _, k1, _, _, a3, rfl⟩ := resolve_symbol_inv _ _ _ _ e1
    obtain ⟨_, _, k2, _, _, b3, rfl⟩ := resolve_symbol_inv _ _ _ _ e2
    simp only []
    rw [resolve_kind_kind _ _ _ _ a3, resolve_kind_kind _ _ _ _ b3, ht]

set_option maxRecDepth 100000 in
/-- C8 witness: the single record of `color_container` carries tag `0x1006`, and
the parsed symbol is a uniform. -/
theorem C8_kind_from_tag_witness :
    ∃ sym s, read_symbol color_shader.binary 0 = .ok sym ∧
      color_parsed.shader.symbols[0]? = some s ∧ s.kind = kind_of_tag sym.unknown02 :=
  (C8_kind_from_tag (fun _ => true) color_shader color_parsed (by decide) rfl).1 0 (by decide)

theorem resolve_type_loop_eq (i byte n : Nat) (d : data_type) (h : data_types[i]? = some d) :
    resolve_type_loop i byte (n + 1) =
      .ok (if byte = d.type then d.glsl else GLSL_TYPE_UNKNOWN) := by
  induction n with
  | zero =>
    simp only [resolve_type_loop, h]
    split <;> rfl
  | succ n ih =>
    rw [resolve_type_loop]
    simp only [h]
    by_cases c : byte = d.type
    · rw [if_pos c, if_pos c]
    · rw [if_neg c, ih, if_neg c]

theorem resolve_type_loop_fault (i byte n : Nat) (h : data_types.length ≤ i) :
    resolve_type_loop i byte (n + 1) = .error .table_index := by
  have : data_types[i]? = none := List.getElem?_eq_none h
  rw [resolve_type_loop]
  simp only [this]

set_option maxRecDepth 100000 in
/-- C7 (the code at the failing input): the uniform `color` of type byte `0x04`
is the symbol at position 0, so the code compares its type byte with row 0 of
`data_types` (code `0x01`) only and resolves the type to unknown, although the
table maps `0x04` to `VEC4`; the same byte at position 3 resolves to `VEC4`. In
general the symbol at position `i` gets the type of row `i` when its byte is the
code of row `i`, and unknown otherwise. -/
theorem C7_type_by_position :
    shader_parse_symbols (fun _ => true) color_shader = .ok color_parsed ∧
    color_parsed.shader.symbols.map (fun s => (s.kind, s.type, s.name)) =
      [(GLSL_KIND_UNIFORM, GLSL_TYPE_UNKNOWN, some "color")] ∧
    type_of_byte 0x04 = GLSL_TYPE_VEC4 ∧
    resolve_type_loop 0 0x04 data_types.length = .ok GLSL_TYPE_UNKNOWN ∧
    resolve_type_loop 3 0x04 data_types.length = .ok GLSL_TYPE_VEC4 ∧
    (∀ i byte d, data_types[i]? = some d →
      resolve_type_loop i byte data_types.length =
        .ok (if byte = d.type then d.glsl else GLSL_TYPE_UNKNOWN)) := by
  refine ⟨by decide, by decide, by decide, by decide, by decide, ?_⟩
  intro i byte d h
  exact resolve_type_loop_eq i byte 32 d h

theorem resolve_kind_constant (binary : List Nat) (sym : cgc_header_symbol)
    (name : Option String) (values : List Nat) (htag : sym.unknown02 = 0x1007)
    (hv : sym.values_offset ≠ 0) (hr : read_values binary sym.values_offset = .ok values) :
    resolve_kind binary sym name = .ok (GLSL_KIND_CONSTANT, values, []) := by
  unfold resolve_kind
  rw [if_neg (by rw [htag]; decide), if_neg (by rw [htag]; decide), if_pos htag, if_pos hv]
  simp only [hr]

theorem resolve_kind_constant_no_values (binary : List Nat) (sym : cgc_header_symbol)
    (name : Option String) (htag : sym.unknown02 = 0x1007) (hv : sym.values_offset = 0) :
    resolve_kind binary sym name = .ok (GLSL_KIND_CONSTANT, [0, 0, 0, 0],
      ["no values for constant " ++ name.getD "(null)" ++ "\n"]) := by
  unfold resolve_kind
  rw [if_neg (by rw [htag]; decide), if_neg (by rw [htag]; decide), if_pos htag,
    if_neg (by simpa using hv)]

theorem read_values_of (binary : List Nat) (off v0 v1 v2 v3 : Nat)
    (h0 : read_u32 binary off = .ok v0) (h1 : read_u32 binary (off + 4) = .ok v1)
    (h2 : read_u32 binary (off + 8) = .ok v2) (h3 : read_u32 binary (off + 12) = .ok v3) :
    read_values binary off = .ok [v0, v1, v2, v3] := by
  unfold read_values
  simp only [bind, Except.bind, h0, h1, h2, h3, pure, Except.pure]

/-- C9: a record with tag `0x1007` whose type lookup and name resolve always
resolves, to kind constant. With a nonzero values offset at which four 32-bit
words can be read, `vector[0..3]` holds exactly these four words; with a zero
values offset the vector is all zero, one line is written to `stderr`, and the
record still resolves. -/
theorem C9_constant_values (binary : List Nat) (i : Nat) (sym : cgc_header_symbol)
    (glsl : glsl_type) (name : Option String)
    (htag : sym.unknown02 = 0x1007)
    (ht : resolve_type_loop i (sym.unknown00 % 256) data_types.length = .ok glsl)
    (hn : resolve_name binary sym = .ok name) :
    (∀ v0 v1 v2 v3, sym.values_offset ≠ 0 →
      read_u32 binary sym.values_offset = .ok v0 →
      read_u32 binary (sym.values_offset + 4) = .ok v1 →
      read_u32 binary (sym.values_offset + 8) = .ok v2 →
      read_u32 binary (sym.values_offset + 12) = .ok v3 →
      resolve_symbol binary i sym =
        .ok { symbol := cgc_symbol.mk (to_int sym.unknown03) GLSL_KIND_CONSTANT glsl name
                [v0, v1, v2, v3],
              diag := [] }) ∧
    (sym.values_offset = 0 →
      resolve_symbol binary i sym =
        .ok { symbol := cgc_symbol.mk (to_int sym.unknown03) GLSL_KIND_CONSTANT glsl name
                [0, 0, 0, 0],
              diag := ["no values for constant " ++ name.getD "(null)" ++ "\n"] }) := by
  refine ⟨?_, ?_⟩
  · intro v0 v1 v2 v3 hv h0 h1 h2 h3
    have hk := resolve_kind_constant binary sym name _ htag hv
      (read_values_of binary _ v0 v1 v2 v3 h0 h1 h2 h3)
    rw [resolve_symbol_of binary i sym glsl name _ ht hn hk]
  · intro hv
    have hk := resolve_kind_constant_no_values binary sym name htag hv
    rw [resolve_symbol_of binary i sym glsl name _ ht hn hk]

set_option maxRecDepth 100000 in
/-- C9 witness: the two constants of `constants_container`. The first has its
values at offset 144 and resolves with these four words; the second has no
values and resolves with a zeroed vector; the whole container parses with
return value 0. -/
theorem C9_constant_values_witness :
    read_symbol constants_container 0 = .ok constant_record ∧
    read_symbol constants_container 1 = .ok constant_record_no_values ∧
    resolve_symbol constants_container 0 constant_record =
      .ok { symbol := cgc_symbol.mk 7 GLSL_KIND_CONSTANT GLSL_TYPE_FLOAT none
              [0x3f800000, 0x40000000, 0x40400000, 0x40800000],
            diag := [] } ∧
    resolve_symbol constants_container 1 constant_record_no_values =
      .ok { symbol := cgc_symbol.mk 8 GLSL_KIND_CONSTANT GLSL_TYPE_VEC2 none [0, 0, 0, 0],
            diag := ["no values for constant (null)\n"] } ∧
    shader_parse_symbols (fun _ => true) constants_shader = .ok constants_parsed :=
  ⟨by decide, by decide,
    (C9_constant_values constants_container 0 constant_record GLSL_TYPE_FLOAT none rfl
      (by decide) (by decide)).1 0x3f800000 0x40000000 0x40400000 0x40800000
      (by decide) (by decide) (by decide) (by decide) (by decide),
    (C9_constant_values constants_container 1 constant_record_no_values GLSL_TYPE_VEC2 none rfl
      (by decide) (by decide)).2 rfl,
    by decide⟩

set_option maxRecDepth 100000 in
/-- C10 counterexample: the header of `oversized_container` declares an
instruction stream of 4096 bytes at offset 96 in a container of 104 bytes, and
the container is parsed with return value 0, by `shader_parse_symbols` and by
`cgc_compile`; and a name offset of 4096 in a container of 104 bytes is not
rejected but read. -/
theorem C10_counterexample :
    oversized_container.length = 104 ∧
    read_header oversized_container =
      .ok ⟨0x1b5d, 0, 104, 1, 0, 0, 4096, 96, 0, 0, 0, 0⟩ ∧
    shader_parse_symbols (fun _ => true) oversized_shader =
      .ok { ret := 0,
            shader := { oversized_shader with symbols := [color_symbol], num_symbols := 1 },
            diag := [] } ∧
    cgc_compile (fun _ => true) 1 oversized_container [] =
      .ok (some { oversized_shader with symbols := [color_symbol], num_symbols := 1 }) ∧
    shader_parse_symbols (fun _ => true) wild_name_shader = .error .out_of_bounds := by
  refine ⟨by decide, by decide, by decide, by decide, by decide⟩

theorem cstring_nil : cstring [] = none := rfl

theorem resolve_name_outside (binary : List Nat) (sym : cgc_header_symbol)
    (h0 : sym.name_offset ≠ 0) (h : binary.length ≤ sym.name_offset) :
    resolve_name binary sym = .error .out_of_bounds := by
  unfold resolve_name read_string
  rw [if_pos h0, List.drop_eq_nil_of_le h, cstring_nil]

/-- C10 (amended): the parser validates nothing. Its return value is `0` or
`-ENOMEM`, never another error; a container whose symbol array can be
allocated and whose records resolve is parsed with return value `0` whatever its
header says about the instruction stream, also when `binary_offset +
binary_size` exceeds the size of the container; and a name offset outside the
buffer is not rejected: the code reads there. -/
theorem C10_no_validation (calloc_ok : Nat → Bool) (shader : cgc_shader) :
    (∀ r, shader_parse_symbols calloc_ok shader = .ok r → r.ret = 0 ∨ r.ret = -ENOMEM) ∧
    (∀ header rs, read_header shader.binary = .ok header →
      calloc_ok header.num_symbols = true →
      parse_loop shader.binary 0 header.num_symbols = .ok rs →
      shader.binary.length < header.binary_offset + header.binary_size →
      ∃ r, shader_parse_symbols calloc_ok shader = .ok r ∧ r.ret = 0 ∧
        r.shader.symbols = rs.map (fun q => q.symbol)) ∧
    (∀ i sym, sym.name_offset ≠ 0 → shader.binary.length ≤ sym.name_offset →
      resolve_name shader.binary sym = .error .out_of_bounds ∧
      ∀ r, resolve_symbol shader.binary i sym ≠ .ok r) := by
  refine ⟨?_, ?_, ?_⟩
  · intro r h
    unfold shader_parse_symbols at h
    split at h
    · cases h
    · split at h
      · cases h; exact Or.inr rfl
      · split at h
        · cases h
        · cases h; exact Or.inl rfl
  · intro header rs h1 hc h2 _
    exact ⟨_, shader_parse_symbols_of calloc_ok shader header rs h1 hc h2, rfl, rfl⟩
  · intro i sym h0 h
    have hn := resolve_name_outside shader.binary sym h0 h
    refine ⟨hn, fun r c => ?_⟩
    obtain ⟨_, name, _, _, h2, _⟩ := resolve_symbol_inv _ _ _ _ c
    rw [hn] at h2
    cases h2

set_option maxRecDepth 100000 in
/-- C10 witness: `oversized_container` has `binary_offset + binary_size = 4192`
for 104 bytes, and is parsed with return value 0 into the symbol `color`. -/
theorem C10_no_validation_witness :
    ∃ r, shader_parse_symbols (fun _ => true) oversized_shader = .ok r ∧ r.ret = 0 ∧
      r.shader.symbols = [color_symbol] :=
  (C10_no_validation (fun _ => true) oversized_shader).2.1
    ⟨0x1b5d, 0, 104, 1, 0, 0, 4096, 96, 0, 0, 0, 0⟩ [⟨color_symbol, []⟩]
    (by decide) rfl (by decide) (by decide)

/-! ## The empty symbol table -/

theorem parse_loop_zero (binary : List Nat) (i : Nat) : parse_loop binary i 0 = .ok [] := by
  unfold parse_loop
  rfl

/-- When `calloc` answers `NULL` to the request for zero symbols, as it may, the
parser returns `-ENOMEM` also for an empty symbol table. -/
theorem parse_empty_without_block (calloc_ok : Nat → Bool) (shader : cgc_shader)
    (header : cgc_header) (hh : read_header shader.binary = .ok header)
    (hn : header.num_symbols = 0) (hc : calloc_ok 0 = false) :
    shader_parse_symbols calloc_ok shader =
      .ok { ret := -ENOMEM, shader := { shader with symbols := [] }, diag := [] } := by
  simp only [shader_parse_symbols, hh, hn, hc, Bool.false_eq_true, not_false_eq_true, if_true]

/-- C11: a container whose header can be read and declares `num_symbols = 0`
parses, when `calloc` hands out the (empty) symbol array, with return value 0,
an empty symbol set, `num_symbols = 0` and nothing written to `stderr`. -/
theorem C11_empty_symbol_table (calloc_ok : Nat → Bool) (shader : cgc_shader)
    (header : cgc_header) (hh : read_header shader.binary = .ok header)
    (hn : header.num_symbols = 0) (hc : calloc_ok 0 = true) :
    shader_parse_symbols calloc_ok shader =
      .ok { ret := 0, shader := { shader with symbols := [], num_symbols := 0 }, diag := [] } := by
  have h := shader_parse_symbols_of calloc_ok shader header []
    hh (by rw [hn]; exact hc) (by rw [hn]; exact parse_loop_zero _ _)
  rw [h, hn]
  rfl

set_option maxRecDepth 100000 in
/-- C11 witness: the 48-byte container that is a header with `num_symbols = 0`. -/
theorem C11_empty_symbol_table_witness :
    shader_parse_symbols (fun _ => true) empty_shader =
      .ok { ret := 0, shader := { empty_shader with symbols := [], num_symbols := 0 },
            diag := [] } :=
  C11_empty_symbol_table (fun _ => true) empty_shader
    ⟨0x1b5d, 0, 48, 0, 0, 0, 0, 48, 0, 0, 0, 0⟩ (by decide) rfl rfl

/-! ## The destination assertions -/

theorem outcome_emitted_iff (stream : List Nat) (instr : vs_instr) (last : Int) :
    (vs_emit_instr true stream instr last).outcome = .emitted ↔ asserts_pass instr := by
  constructor
  · intro h
    by_contra hp
    obtain ⟨e, he, _⟩ := vs_emit_instr_failed stream instr last hp
    rw [he] at h
    cases h
  · intro hp
    rw [vs_emit_instr_ok _ _ _ hp]

theorem emit_vector_error_kind (instr : vs_instr) (inst : instruction)
    (h : ¬ dst_asserts_pass instr) :
    ∃ e, emit_vector instr
        (emit_scalar instr { inst := inst, cfetch := -1, afetch := -1, vwrite := -1, sat := -1 }) =
      .error e ∧
      (e = .varying_write_mismatch ∨ e = .saturate_mismatch) ∧
      (e = .saturate_mismatch →
        instr.vdst.mask ≠ 0 ∧ instr.sdst.mask ≠ 0 ∧
        ¬ (instr.sdst.sat < 0 ∨ instr.sdst.sat = instr.vdst.sat)) ∧
      (e = .varying_write_mismatch →
        instr.vdst.mask ≠ 0 ∧ instr.sdst.mask ≠ 0 ∧ instr.sdst.type = VS_REG_TYPE_VAR ∧
        instr.vdst.type = VS_REG_TYPE_VAR ∧
        ¬ (instr.vdst.reg < 0 ∨ instr.vdst.reg = instr.vdst.sat)) := by
  unfold dst_asserts_pass at h
  unfold emit_vector emit_scalar
  by_cases hv : instr.vdst.mask = 0
  · exact absurd (fun c => absurd hv c) h
  · by_cases hs : instr.sdst.mask = 0
    · exfalso; apply h; intro _
      exact ⟨fun _ c => absurd hs c, fun c => absurd hs c⟩
    · simp only [ne_eq, hv, not_false_eq_true, hs, if_true]
      by_cases c1 : instr.sdst.type = VS_REG_TYPE_VAR ∧
          ¬ ((if instr.vdst.type = VS_REG_TYPE_VAR then instr.vdst.reg else -1) < 0 ∨
            (if instr.vdst.type = VS_REG_TYPE_VAR then instr.vdst.reg else -1) = instr.vdst.sat)
      · rw [if_pos c1]
        refine ⟨_, rfl, Or.inl rfl, fun c => (by cases c), fun _ => ⟨trivial, trivial, c1.1, ?_⟩⟩
        by_cases hvt : instr.vdst.type = VS_REG_TYPE_VAR
        · refine ⟨hvt, ?_⟩
          have := c1.2
          rw [if_pos hvt] at this
          exact this
        · exfalso
          apply c1.2
          rw [if_neg hvt]
          exact Or.inl (by decide)
      · rw [if_neg c1]
        by_cases c2 : ¬ (instr.sdst.sat < 0 ∨ instr.sdst.sat = instr.vdst.sat)
        · rw [if_pos c2]
          exact ⟨_, rfl, Or.inr rfl, fun _ => ⟨trivial, trivial, c2⟩, fun c => (by cases c)⟩
        · exfalso; apply h; intro _
          refine ⟨fun a _ b => ?_, fun _ => not_not.mp c2⟩
          have := not_not.mp (not_and.mp c1 a)
          simpa [b] using this

theorem vs_emit_instr_dst_failed (stream : List Nat) (instr : vs_instr) (last : Int)
    (h : ¬ dst_asserts_pass instr) :
    ∃ e, vs_emit_instr true stream instr last =
        { outcome := .assertion_failed e, stream := stream } ∧
      (e = .varying_write_mismatch ∨ e = .saturate_mismatch) ∧
      (e = .saturate_mismatch →
        instr.vdst.mask ≠ 0 ∧ instr.sdst.mask ≠ 0 ∧
        ¬ (instr.sdst.sat < 0 ∨ instr.sdst.sat = instr.vdst.sat)) ∧
      (e = .varying_write_mismatch →
        instr.vdst.mask ≠ 0 ∧ instr.sdst.mask ≠ 0 ∧ instr.sdst.type = VS_REG_TYPE_VAR ∧
        instr.vdst.type = VS_REG_TYPE_VAR ∧
        ¬ (instr.vdst.reg < 0 ∨ instr.vdst.reg = instr.vdst.sat)) := by
  obtain ⟨e, he, hk⟩ :=
    emit_vector_error_kind instr (emit_pred (emit_abs instr ⟨List.replicate 4 0⟩)) h
  refine ⟨e, ?_, hk⟩
  unfold vs_emit_instr instruction_create emit_build
  simp only [if_true, bind, Except.bind, he]

theorem saturate_mismatch_only (stream : List Nat) (instr : vs_instr) (last : Int)
    (h : (vs_emit_instr true stream instr last).outcome = .assertion_failed .saturate_mismatch) :
    instr.vdst.mask ≠ 0 ∧ instr.sdst.mask ≠ 0 ∧
      ¬ (instr.sdst.sat < 0 ∨ instr.sdst.sat = instr.vdst.sat) := by
  by_cases hd : dst_asserts_pass instr
  · by_cases hp : asserts_pass instr
    · rw [vs_emit_instr_ok _ _ _ hp] at h; cases h
    · obtain ⟨e, he, hk⟩ := vs_emit_instr_failed stream instr last hp
      rw [he] at h
      simp only [emit_outcome.assertion_failed.injEq] at h
      rcases (hk hd).1 with c | c | c <;> rw [c] at h <;> cases h
  · obtain ⟨e, he, _, hk, _⟩ := vs_emit_instr_dst_failed stream instr last hd
    rw [he] at h
    simp only [emit_outcome.assertion_failed.injEq] at h
    exact hk h

set_option maxRecDepth 100000 in
/-- C12 (the code at the failing inputs): with both ops present and both writing
varying 3, saturate flags 0, `vs_emit_instr` stops at the varying-write
assertion although the two targets agree; with the ops writing the different
varyings 1 and 2, saturate flags 1, it emits. In general, with both ops present
and both destinations varyings, the destination assertions hold exactly when the
vector destination's register index is negative or equals the vector op's
saturate flag, and the saturate flags agree: the scalar destination's register
index is never compared. -/
theorem C12_varying_write_assertion :
    vs_emit_instr true [0, 0, 0, 0] both_varying_same_instr 0 =
      { outcome := .assertion_failed .varying_write_mismatch, stream := [0, 0, 0, 0] } ∧
    (vs_emit_instr true [0, 0, 0, 0] both_varying_differ_instr 0).outcome = .emitted ∧
    (∀ instr : vs_instr, instr.vdst.mask ≠ 0 → instr.sdst.mask ≠ 0 →
      instr.vdst.type = VS_REG_TYPE_VAR → instr.sdst.type = VS_REG_TYPE_VAR →
      (dst_asserts_pass instr ↔
        (instr.vdst.reg < 0 ∨ instr.vdst.reg = instr.vdst.sat) ∧
        (instr.sdst.sat < 0 ∨ instr.sdst.sat = instr.vdst.sat))) := by
  refine ⟨by decide, by decide, ?_⟩
  intro instr hv hs tv ts
  unfold dst_asserts_pass
  constructor
  · intro h
    exact ⟨(h hv).1 ts hs tv, (h hv).2 hs⟩
  · intro h _
    exact ⟨fun _ _ _ => h.1, fun _ => h.2⟩

/-- C13: (1) with both ops present and saturate flags (each 0 or 1) that differ,
`vs_emit_instr` stops at an assertion and leaves the stream as it was; the
assertion is the saturate one unless the varying-write assertion, which comes
first, fails. (2) When only one op is present or the flags agree, it never stops
at the saturate assertion. (3) When it emits, bit 122 of the emitted word is the
saturate flag of the vector op if that op is present, and of the scalar op if
only the scalar op is present. -/
theorem C13_saturate_agreement (stream : List Nat) (instr : vs_instr) (last : Int) :
    (instr.vdst.mask ≠ 0 → instr.sdst.mask ≠ 0 →
      is_flag instr.vdst.sat → is_flag instr.sdst.sat → instr.vdst.sat ≠ instr.sdst.sat →
      ∃ e, vs_emit_instr true stream instr last =
          { outcome := .assertion_failed e, stream := stream } ∧
        (e = .saturate_mismatch ∨ e = .varying_write_mismatch) ∧
        (instr.sdst.type ≠ VS_REG_TYPE_VAR → e = .saturate_mismatch)) ∧
    ((instr.vdst.mask = 0 ∨ instr.sdst.mask = 0 ∨ instr.vdst.sat = instr.sdst.sat) →
      (vs_emit_instr true stream instr last).outcome ≠ .assertion_failed .saturate_mismatch) ∧
    ((vs_emit_instr true stream instr last).outcome = .emitted → stream.length = 4 →
      (instr.vdst.mask ≠ 0 → is_flag instr.vdst.sat →
        instruction_get_bit (instruction_create_from_words
          (vs_emit_instr true stream instr last).stream 4) 122 = instr.vdst.sat.toNat) ∧
      (instr.vdst.mask = 0 → instr.sdst.mask ≠ 0 → is_flag instr.sdst.sat →
        instruction_get_bit (instruction_create_from_words
          (vs_emit_instr true stream instr last).stream 4) 122 = instr.sdst.sat.toNat)) := by
  refine ⟨?_, ?_, ?_⟩
  · intro hv hs fv fs hne
    have hd : ¬ dst_asserts_pass instr := by
      intro c
      rcases (c hv).2 hs with d | d
      · rcases fs with f | f <;> rw [f] at d <;> exact absurd d (by decide)
      · exact hne d.symm
    obtain ⟨e, he, hk, _, hvar⟩ := vs_emit_instr_dst_failed stream instr last hd
    refine ⟨e, he, hk.symm, fun ht => ?_⟩
    rcases hk with c | c
    · exact absurd (hvar c).2.2.1 ht
    · exact c
  · intro h c
    obtain ⟨hv, hs, hn⟩ := saturate_mismatch_only stream instr last c
    rcases h with h | h | h
    · exact hv h
    · exact hs h
    · exact hn (Or.inr h.symm)
  · intro he hs
    have hp := (outcome_emitted_iff stream instr last).mp he
    unfold instruction_get_bit
    rw [emitted_field _ _ _ _ _ hp hs, field_sat]
    refine ⟨fun hv fv => ?_, fun hv hsm fs => ?_⟩
    · unfold sat_of
      rw [if_pos hv]
      exact flag_bit _ fv
    · unfold sat_of
      rw [if_neg (by simpa using hv), if_pos hsm]
      exact flag_bit _ fs

set_option maxRecDepth 100000 in
/-- C13 witness: a saturating vector op with a scalar op that does not saturate
stops at the saturate assertion with the stream untouched; with both saturating
the pair is emitted and bit 122 of the word is 1. -/
theorem C13_saturate_agreement_witness :
    vs_emit_instr true [0, 0, 0, 0] saturate_differ_instr 0 =
      { outcome := .assertion_failed .saturate_mismatch, stream := [0, 0, 0, 0] } ∧
    (vs_emit_instr true [0, 0, 0, 0] saturate_agree_instr 0).outcome ≠
      .assertion_failed .saturate_mismatch ∧
    instruction_get_bit (instruction_create_from_words
      (vs_emit_instr true [0, 0, 0, 0] saturate_agree_instr 0).stream 4) 122 = 1 := by
  refine ⟨?_, (C13_saturate_agreement [0, 0, 0, 0] saturate_agree_instr 0).2.1
      (Or.inr (Or.inr rfl)),
    ((C13_saturate_agreement [0, 0, 0, 0] saturate_agree_instr 0).2.2 (by decide) rfl).1
      (by decide) (by decide)⟩
  obtain ⟨e, he, _, hk⟩ := (C13_saturate_agreement [0, 0, 0, 0] saturate_differ_instr 0).1
    (by decide) (by decide) (by decide) (by decide) (by decide)
  rw [he, hk (by decide)]

/-! ## The shape of the disassembled op lines -/

theorem get_bit_lt_two (inst : instruction) (pos : Nat) : instruction_get_bit inst pos < 2 := by
  have h := extract_lt inst pos pos
  unfold instruction_get_bit
  simpa using h

theorem u8_get_bit (inst : instruction) (pos : Nat) :
    u8 (instruction_get_bit inst pos) = instruction_get_bit inst pos := by
  have h := get_bit_lt_two inst pos
  unfold u8
  omega

theorem get_bit_ne_zero (inst : instruction) (pos : Nat) :
    instruction_get_bit inst pos ≠ 0 ↔ instruction_get_bit inst pos = 1 := by
  have h := get_bit_lt_two inst pos
  omega

theorem vec_operand_zero (inst : instruction) :
    vec_operand inst 0 = vec_src_text (u8 (instruction_get_bit inst 71))
      (u8 (instruction_extract inst 69 70)) (u8 (instruction_extract inst 67 68))
      (u8 (instruction_extract inst 65 66)) (u8 (instruction_extract inst 63 64))
      (u8 (instruction_get_bit inst 117)) (instruction_extract inst 57 62)
      (instruction_extract inst 55 56) (u8 (instruction_extract inst 72 75))
      (u8 (instruction_extract inst 76 83)) := rfl

theorem vec_operand_one (inst : instruction) :
    vec_operand inst 1 = vec_src_text (u8 (instruction_get_bit inst 54))
      (u8 (instruction_extract inst 52 53)) (u8 (instruction_extract inst 50 51))
      (u8 (instruction_extract inst 48 49)) (u8 (instruction_extract inst 46 47))
      (u8 (instruction_get_bit inst 118)) (instruction_extract inst 40 45)
      (instruction_extract inst 38 39) (u8 (instruction_extract inst 72 75))
      (u8 (instruction_extract inst 76 83)) := rfl

theorem vec_operand_two (inst : instruction) :
    vec_operand inst 2 = vec_src_text (u8 (instruction_get_bit inst 37))
      (u8 (instruction_extract inst 35 36)) (u8 (instruction_extract inst 33 34))
      (u8 (instruction_extract inst 31 32)) (u8 (instruction_extract inst 29 30))
      (u8 (instruction_get_bit inst 119)) (instruction_extract inst 23 28)
      (instruction_extract inst 21 22) (u8 (instruction_extract inst 72 75))
      (u8 (instruction_extract inst 76 83)) := rfl

theorem pred_head_some (inst : instruction) : ∃ p, pred_head inst = some p :=
  pred_text_some _ _ _ _ _ _
    (u8_extract_lt_four inst 104) (u8_extract_lt_four inst 102)
    (u8_extract_lt_four inst 100) (u8_extract_lt_four inst 98)

theorem vec_operand_some (inst : instruction) (i : Nat) : ∃ o, vec_operand inst i = some o :=
  vec_src_text_some _ _ _ _ _ _ _ _ _ _
    (extract_lt_four inst (55 - 17 * i)) (u8_extract_lt_four inst (55 - 17 * i + 14))
    (u8_extract_lt_four inst (55 - 17 * i + 12)) (u8_extract_lt_four inst (55 - 17 * i + 10))
    (u8_extract_lt_four inst (55 - 17 * i + 8))

theorem scalar_operand_some (inst : instruction) : ∃ o, scalar_operand inst = some o :=
  scalar_src_text_some _ _ _ _ _ _ _ (extract_lt_four inst 21) (u8_extract_lt_four inst 35)

/-- The line the vector op block prints, part by part: the predicate prefix, the
mnemonic of `vec_opcode`, the destination, the operand of slot 0, the operand of
slot 1 when `rb` is set and the operand of slot 2 when `rc` is set. -/
theorem disassemble_vec_form (inst : instruction) (p o0 o1 o2 : String)
    (hm : vec_mask_set inst) (hp : pred_head inst = some p)
    (h0 : vec_operand inst 0 = some o0) (h1 : vec_operand inst 1 = some o1)
    (h2 : vec_operand inst 2 = some o2) :
    disassemble_vec inst = some ("      vec op\n" ++ "        " ++ p ++
      (vec_opcode (instruction_extract inst 86 90)).1 ++
      dst_text (instruction_get_bit inst 126) (instruction_get_bit inst 125)
        (instruction_extract inst 2 5) (instruction_extract inst 111 116)
        (instruction_get_bit inst 122) (instruction_get_bit inst 16)
        (instruction_get_bit inst 15) (instruction_get_bit inst 14)
        (instruction_get_bit inst 13) ++
      o0 ++ (if (vec_opcode (instruction_extract inst 86 90)).2.1 then o1 else "") ++
      (if (vec_opcode (instruction_extract inst 86 90)).2.2 then o2 else "") ++ "\n") := by
  rw [vec_operand_zero] at h0
  rw [vec_operand_one] at h1
  rw [vec_operand_two] at h2
  unfold pred_head at hp
  unfold vec_mask_set at hm
  unfold disassemble_vec
  simp only [hp, h0, h1, h2]
  simp only [u8_get_bit, u8_extract, Nat.reduceAdd, Nat.reduceLT, Nat.lt_add_one]
  rw [if_pos hm]
  cases hrb : (vec_opcode (instruction_extract inst 86 90)).2.1 <;>
  cases hrc : (vec_opcode (instruction_extract inst 86 90)).2.2 <;>
  simp

/-- The lines the scalar op block prints, part by part. -/
theorem disassemble_scalar_form (inst : instruction) (p o : String)
    (hm : scalar_mask_set inst) (hp : pred_head inst = some p)
    (ho : scalar_operand inst = some o) :
    disassemble_scalar inst = some ("      scalar op\n" ++ "        " ++ p ++
      scalar_opcode (instruction_extract inst 91 94) ++
      dst_text (instruction_get_bit inst 126) (instruction_get_bit inst 125)
        (instruction_extract inst 2 5) (instruction_extract inst 7 12)
        (instruction_get_bit inst 122) (instruction_get_bit inst 20)
        (instruction_get_bit inst 19) (instruction_get_bit inst 18)
        (instruction_get_bit inst 17) ++ o) := by
  unfold pred_head at hp
  unfold scalar_operand at ho
  unfold scalar_mask_set at hm
  unfold disassemble_scalar
  simp only [hp, ho]
  simp only [u8_get_bit, u8_extract, Nat.reduceAdd, Nat.reduceLT, Nat.lt_add_one]
  rw [if_pos hm]
  simp

theorem disassemble_vec_absent (inst : instruction) (hm : ¬ vec_mask_set inst) :
    disassemble_vec inst = some "" := by
  unfold vec_mask_set at hm
  unfold disassemble_vec
  simp only [u8_get_bit]
  rw [if_neg hm]
  rfl

theorem disassemble_scalar_absent (inst : instruction) (hm : ¬ scalar_mask_set inst) :
    disassemble_scalar inst = some "" := by
  unfold scalar_mask_set at hm
  unfold disassemble_scalar
  simp only [u8_get_bit]
  rw [if_neg hm]
  rfl

/-! ## The last-instruction flag -/

theorem marker_tail (t pre : String) (c : Char)
    (h : t ++ String.mk [c, '\n'] = pre ++ "    done\n") : c = 'e' := by
  have h2 := congrArg (fun s => s.data.reverse) h
  simp only [String.data_append, List.reverse_append] at h2
  have h3 : ("    done\n" : String).data.reverse = ['\n', 'e', 'n', 'o', 'd', ' ', ' ', ' ', ' '] := by
    decide
  rw [h3] at h2
  simp only [List.reverse_cons, List.reverse_nil, List.nil_append, List.cons_append,
    List.singleton_append, List.cons.injEq, true_and] at h2
  exact h2.1

theorem marker_not_empty (pre : String) : "" ≠ pre ++ "    done\n" := by
  intro h
  have h2 := congrArg String.length h
  rw [String.length_append] at h2
  have : ("    done\n" : String).length = 9 := by decide
  have : ("" : String).length = 0 := by decide
  omega

theorem swizzle_not_e (n : Nat) (c : Char) (h : swizzle[n]? = some c) : c ≠ 'e' := by
  have hm := List.getElem?_mem h
  unfold swizzle at hm
  simp only [List.mem_cons, List.mem_singleton, List.mem_nil_iff, or_false] at hm
  rcases hm with r | r | r | r <;> rw [r] <;> decide

theorem vec_src_text_tail (neg sx sy sz sw abs reg type attrib constant : Nat) (t : String)
    (h : vec_src_text neg sx sy sz sw abs reg type attrib constant = some t) :
    ∃ u c, t = u ++ String.mk [c] ∧ c ≠ 'e' := by
  unfold vec_src_text at h
  cases ht : reg_type_letters[type]? with
  | none => simp [ht] at h
  | some l =>
    cases hx : swizzle[sx]? with
    | none => simp [ht, hx] at h
    | some cx =>
      cases hy : swizzle[sy]? with
      | none => simp [ht, hx, hy] at h
      | some cy =>
        cases hz : swizzle[sz]? with
        | none => simp [ht, hx, hy, hz] at h
        | some cz =>
          cases hw : swizzle[sw]? with
          | none => simp [ht, hx, hy, hz, hw] at h
          | some cw =>
            simp only [ht, hx, hy, hz, hw, bind, Option.bind, pure, Option.some.injEq] at h
            by_cases ha : abs ≠ 0
            · rw [if_pos ha, if_pos ha] at h
              exact ⟨_, ')', h.symm, by decide⟩
            · rw [if_neg ha, if_neg ha] at h
              refine ⟨", " ++ (if neg ≠ 0 then "-" else "") ++ "" ++ String.mk [l] ++
                dec (src_reg type reg attrib constant) ++ "." ++ String.mk [cx, cy, cz], cw,
                ?_, swizzle_not_e _ _ hw⟩
              rw [← h]
              apply String.ext
              simp [String.data_append]

theorem scalar_src_text_tail (neg sx abs reg type attrib constant : Nat) (t : String)
    (h : scalar_src_text neg sx abs reg type attrib constant = some t) :
    ∃ u c, t = u ++ String.mk [c, '\n'] ∧ c ≠ 'e' := by
  unfold scalar_src_text at h
  cases ht : reg_type_letters[type]? with
  | none => simp [ht] at h
  | some l =>
    cases hx : swizzle[sx]? with
    | none => simp [ht, hx] at h
    | some cx =>
      simp only [ht, hx, bind, Option.bind, pure, Option.some.injEq] at h
      by_cases ha : abs ≠ 0
      · rw [if_pos ha, if_pos ha] at h
        refine ⟨", " ++ (if neg ≠ 0 then "-" else "") ++ "abs(" ++ String.mk [l] ++
          dec (src_reg type reg attrib constant) ++ "." ++ String.mk [cx], ')', ?_, by decide⟩
        rw [← h]
        apply String.ext
        simp [String.data_append]
      · rw [if_neg ha, if_neg ha] at h
        refine ⟨", " ++ (if neg ≠ 0 then "-" else "") ++ "" ++ String.mk [l] ++
          dec (src_reg type reg attrib constant) ++ ".", cx, ?_, swizzle_not_e _ _ hx⟩
        rw [← h]
        apply String.ext
        simp [String.data_append]

theorem tail_append (a u : String) (c : Char) :
    a ++ (u ++ String.mk [c]) ++ "\n" = (a ++ u) ++ String.mk [c, '\n'] := by
  apply String.ext
  simp [String.data_append]

/-- Whatever the word, the text of the vector op block is empty or ends a line
after a character other than `e`. -/
theorem disassemble_vec_tail (inst : instruction) :
    ∃ v, disassemble_vec inst = some v ∧
      (v = "" ∨ ∃ u c, v = u ++ String.mk [c, '\n'] ∧ c ≠ 'e') := by
  by_cases hm : vec_mask_set inst
  · obtain ⟨p, hp⟩ := pred_head_some inst
    obtain ⟨o0, h0⟩ := vec_operand_some inst 0
    obtain ⟨o1, h1⟩ := vec_operand_some inst 1
    obtain ⟨o2, h2⟩ := vec_operand_some inst 2
    obtain ⟨u0, c0, e0, n0⟩ := vec_src_text_tail _ _ _ _ _ _ _ _ _ _ _ h0
    obtain ⟨u1, c1, e1, n1⟩ := vec_src_text_tail _ _ _ _ _ _ _ _ _ _ _ h1
    obtain ⟨u2, c2, e2, n2⟩ := vec_src_text_tail _ _ _ _ _ _ _ _ _ _ _ h2
    refine ⟨_, disassemble_vec_form inst p o0 o1 o2 hm hp h0 h1 h2, Or.inr ?_⟩
    generalize "      vec op\n" ++ "        " ++ p ++
      (vec_opcode (instruction_extract inst 86 90)).1 ++
      dst_text (instruction_get_bit inst 126) (instruction_get_bit inst 125)
        (instruction_extract inst 2 5) (instruction_extract inst 111 116)
        (instruction_get_bit inst 122) (instruction_get_bit inst 16)
        (instruction_get_bit inst 15) (instruction_get_bit inst 14)
        (instruction_get_bit inst 13) = a
    cases (vec_opcode (instruction_extract inst 86 90)).2.2
    · cases (vec_opcode (instruction_extract inst 86 90)).2.1
      · refine ⟨a ++ u0, c0, ?_, n0⟩
        simp only [Bool.false_eq_true, if_false, String.append_empty]
        rw [e0]
        exact tail_append _ _ _
      · refine ⟨a ++ o0 ++ u1, c1, ?_, n1⟩
        simp only [Bool.false_eq_true, if_false, if_true, String.append_empty]
        rw [e1]
        exact tail_append _ _ _
    · refine ⟨a ++ o0 ++ (if (vec_opcode (instruction_extract inst 86 90)).2.1 = true then o1
        else "") ++ u2, c2, ?_, n2⟩
      simp only [if_true]
      rw [e2]
      exact tail_append _ _ _
  · exact ⟨"", disassemble_vec_absent inst hm, Or.inl rfl⟩

/-- Whatever the word, the text of the scalar op block is empty or ends a line
after a character other than `e`. -/
theorem disassemble_scalar_tail (inst : instruction) :
    ∃ s, disassemble_scalar inst = some s ∧
      (s = "" ∨ ∃ u c, s = u ++ String.mk [c, '\n'] ∧ c ≠ 'e') := by
  by_cases hm : scalar_mask_set inst
  · obtain ⟨p, hp⟩ := pred_head_some inst
    obtain ⟨o, ho⟩ := scalar_operand_some inst
    obtain ⟨u, c, e, n⟩ := scalar_src_text_tail _ _ _ _ _ _ _ _ ho
    refine ⟨_, disassemble_scalar_form inst p o hm hp ho, Or.inr ?_⟩
    generalize "      scalar op\n" ++ "        " ++ p ++
      scalar_opcode (instruction_extract inst 91 94) ++
      dst_text (instruction_get_bit inst 126) (instruction_get_bit inst 125)
        (instruction_extract inst 2 5) (instruction_extract inst 7 12)
        (instruction_get_bit inst 122) (instruction_get_bit inst 20)
        (instruction_get_bit inst 19) (instruction_get_bit inst 18)
        (instruction_get_bit inst 17) = a
    refine ⟨a ++ u, c, ?_, n⟩
    rw [e, ← String.append_assoc]
  · exact ⟨"", disassemble_scalar_absent inst hm, Or.inl rfl⟩

/-- The op lines of a word never end with the terminal marker. -/
theorem ops_tail (v s pre : String)
    (hv : v = "" ∨ ∃ u c, v = u ++ String.mk [c, '\n'] ∧ c ≠ 'e')
    (hs : s = "" ∨ ∃ u c, s = u ++ String.mk [c, '\n'] ∧ c ≠ 'e') :
    v ++ s ≠ pre ++ "    done\n" := by
  intro h
  rcases hs with hs | ⟨u, c, hs, n⟩
  · rcases hv with hv | ⟨u, c, hv, n⟩
    · rw [hv, hs] at h
      exact marker_not_empty pre h
    · rw [hs, String.append_empty, hv] at h
      exact n (marker_tail _ _ _ h)
  · rw [hs, ← String.append_assoc] at h
    exact n (marker_tail _ _ _ h)

/-- C14: for every descriptor and every value 0 or 1 of the `last` argument with
which `vs_emit_instr` emits, bit 0 of the emitted word is the value of `last`
(so it is 1 exactly when `last` is set, whatever the descriptor), and the
disassembly of the emitted word ends with the line `    done` exactly when
`last` is 1. -/
theorem C14_last_flag (stream : List Nat) (instr : vs_instr) (last : Int)
    (hs : stream.length = 4) (hl : is_flag last)
    (he : (vs_emit_instr true stream instr last).outcome = .emitted) :
    instruction_get_bit (instruction_create_from_words
      (vs_emit_instr true stream instr last).stream 4) 0 = last.toNat ∧
    (instruction_get_bit (instruction_create_from_words
      (vs_emit_instr true stream instr last).stream 4) 0 = 1 ↔ last = 1) ∧
    ∃ text, disassemble_ops (instruction_create_from_words
        (vs_emit_instr true stream instr last).stream 4) = some text ∧
      ((∃ pre, text = pre ++ "    done\n") ↔ last = 1) := by
  have hp := (outcome_emitted_iff stream instr last).mp he
  have hb : instruction_get_bit (instruction_create_from_words
      (vs_emit_instr true stream instr last).stream 4) 0 = last.toNat := by
    unfold instruction_get_bit
    rw [emitted_field _ _ _ _ _ hp hs, field_last]
    exact flag_bit _ hl
  refine ⟨hb, ?_, ?_⟩
  · rw [hb]
    rcases hl with h | h <;> subst h <;> decide
  · obtain ⟨v, hv, tv⟩ := disassemble_vec_tail (instruction_create_from_words
      (vs_emit_instr true stream instr last).stream 4)
    obtain ⟨s, hsc, ts⟩ := disassemble_scalar_tail (instruction_create_from_words
      (vs_emit_instr true stream instr last).stream 4)
    refine ⟨v ++ s ++ disassemble_done (instruction_create_from_words
      (vs_emit_instr true stream instr last).stream 4), ?_, ?_⟩
    · unfold disassemble_ops
      rw [hv, hsc]
      rfl
    · unfold disassemble_done
      rw [hb]
      rcases hl with h | h <;> subst h
      · simp only [Int.toNat_zero, ne_eq, not_true_eq_false, if_false, String.append_empty]
        constructor
        · rintro ⟨pre, h⟩
          exact absurd h (ops_tail v s pre tv ts)
        · intro h
          exact absurd h (by decide)
      · constructor
        · intro _
          rfl
        · intro _
          exact ⟨v ++ s, rfl⟩

set_option maxRecDepth 100000 in
/-- C14 witness: `dp4_instr` with `last = 1` is emitted with bit 0 set, and its
disassembly ends with the terminal marker. -/
theorem C14_last_flag_witness :
    instruction_get_bit (instruction_create_from_words
      (vs_emit_instr true [0, 0, 0, 0] dp4_instr 1).stream 4) 0 = 1 ∧
    ∃ text, disassemble_ops (instruction_create_from_words
        (vs_emit_instr true [0, 0, 0, 0] dp4_instr 1).stream 4) = some text ∧
      ((∃ pre, text = pre ++ "    done\n") ↔ (1 : Int) = 1) :=
  ⟨(C14_last_flag [0, 0, 0, 0] dp4_instr 1 rfl (by decide) (by decide)).1,
    (C14_last_flag [0, 0, 0, 0] dp4_instr 1 rfl (by decide) (by decide)).2.2⟩

/-! ## A vector-only `dp4`, end to end -/

theorem disassemble_scalar_absent_emitted (instr : vs_instr) (last : Int)
    (hsm : instr.sdst.mask = 0) : disassemble_scalar (emit_bits instr last) = some "" := by
  apply disassemble_scalar_absent
  unfold scalar_mask_set instruction_get_bit
  simp only [field_swx, field_swy, field_swz, field_sww, hsm, if_true]
  simp

theorem disassemble_done_flag (instr : vs_instr) (last : Int) (hl : is_flag last) :
    disassemble_done (emit_bits instr last) = if last = 1 then "    done\n" else "" := by
  unfold disassemble_done instruction_get_bit
  rw [field_last, flag_bit _ hl]
  rcases hl with h | h <;> subst h <;> rfl

/-- C15: for every vector-only instruction (scalar write mask zero) with opcode
`dp4` (0x7), a temp destination `r<n>` with `n < 63`, a nonzero write mask,
source slot 0 an attribute with index below 16, source slot 1 a constant with
index below 256 and source slot 2 unused, all flags being 0 or 1 and mask and
swizzles fitting their fields, `vs_emit_instr` emits and the disassembly of the
emitted word is one op line naming `dp4`, the destination of the descriptor
and exactly the two source operands of slots 0 and 1 with the descriptor's
negate, abs, index and swizzle, followed by the terminal marker when `last` is
set. -/
theorem C15_dp4_end_to_end (stream : List Nat) (instr : vs_instr) (last : Int)
    (hs : stream.length = 4) (hl : is_flag last)
    (hop : instr.vop = 7) (hsm : instr.sdst.mask = 0)
    (hvt : instr.vdst.type = VS_REG_TYPE_TEMP) (hvm : instr.vdst.mask ≠ 0)
    (hvf : dst_fits instr.vdst)
    (h0 : (instr.src 0).type = VS_REG_TYPE_ATTR) (f0 : src_fits (instr.src 0))
    (h1 : (instr.src 1).type = VS_REG_TYPE_CONST) (f1 : src_fits (instr.src 1))
    (h2 : (instr.src 2).type = VS_REG_TYPE_INVALID) :
    (vs_emit_instr true stream instr last).outcome = .emitted ∧
    disassemble_ops (instruction_create_from_words
        (vs_emit_instr true stream instr last).stream 4) =
      some ("      vec op\n" ++ "        " ++ "dp4" ++
        (" r" ++ dec instr.vdst.reg.toNat ++ (if instr.vdst.sat ≠ 0 then "_sat" else "") ++
          "." ++ (if instr.vdst.mask / 8 % 2 ≠ 0 then "x" else "") ++
          (if instr.vdst.mask / 4 % 2 ≠ 0 then "y" else "") ++
          (if instr.vdst.mask / 2 % 2 ≠ 0 then "z" else "") ++
          (if instr.vdst.mask % 2 ≠ 0 then "w" else "")) ++
        (", " ++ (if (instr.src 0).neg ≠ 0 then "-" else "") ++
          (if (instr.src 0).abs ≠ 0 then "abs(" else "") ++ "v" ++
          dec (instr.src 0).reg.toNat ++ "." ++ expected_swizzle (instr.src 0).swz ++
          (if (instr.src 0).abs ≠ 0 then ")" else "")) ++
        (", " ++ (if (instr.src 1).neg ≠ 0 then "-" else "") ++
          (if (instr.src 1).abs ≠ 0 then "abs(" else "") ++ "c" ++
          dec (instr.src 1).reg.toNat ++ "." ++ expected_swizzle (instr.src 1).swz ++
          (if (instr.src 1).abs ≠ 0 then ")" else "")) ++
        "\n" ++ (if last = 1 then "    done\n" else "")) := by
  have hp : asserts_pass instr := by
    refine ⟨fun _ => ⟨fun _ c => absurd hsm c, fun c => absurd hsm c⟩,
      ⟨fun _ => Or.inl (by decide), fun _ => Or.inl (by decide), by rw [h0]; decide⟩,
      ⟨fun _ => ?_, fun c => ?_, by rw [h1]; decide⟩,
      ⟨fun c => ?_, fun c => ?_, by rw [h2]; decide⟩⟩
    · unfold cfetch_step; rw [h0, if_neg (by decide)]; exact Or.inl (by decide)
    · rw [h1] at c; cases c
    · rw [h2] at c; cases c
    · rw [h2] at c; cases c
  refine ⟨by rw [vs_emit_instr_ok _ _ _ hp], ?_⟩
  rw [decode_emitted _ _ _ hp hs]
  have ha : afetch_of instr = (instr.src 0).reg := by
    unfold afetch_of afetch_step
    simp [h0, h1, h2]
  have hc : cfetch_of instr = (instr.src 1).reg := by
    unfold cfetch_of cfetch_step
    simp [h0, h1, h2]
  have hsatv : u32 (sat_of instr) % 2 = instr.vdst.sat.toNat := by
    unfold sat_of; rw [if_pos hvm]; exact flag_bit _ hvf.2.1
  have e0 := vec_src_text_eq (instr.src 0)
    (u32 (if afetch_of instr ≥ 0 then afetch_of instr else 0) % 16)
    (u32 (if cfetch_of instr ≥ 0 then cfetch_of instr else 0) % 256)
    f0 (by rw [h0]; decide) (by rw [h0]; decide)
    (fun h => by
      have b := f0.2.2.2.2.1 h
      rw [ha, if_pos b.1, u32_of_nonneg _ b.1 (by omega)]
      omega)
    (fun h => by rw [h0] at h; cases h)
  have e1 := vec_src_text_eq (instr.src 1)
    (u32 (if afetch_of instr ≥ 0 then afetch_of instr else 0) % 16)
    (u32 (if cfetch_of instr ≥ 0 then cfetch_of instr else 0) % 256)
    f1 (by rw [h1]; decide) (by rw [h1]; decide)
    (fun h => by rw [h1] at h; cases h)
    (fun h => by
      have b := f1.2.2.2.2.2 h
      rw [hc, if_pos b.1, u32_of_nonneg _ b.1 (by omega)]
      omega)
  have hd := dst_text_temp 0 0 (u32 (sat_of instr) % 2) instr.vdst.mask instr.vdst hvf hvt
    hsatv rfl
  have hv : disassemble_vec (emit_bits instr last) = some ("      vec op\n" ++ "        " ++
      "dp4" ++ expected_dst instr.vdst ++ expected_src (instr.src 0) ++
      expected_src (instr.src 1) ++ "\n") := by
    unfold disassemble_vec
    simp only [instruction_get_bit]
    simp only [u8_extract, Nat.reduceAdd, Nat.reduceLT, Nat.lt_add_one]
    simp only [field_constant, field_attribute, field_varying, field_pred, field_pneg, field_psx,
      field_psy, field_psz, field_psw, field_write_varying, field_write_pred, field_sat,
      field_vwx, field_vwy, field_vwz, field_vww, field_vop, field_vreg,
      field_neg0, field_sx0, field_sy0, field_sz0, field_sw0, field_abs0, field_reg0, field_type0,
      field_neg1, field_sx1, field_sy1, field_sz1, field_sw1, field_abs1, field_reg1, field_type1,
      field_neg2, field_sx2, field_sy2, field_sz2, field_sw2, field_abs2, field_reg2, field_type2]
    have hop2 : vec_opcode (instr.vop % 32) = ("dp4", true, false) := by rw [hop]; rfl
    have hwv : (if instr.vdst.type = VS_REG_TYPE_VAR then 1 else 0) % 2 = 0 := by
      rw [hvt]; rfl
    have hvar : (if instr.vdst.type = VS_REG_TYPE_VAR then u32 instr.vdst.reg else 0) % 16 = 0 := by
      rw [hvt]; rfl
    simp only [hvm, if_false, hop2, if_pos ((mask_ne_zero _ hvf.1).mpr hvm),
      pred_text_emitted, e0, e1, hwv, hvar, hd, ne_eq, not_false_eq_true, if_true]
    simp
  unfold disassemble_ops
  rw [hv, disassemble_scalar_absent_emitted _ _ hsm, disassemble_done_flag _ _ hl]
  unfold expected_dst expected_src
  rw [hvt, h0, h1]
  simp [reg_letter, String.append_assoc]

/-- C15 witness: `dp4 r0.xyzw, v3.xyzw, -abs(c9.xyzw)` with the last flag clear
disassembles to that line. -/
theorem C15_dp4_end_to_end_witness :
    (vs_emit_instr true [0, 0, 0, 0] dp4_instr 0).outcome = .emitted ∧
    disassemble_ops (instruction_create_from_words
        (vs_emit_instr true [0, 0, 0, 0] dp4_instr 0).stream 4) =
      some "      vec op\n        dp4 r0.xyzw, v3.xyzw, -abs(c9.xyzw)\n" :=
  C15_dp4_end_to_end [0, 0, 0, 0] dp4_instr 0 rfl (by decide) rfl rfl rfl (by decide)
    (by decide) rfl (by decide) rfl (by decide) rfl

/-! ## The type and register fields of the source slots -/

theorem field_type_slot (instr : vs_instr) (last : Int) (i : Nat) (hi : i < 3) :
    instruction_extract (emit_bits instr last) (55 - 17 * i) (56 - 17 * i) =
      (if (instr.src i).type = VS_REG_TYPE_INVALID then 2 else (instr.src i).type.val) % 4 := by
  interval_cases i
  · exact field_type0 instr last
  · exact field_type1 instr last
  · exact field_type2 instr last

theorem field_reg_slot (instr : vs_instr) (last : Int) (i : Nat) (hi : i < 3) :
    instruction_extract (emit_bits instr last) (57 - 17 * i) (62 - 17 * i) =
      u32 (slot_reg (instr.src i)) % 64 := by
  interval_cases i
  · exact field_reg0 instr last
  · exact field_reg1 instr last
  · exact field_reg2 instr last

theorem not_pass_of_varying_source (instr : vs_instr) (i : Nat) (hi : i < 3)
    (h : (instr.src i).type = VS_REG_TYPE_VAR) : ¬ asserts_pass instr := by
  intro hp
  obtain ⟨_, ⟨_, _, a0⟩, ⟨_, _, a1⟩, ⟨_, _, a2⟩⟩ := hp
  interval_cases i
  · exact a0 h
  · exact a1 h
  · exact a2 h

/-- When every assertion holds, the constant fetch index is the register index of
any constant slot that carries a non-negative one. -/
theorem cfetch_of_pass (instr : vs_instr) (hp : asserts_pass instr) (i : Nat) (hi : i < 3)
    (h : (instr.src i).type = VS_REG_TYPE_CONST) (h0 : 0 ≤ (instr.src i).reg) :
    cfetch_of instr = (instr.src i).reg := by
  obtain ⟨_, _, ⟨a1, _, _⟩, ⟨a2, _, _⟩⟩ := hp
  unfold cfetch_step at a1 a2
  unfold cfetch_of cfetch_step
  interval_cases i
  · rw [if_pos h] at a1 a2 ⊢
    by_cases c1 : (instr.src 1).type = VS_REG_TYPE_CONST
    · have b1 := a1 c1
      rw [if_pos c1] at a2 ⊢
      by_cases c2 : (instr.src 2).type = VS_REG_TYPE_CONST
      · have b2 := a2 c2
        rw [if_pos c2]
        omega
      · rw [if_neg c2]
        omega
    · rw [if_neg c1] at a2 ⊢
      by_cases c2 : (instr.src 2).type = VS_REG_TYPE_CONST
      · have b2 := a2 c2
        rw [if_pos c2]
        omega
      · rw [if_neg c2]
  · rw [if_pos h] at a2 ⊢
    by_cases c2 : (instr.src 2).type = VS_REG_TYPE_CONST
    · have b2 := a2 c2
      rw [if_pos c2]
      omega
    · rw [if_neg c2]
  · rw [if_pos h]

/-- When every assertion holds, the attribute fetch index is the register index
of any attribute slot that carries a non-negative one. -/
theorem afetch_of_pass (instr : vs_instr) (hp : asserts_pass instr) (i : Nat) (hi : i < 3)
    (h : (instr.src i).type = VS_REG_TYPE_ATTR) (h0 : 0 ≤ (instr.src i).reg) :
    afetch_of instr = (instr.src i).reg := by
  obtain ⟨_, _, ⟨_, a1, _⟩, ⟨_, a2, _⟩⟩ := hp
  unfold afetch_step at a1 a2
  unfold afetch_of afetch_step
  interval_cases i
  · rw [if_pos h] at a1 a2 ⊢
    by_cases c1 : (instr.src 1).type = VS_REG_TYPE_ATTR
    · have b1 := a1 c1
      rw [if_pos c1] at a2 ⊢
      by_cases c2 : (instr.src 2).type = VS_REG_TYPE_ATTR
      · have b2 := a2 c2
        rw [if_pos c2]
        omega
      · rw [if_neg c2]
        omega
    · rw [if_neg c1] at a2 ⊢
      by_cases c2 : (instr.src 2).type = VS_REG_TYPE_ATTR
      · have b2 := a2 c2
        rw [if_pos c2]
        omega
      · rw [if_neg c2]
  · rw [if_pos h] at a2 ⊢
    by_cases c2 : (instr.src 2).type = VS_REG_TYPE_ATTR
    · have b2 := a2 c2
      rw [if_pos c2]
      omega
    · rw [if_neg c2]
  · rw [if_pos h]

theorem cfetch_of_unused (instr : vs_instr)
    (h : ∀ j, j < 3 → (instr.src j).type ≠ VS_REG_TYPE_CONST) : cfetch_of instr = -1 := by
  unfold cfetch_of cfetch_step
  rw [if_neg (h 2 (by decide)), if_neg (h 1 (by decide)), if_neg (h 0 (by decide))]

theorem afetch_of_unused (instr : vs_instr)
    (h : ∀ j, j < 3 → (instr.src j).type ≠ VS_REG_TYPE_ATTR) : afetch_of instr = -1 := by
  unfold afetch_of afetch_step
  rw [if_neg (h 2 (by decide)), if_neg (h 1 (by decide)), if_neg (h 0 (by decide))]

set_option maxRecDepth 100000 in
/-- C16 counterexample: `dp4 r0.xyzw, v3.xyzw, -abs(c9.xyzw)` leaves source slot
2 unused (type invalid) and is emitted; bits 21..22 of the emitted word, the
type field of slot 2, hold 2 and not 0. -/
theorem C16_counterexample :
    (dp4_instr.src 2).type = VS_REG_TYPE_INVALID ∧
    (vs_emit_instr true [0, 0, 0, 0] dp4_instr 0).outcome = .emitted ∧
    instruction_extract (instruction_create_from_words
      (vs_emit_instr true [0, 0, 0, 0] dp4_instr 0).stream 4) (55 - 17 * 2) (56 - 17 * 2) = 2 ∧
    instruction_extract (instruction_create_from_words
      (vs_emit_instr true [0, 0, 0, 0] dp4_instr 0).stream 4) (55 - 17 * 2) (56 - 17 * 2) ≠ 0 := by
  refine ⟨by decide, by decide, by decide, by decide⟩

/-- C16 (amended): for every source slot `i` in 0..2, when `vs_emit_instr`
emits, the slot's 2-bit type field (bits `55 - 17 i` and `56 - 17 i`) holds 2 when
the slot is unused (type invalid), 1 for a temp, 2 for an attribute and 3 for a
constant, and the slot is not a varying; when the slot is a varying,
`vs_emit_instr` stops at an assertion and leaves the stream as it was. -/
theorem C16_type_field (stream : List Nat) (instr : vs_instr) (last : Int) (i : Nat)
    (hi : i < 3) :
    ((vs_emit_instr true stream instr last).outcome = .emitted → stream.length = 4 →
      instruction_extract (instruction_create_from_words
        (vs_emit_instr true stream instr last).stream 4) (55 - 17 * i) (56 - 17 * i) =
      (match (instr.src i).type with
        | VS_REG_TYPE_INVALID => 2
        | VS_REG_TYPE_TEMP => 1
        | VS_REG_TYPE_ATTR => 2
        | VS_REG_TYPE_CONST => 3
        | VS_REG_TYPE_VAR => 0) ∧
      (instr.src i).type ≠ VS_REG_TYPE_VAR) ∧
    ((instr.src i).type = VS_REG_TYPE_VAR →
      ∃ e, vs_emit_instr true stream instr last =
        { outcome := .assertion_failed e, stream := stream }) := by
  refine ⟨fun he hs => ?_, fun hv => ?_⟩
  · have hp := (outcome_emitted_iff stream instr last).mp he
    rw [emitted_field _ _ _ _ _ hp hs, field_type_slot _ _ _ hi]
    refine ⟨?_, fun c => not_pass_of_varying_source instr i hi c hp⟩
    cases (instr.src i).type <;> rfl
  · obtain ⟨e, he, _⟩ := vs_emit_instr_failed stream instr last
      (not_pass_of_varying_source instr i hi hv)
    exact ⟨e, he⟩

set_option maxRecDepth 100000 in
/-- C16 witness: in `dp4 r0.xyzw, v3.xyzw, -abs(c9.xyzw)` slot 1 is a constant
and its type field, bits 38..39, holds 3. -/
theorem C16_type_field_witness :
    instruction_extract (instruction_create_from_words
      (vs_emit_instr true [0, 0, 0, 0] dp4_instr 0).stream 4) (55 - 17 * 1) (56 - 17 * 1) = 3 ∧
    (dp4_instr.src 1).type ≠ VS_REG_TYPE_VAR :=
  (C16_type_field [0, 0, 0, 0] dp4_instr 0 1 (by decide)).1 (by decide) rfl

/-- C17: for every source slot `i` of an instruction `vs_emit_instr` emits, the
slot's register field (bits `57 - 17 i .. 62 - 17 i`) is 0 when the slot is a
constant or an attribute and is the descriptor's register index when the slot is
a temp with an index below 64; the index of a constant slot (below 256) is in
the constant-fetch field, bits 76..83, and the index of an attribute slot (below
16) in the attribute-fetch field, bits 72..75; a fetch field no slot uses is 0. -/
theorem C17_register_index (stream : List Nat) (instr : vs_instr) (last : Int) (i : Nat)
    (hi : i < 3) (he : (vs_emit_instr true stream instr last).outcome = .emitted)
    (hs : stream.length = 4) :
    (((instr.src i).type = VS_REG_TYPE_CONST ∨ (instr.src i).type = VS_REG_TYPE_ATTR) →
      instruction_extract (instruction_create_from_words
        (vs_emit_instr true stream instr last).stream 4) (57 - 17 * i) (62 - 17 * i) = 0) ∧
    ((instr.src i).type = VS_REG_TYPE_TEMP → 0 ≤ (instr.src i).reg → (instr.src i).reg < 64 →
      instruction_extract (instruction_create_from_words
        (vs_emit_instr true stream instr last).stream 4) (57 - 17 * i) (62 - 17 * i) =
        (instr.src i).reg.toNat) ∧
    ((instr.src i).type = VS_REG_TYPE_CONST → 0 ≤ (instr.src i).reg → (instr.src i).reg < 256 →
      instruction_extract (instruction_create_from_words
        (vs_emit_instr true stream instr last).stream 4) 76 83 = (instr.src i).reg.toNat) ∧
    ((instr.src i).type = VS_REG_TYPE_ATTR → 0 ≤ (instr.src i).reg → (instr.src i).reg < 16 →
      instruction_extract (instruction_create_from_words
        (vs_emit_instr true stream instr last).stream 4) 72 75 = (instr.src i).reg.toNat) ∧
    ((∀ j, j < 3 → (instr.src j).type ≠ VS_REG_TYPE_CONST) →
      instruction_extract (instruction_create_from_words
        (vs_emit_instr true stream instr last).stream 4) 76 83 = 0) ∧
    ((∀ j, j < 3 → (instr.src j).type ≠ VS_REG_TYPE_ATTR) →
      instruction_extract (instruction_create_from_words
        (vs_emit_instr true stream instr last).stream 4) 72 75 = 0) := by
  have hp := (outcome_emitted_iff stream instr last).mp he
  simp only [emitted_field _ _ _ _ _ hp hs, field_reg_slot _ _ _ hi, field_constant,
    field_attribute]
  refine ⟨fun h => ?_, fun h h0 h1 => ?_, fun h h0 h1 => ?_, fun h h0 h1 => ?_, fun h => ?_,
    fun h => ?_⟩
  · unfold slot_reg
    rw [if_pos h]
    rfl
  · unfold slot_reg
    rw [if_neg (by rw [h]; decide), u32_of_nonneg _ h0 (by omega)]
    omega
  · rw [cfetch_of_pass instr hp i hi h h0, if_pos h0, u32_of_nonneg _ h0 (by omega)]
    omega
  · rw [afetch_of_pass instr hp i hi h h0, if_pos h0, u32_of_nonneg _ h0 (by omega)]
    omega
  · rw [cfetch_of_unused instr h]
    rfl
  · rw [afetch_of_unused instr h]
    rfl

set_option maxRecDepth 100000 in
/-- C17 witness: in `dp4 r0.xyzw, v3.xyzw, -abs(c9.xyzw)` slot 1 is the constant
`c9`: its register field, bits 40..45, is 0 and the constant-fetch field holds 9. -/
theorem C17_register_index_witness :
    instruction_extract (instruction_create_from_words
      (vs_emit_instr true [0, 0, 0, 0] dp4_instr 0).stream 4) (57 - 17 * 1) (62 - 17 * 1) = 0 ∧
    instruction_extract (instruction_create_from_words
      (vs_emit_instr true [0, 0, 0, 0] dp4_instr 0).stream 4) 76 83 = 9 :=
  ⟨(C17_register_index [0, 0, 0, 0] dp4_instr 0 1 (by decide) (by decide) rfl).1
      (Or.inl rfl),
    (C17_register_index [0, 0, 0, 0] dp4_instr 0 1 (by decide) (by decide) rfl).2.2.1
      rfl (by decide) (by decide)⟩

/-! ## The rendering of destinations and source operands -/

theorem reg_type_letters_letter (t : Nat) (h : t < 4) :
    reg_type_letters[t]? = some (type_letter t) := by
  interval_cases t <;> rfl

theorem vec_src_text_rendered (neg sx sy sz sw abs reg type attrib constant : Nat)
    (ht : type < 4) (hx : sx < 4) (hy : sy < 4) (hz : sz < 4) (hw : sw < 4)
    (hn : neg < 2) (ha : abs < 2) :
    vec_src_text neg sx sy sz sw abs reg type attrib constant =
      some (", " ++ rendered_src (neg = 1) (abs = 1) type reg attrib constant sx sy sz sw) := by
  unfold vec_src_text rendered_src
  simp only [reg_type_letters_letter _ ht, swizzle_get _ hx, swizzle_get _ hy, swizzle_get _ hz,
    swizzle_get _ hw, bind, Option.bind, pure, Option.some.injEq]
  have en : neg ≠ 0 ↔ neg = 1 := by omega
  have ea : abs ≠ 0 ↔ abs = 1 := by omega
  simp only [en, ea, decide_eq_true_eq, src_reg, dec, String.append_assoc]

/-- The operand block of slot `i` prints a comma, a blank and the operand by the
rendering rule of the specification. -/
theorem vec_operand_rendered (inst : instruction) (i : Nat) (hi : i < 3) :
    vec_operand inst i = some (", " ++ rendered_src_at inst i) := by
  interval_cases i
  · rw [vec_operand_zero, vec_src_text_rendered _ _ _ _ _ _ _ _ _ _
      (extract_lt_four inst 55) (u8_extract_lt_four inst 69) (u8_extract_lt_four inst 67)
      (u8_extract_lt_four inst 65) (u8_extract_lt_four inst 63)
      (by rw [u8_get_bit]; exact get_bit_lt_two _ _)
      (by rw [u8_get_bit]; exact get_bit_lt_two _ _)]
    unfold rendered_src_at
    simp only [u8_get_bit, u8_extract, Nat.reduceAdd, Nat.reduceLT, Nat.lt_add_one,
      Nat.reduceMul, Nat.reduceSub]
  · rw [vec_operand_one, vec_src_text_rendered _ _ _ _ _ _ _ _ _ _
      (extract_lt_four inst 38) (u8_extract_lt_four inst 52) (u8_extract_lt_four inst 50)
      (u8_extract_lt_four inst 48) (u8_extract_lt_four inst 46)
      (by rw [u8_get_bit]; exact get_bit_lt_two _ _)
      (by rw [u8_get_bit]; exact get_bit_lt_two _ _)]
    unfold rendered_src_at
    simp only [u8_get_bit, u8_extract, Nat.reduceAdd, Nat.reduceLT, Nat.lt_add_one,
      Nat.reduceMul, Nat.reduceSub]
  · rw [vec_operand_two, vec_src_text_rendered _ _ _ _ _ _ _ _ _ _
      (extract_lt_four inst 21) (u8_extract_lt_four inst 35) (u8_extract_lt_four inst 33)
      (u8_extract_lt_four inst 31) (u8_extract_lt_four inst 29)
      (by rw [u8_get_bit]; exact get_bit_lt_two _ _)
      (by rw [u8_get_bit]; exact get_bit_lt_two _ _)]
    unfold rendered_src_at
    simp only [u8_get_bit, u8_extract, Nat.reduceAdd, Nat.reduceLT, Nat.lt_add_one,
      Nat.reduceMul, Nat.reduceSub]

theorem mask_letters_append (a : String) (x y z w : Prop) [Decidable x] [Decidable y]
    [Decidable z] [Decidable w] :
    a ++ (if x then "x" else "") ++ (if y then "y" else "") ++ (if z then "z" else "") ++
      (if w then "w" else "") = a ++ mask_letters (decide x) (decide y) (decide z) (decide w) := by
  unfold mask_letters
  apply String.ext
  by_cases hx : x <;> by_cases hy : y <;> by_cases hz : z <;> by_cases hw : w <;>
  simp [hx, hy, hz, hw, String.data_append]

theorem dst_head (a b : Prop) [Decidable a] [Decidable b] (v r : String) :
    (if a then " o" ++ v else if b then " p0" else " r" ++ r) =
      " " ++ (if a then "o" ++ v else if b then "p0" else "r" ++ r) := by
  apply String.ext
  by_cases ha : a <;> by_cases hb : b <;> simp [ha, hb, String.data_append]

theorem dst_text_rendered (inst : instruction) (lo hi px py pz pw : Nat) :
    dst_text (instruction_get_bit inst 126) (instruction_get_bit inst 125)
      (instruction_extract inst 2 5) (instruction_extract inst lo hi)
      (instruction_get_bit inst 122) (instruction_get_bit inst px)
      (instruction_get_bit inst py) (instruction_get_bit inst pz)
      (instruction_get_bit inst pw) = rendered_dst_at inst lo hi px py pz pw := by
  unfold dst_text rendered_dst_at rendered_dst dec
  simp only [get_bit_ne_zero, decide_eq_true_eq]
  rw [mask_letters_append, dst_head]

set_option maxRecDepth 100000 in
/-- The words of `dp4_words` are those `vs_emit_instr` writes for `dp4_instr` with
the last flag set. -/
theorem dp4_words_emitted :
    (vs_emit_instr true [0, 0, 0, 0] dp4_instr 1).stream = dp4_words := by
  decide

/-- C18: for every word with a nonzero vector write mask, the vector op line
holds, after the destination, the operand of slot 0 alone when the opcode is
`mov`, `arl`, `frc` or `flr`; the operands of slots 0 and 1 when it is `mul`,
`dp3`, `dp4`, `min`, `max`, `slt`, `sge`, `seq`, `sgt`, `sle` or `sne`; and the
operands of slots 0, 1 and 2 when it is `mad` or an opcode outside the table. -/
theorem C18_vector_arity (inst : instruction) (hm : vec_mask_set inst) :
    ∃ p o0 o1 o2, pred_head inst = some p ∧ vec_operand inst 0 = some o0 ∧
      vec_operand inst 1 = some o1 ∧ vec_operand inst 2 = some o2 ∧
      (∀ name, (instruction_extract inst 86 90, name) ∈
          [(0x1, "mov"), (0xd, "arl"), (0xe, "frc"), (0xf, "flr")] →
        disassemble_vec inst = some ("      vec op\n" ++ "        " ++ p ++ name ++
          dst_text (instruction_get_bit inst 126) (instruction_get_bit inst 125)
            (instruction_extract inst 2 5) (instruction_extract inst 111 116)
            (instruction_get_bit inst 122) (instruction_get_bit inst 16)
            (instruction_get_bit inst 15) (instruction_get_bit inst 14)
            (instruction_get_bit inst 13) ++ o0 ++ "\n")) ∧
      (∀ name, (instruction_extract inst 86 90, name) ∈
          [(0x2, "mul"), (0x5, "dp3"), (0x7, "dp4"), (0x9, "min"), (0xa, "max"), (0xb, "slt"),
            (0xc, "sge"), (0x10, "seq"), (0x12, "sgt"), (0x13, "sle"), (0x14, "sne")] →
        disassemble_vec inst = some ("      vec op\n" ++ "        " ++ p ++ name ++
          dst_text (instruction_get_bit inst 126) (instruction_get_bit inst 125)
            (instruction_extract inst 2 5) (instruction_extract inst 111 116)
            (instruction_get_bit inst 122) (instruction_get_bit inst 16)
            (instruction_get_bit inst 15) (instruction_get_bit inst 14)
            (instruction_get_bit inst 13) ++ o0 ++ o1 ++ "\n")) ∧
      (∀ name, (instruction_extract inst 86 90 = 0x4 ∧ name = "mad") ∨
          (instruction_extract inst 86 90 ∉ [0x1, 0x2, 0x3, 0x4, 0x5, 0x7, 0x9, 0xa, 0xb, 0xc,
              0xd, 0xe, 0xf, 0x10, 0x12, 0x13, 0x14] ∧
            name = "unknown(" ++ hex (instruction_extract inst 86 90) ++ ")") →
        disassemble_vec inst = some ("      vec op\n" ++ "        " ++ p ++ name ++
          dst_text (instruction_get_bit inst 126) (instruction_get_bit inst 125)
            (instruction_extract inst 2 5) (instruction_extract inst 111 116)
            (instruction_get_bit inst 122) (instruction_get_bit inst 16)
            (instruction_get_bit inst 15) (instruction_get_bit inst 14)
            (instruction_get_bit inst 13) ++ o0 ++ o1 ++ o2 ++ "\n")) := by
  obtain ⟨p, hp⟩ := pred_head_some inst
  obtain ⟨o0, h0⟩ := vec_operand_some inst 0
  obtain ⟨o1, h1⟩ := vec_operand_some inst 1
  obtain ⟨o2, h2⟩ := vec_operand_some inst 2
  have hf := disassemble_vec_form inst p o0 o1 o2 hm hp h0 h1 h2
  refine ⟨p, o0, o1, o2, hp, h0, h1, h2, ?_, ?_, ?_⟩
  · intro name hn
    simp only [List.mem_cons, Prod.mk.injEq, List.mem_singleton, List.mem_nil_iff,
      or_false] at hn
    rcases hn with ⟨ho, hn⟩ | ⟨ho, hn⟩ | ⟨ho, hn⟩ | ⟨ho, hn⟩ <;>
    · rw [hf, ho, hn]
      simp [vec_opcode]
  · intro name hn
    simp only [List.mem_cons, Prod.mk.injEq, List.mem_singleton, List.mem_nil_iff,
      or_false] at hn
    rcases hn with ⟨ho, hn⟩ | ⟨ho, hn⟩ | ⟨ho, hn⟩ | ⟨ho, hn⟩ | ⟨ho, hn⟩ | ⟨ho, hn⟩ | ⟨ho, hn⟩ |
      ⟨ho, hn⟩ | ⟨ho, hn⟩ | ⟨ho, hn⟩ | ⟨ho, hn⟩ <;>
    · rw [hf, ho, hn]
      simp [vec_opcode]
  · intro name hn
    rcases hn with ⟨ho, hn⟩ | ⟨ho, hn⟩
    · rw [hf, ho, hn]
      simp [vec_opcode]
    · rw [hf, vec_opcode_unknown _ ho, hn]
      simp

set_option maxRecDepth 100000 in
/-- C18 witness: the word of `dp4 r0.xyzw, v3.xyzw, -abs(c9.xyzw)` has a nonzero
vector write mask and opcode 7, and its vector op line holds the operands of
slots 0 and 1. -/
theorem C18_vector_arity_witness :
    vec_mask_set (instruction_create_from_words dp4_words 4) ∧
    ∃ p o0 o1, pred_head (instruction_create_from_words dp4_words 4) = some p ∧
      vec_operand (instruction_create_from_words dp4_words 4) 0 = some o0 ∧
      vec_operand (instruction_create_from_words dp4_words 4) 1 = some o1 ∧
      disassemble_vec (instruction_create_from_words dp4_words 4) =
        some ("      vec op\n" ++ "        " ++ p ++ "dp4" ++
          dst_text (instruction_get_bit (instruction_create_from_words dp4_words 4) 126)
            (instruction_get_bit (instruction_create_from_words dp4_words 4) 125)
            (instruction_extract (instruction_create_from_words dp4_words 4) 2 5)
            (instruction_extract (instruction_create_from_words dp4_words 4) 111 116)
            (instruction_get_bit (instruction_create_from_words dp4_words 4) 122)
            (instruction_get_bit (instruction_create_from_words dp4_words 4) 16)
            (instruction_get_bit (instruction_create_from_words dp4_words 4) 15)
            (instruction_get_bit (instruction_create_from_words dp4_words 4) 14)
            (instruction_get_bit (instruction_create_from_words dp4_words 4) 13) ++
          o0 ++ o1 ++ "\n") := by
  refine ⟨by decide, ?_⟩
  obtain ⟨p, o0, o1, o2, hp, h0, h1, _, _, h, _⟩ :=
    C18_vector_arity (instruction_create_from_words dp4_words 4) (by decide)
  exact ⟨p, o0, o1, hp, h0, h1, h "dp4" (by decide)⟩

/-- C19: the destination of the vector op (destination field bits 111..116,
write-mask bits 16, 15, 14, 13) and of the scalar op (destination field bits
7..12, write-mask bits 20, 19, 18, 17) is printed, right after the mnemonic and
before the operands, as `o<v>` (`v` the varying field, bits 2..5) when bit 126
is set and the destination field is 63; otherwise as `p0` when bit 125 is set
and the destination field is 63; otherwise as `r<destination field>`; followed
by `_sat` exactly when bit 122 is set, a dot, and the letters `x`, `y`, `z`, `w` of
the set write-mask bits in that order. -/
theorem C19_destination (inst : instruction) :
    (vec_mask_set inst →
      ∃ p o0 o1 o2, pred_head inst = some p ∧ vec_operand inst 0 = some o0 ∧
        vec_operand inst 1 = some o1 ∧ vec_operand inst 2 = some o2 ∧
        disassemble_vec inst = some ("      vec op\n" ++ "        " ++ p ++
          (vec_opcode (instruction_extract inst 86 90)).1 ++
          rendered_dst_at inst 111 116 16 15 14 13 ++
          o0 ++ (if (vec_opcode (instruction_extract inst 86 90)).2.1 then o1 else "") ++
          (if (vec_opcode (instruction_extract inst 86 90)).2.2 then o2 else "") ++ "\n")) ∧
    (scalar_mask_set inst →
      ∃ p o, pred_head inst = some p ∧ scalar_operand inst = some o ∧
        disassemble_scalar inst = some ("      scalar op\n" ++ "        " ++ p ++
          scalar_opcode (instruction_extract inst 91 94) ++
          rendered_dst_at inst 7 12 20 19 18 17 ++ o)) := by
  obtain ⟨p, hp⟩ := pred_head_some inst
  refine ⟨fun hm => ?_, fun hm => ?_⟩
  · obtain ⟨o0, h0⟩ := vec_operand_some inst 0
    obtain ⟨o1, h1⟩ := vec_operand_some inst 1
    obtain ⟨o2, h2⟩ := vec_operand_some inst 2
    refine ⟨p, o0, o1, o2, hp, h0, h1, h2, ?_⟩
    rw [disassemble_vec_form inst p o0 o1 o2 hm hp h0 h1 h2, dst_text_rendered]
  · obtain ⟨o, ho⟩ := scalar_operand_some inst
    refine ⟨p, o, hp, ho, ?_⟩
    rw [disassemble_scalar_form inst p o hm hp ho, dst_text_rendered]

set_option maxRecDepth 100000 in
/-- C19 witness: the word of `dp4 r0.xyzw, v3.xyzw, -abs(c9.xyzw)` has a nonzero
vector write mask, its destination by the rule is ` r0.xyzw`, and that text
follows the mnemonic in the vector op line. -/
theorem C19_destination_witness :
    vec_mask_set (instruction_create_from_words dp4_words 4) ∧
    rendered_dst_at (instruction_create_from_words dp4_words 4) 111 116 16 15 14 13 =
      " r0.xyzw" ∧
    ∃ p o0 o1 o2, pred_head (instruction_create_from_words dp4_words 4) = some p ∧
      vec_operand (instruction_create_from_words dp4_words 4) 0 = some o0 ∧
      vec_operand (instruction_create_from_words dp4_words 4) 1 = some o1 ∧
      vec_operand (instruction_create_from_words dp4_words 4) 2 = some o2 ∧
      disassemble_vec (instruction_create_from_words dp4_words 4) =
        some ("      vec op\n" ++ "        " ++ p ++
          (vec_opcode (instruction_extract (instruction_create_from_words dp4_words 4) 86 90)).1 ++
          rendered_dst_at (instruction_create_from_words dp4_words 4) 111 116 16 15 14 13 ++
          o0 ++
          (if (vec_opcode (instruction_extract (instruction_create_from_words dp4_words 4)
            86 90)).2.1 then o1 else "") ++
          (if (vec_opcode (instruction_extract (instruction_create_from_words dp4_words 4)
            86 90)).2.2 then o2 else "") ++ "\n") :=
  ⟨by decide, by decide,
    (C19_destination (instruction_create_from_words dp4_words 4)).1 (by decide)⟩

/-- C20: for every word with a nonzero vector write mask, each source operand
the vector op line holds is, after a comma and a blank, the operand of its slot
`i` by the rendering rule `[-][abs(]<letter><index>.<4 swizzle letters>[)]`:
`-` iff the slot's negate bit is set, `abs(` and `)` iff abs bit `117 + i` is set,
the letter `r`, `v`, `c` for type field 1, 2, 3 and `?` for 0, the swizzle letters
the slot's four 2-bit selectors, and the index the attribute-fetch field for
type 2, the constant-fetch field for type 3 and the slot's register field
otherwise. -/
theorem C20_source_operand (inst : instruction) (hm : vec_mask_set inst) :
    (∀ i, i < 3 → vec_operand inst i = some (", " ++ rendered_src_at inst i)) ∧
    ∃ p, pred_head inst = some p ∧
      disassemble_vec inst = some ("      vec op\n" ++ "        " ++ p ++
        (vec_opcode (instruction_extract inst 86 90)).1 ++
        dst_text (instruction_get_bit inst 126) (instruction_get_bit inst 125)
          (instruction_extract inst 2 5) (instruction_extract inst 111 116)
          (instruction_get_bit inst 122) (instruction_get_bit inst 16)
          (instruction_get_bit inst 15) (instruction_get_bit inst 14)
          (instruction_get_bit inst 13) ++
        (", " ++ rendered_src_at inst 0) ++
        (if (vec_opcode (instruction_extract inst 86 90)).2.1
          then ", " ++ rendered_src_at inst 1 else "") ++
        (if (vec_opcode (instruction_extract inst 86 90)).2.2
          then ", " ++ rendered_src_at inst 2 else "") ++ "\n") := by
  obtain ⟨p, hp⟩ := pred_head_some inst
  exact ⟨fun i hi => vec_operand_rendered inst i hi, p, hp,
    disassemble_vec_form inst p _ _ _ hm hp (vec_operand_rendered inst 0 (by decide))
      (vec_operand_rendered inst 1 (by decide)) (vec_operand_rendered inst 2 (by decide))⟩

set_option maxRecDepth 100000 in
/-- C20 witness: in the word of `dp4 r0.xyzw, v3.xyzw, -abs(c9.xyzw)` the operand
of slot 1 by the rule is `-abs(c9.xyzw)`, and the operand block of slot 1 prints
it after a comma and a blank. -/
theorem C20_source_operand_witness :
    vec_mask_set (instruction_create_from_words dp4_words 4) ∧
    rendered_src_at (instruction_create_from_words dp4_words 4) 1 = "-abs(c9.xyzw)" ∧
    vec_operand (instruction_create_from_words dp4_words 4) 1 =
      some (", " ++ rendered_src_at (instruction_create_from_words dp4_words 4) 1) :=
  ⟨by decide, by decide,
    (C20_source_operand (instruction_create_from_words dp4_words 4) (by decide)).1 1
      (by decide)⟩

/-! ## The scalar op line -/

set_option maxRecDepth 100000 in
/-- The words of `rcp_words` and `add_words` are those `vs_emit_instr` writes for
`rcp_instr` and `add_instr`. -/
theorem rcp_add_words_emitted :
    (vs_emit_instr true [0, 0, 0, 0] rcp_instr 0).stream = rcp_words ∧
    (vs_emit_instr true [0, 0, 0, 0] add_instr 0).stream = add_words := by
  refine ⟨by decide, by decide⟩

theorem scalar_src_text_rendered (neg sx abs reg type attrib constant : Nat)
    (ht : type < 4) (hx : sx < 4) (hn : neg < 2) (ha : abs < 2) :
    scalar_src_text neg sx abs reg type attrib constant =
      some (", " ++ rendered_scalar_src (neg = 1) (abs = 1) type reg attrib constant sx ++
        "\n") := by
  unfold scalar_src_text rendered_scalar_src
  simp only [reg_type_letters_letter _ ht, swizzle_get _ hx, bind, Option.bind, pure,
    Option.some.injEq]
  have en : neg ≠ 0 ↔ neg = 1 := by omega
  have ea : abs ≠ 0 ↔ abs = 1 := by omega
  simp only [en, ea, decide_eq_true_eq, src_reg, dec, String.append_assoc]

/-- The operand block of the scalar op prints a comma, a blank, the operand by
the rendering rule of the specification and the end of the line. -/
theorem scalar_operand_rendered (inst : instruction) :
    scalar_operand inst = some (", " ++ rendered_scalar_src_at inst ++ "\n") := by
  unfold scalar_operand
  rw [scalar_src_text_rendered _ _ _ _ _ _ _ (extract_lt_four inst 21)
    (u8_extract_lt_four inst 35) (by rw [u8_get_bit]; exact get_bit_lt_two _ _)
    (by rw [u8_get_bit]; exact get_bit_lt_two _ _)]
  unfold rendered_scalar_src_at
  simp only [u8_get_bit, u8_extract, Nat.reduceAdd, Nat.reduceLT, Nat.lt_add_one]

/-- The four write-mask bits of an op, tested one by one as the disassembler
does, and the 4-bit write-mask field: one bit is set exactly when the field is
nonzero. -/
theorem mask_bits_iff (inst : instruction) (b : Nat) (hb : b + 3 < 32) :
    (instruction_get_bit inst (b + 3) ≠ 0 ∨ instruction_get_bit inst (b + 2) ≠ 0 ∨
      instruction_get_bit inst (b + 1) ≠ 0 ∨ instruction_get_bit inst b ≠ 0) ↔
    instruction_extract inst b (b + 3) ≠ 0 := by
  unfold instruction_get_bit instruction_extract
  by_cases hl : b + 3 < 32 * inst.bits.length
  · have h2 : b + 2 < 32 * inst.bits.length := by omega
    have h1 : b + 1 < 32 * inst.bits.length := by omega
    have h0 : b < 32 * inst.bits.length := by omega
    have e : b + 3 - b + 1 = 4 := by omega
    have e4 : extract_bits inst b 4 = (if bit_at inst (b + 3) then 8 else 0) +
        ((if bit_at inst (b + 2) then 4 else 0) + ((if bit_at inst (b + 1) then 2 else 0) +
          ((if bit_at inst b then 1 else 0) + 0))) := rfl
    have e1 : ∀ c, extract_bits inst c 1 = (if bit_at inst c then 1 else 0) + 0 :=
      fun c => rfl
    simp only [le_refl, true_and, hl, h2, h1, h0, if_true, Nat.sub_self, Nat.zero_add,
      Nat.le_add_right, e, e4, e1]
    generalize bit_at inst (b + 3) = x3
    generalize bit_at inst (b + 2) = x2
    generalize bit_at inst (b + 1) = x1
    generalize bit_at inst b = x0
    cases x3 <;> cases x2 <;> cases x1 <;> cases x0 <;> simp
  · have hz : inst.bits.length = 0 := by omega
    simp [hz]

/-- C21: for every word, one of the scalar write-mask bits 20, 19, 18, 17 is set
exactly when the field of bits 17..20 is nonzero; the scalar op block prints
nothing when none of them is set; when one is set it prints, whatever
the vector write mask is, the header line and one op line: the mnemonic of the
scalar opcode field (0 `cos`, 1 `mov`, 2 `rcp`, 4 `rsq`, 0xd `lg2`, 0xe `ex2`, 0xf
`sin`, anything else `unknown(<hex>)`), the destination, and exactly one source
operand, read from the third source slot (negate bit 37, abs bit 119, type bits
21..22, register bits 23..28). The text of an instruction is the text of the
vector op block, then that of the scalar op block, then the terminal marker. -/
theorem C21_scalar_op (inst : instruction) :
    (scalar_mask_set inst ↔ instruction_extract inst 17 20 ≠ 0) ∧
    (¬ scalar_mask_set inst → disassemble_scalar inst = some "") ∧
    (scalar_mask_set inst →
      ∃ p, pred_head inst = some p ∧
        ∀ name, (instruction_extract inst 91 94, name) ∈
              [(0x0, "cos"), (0x1, "mov"), (0x2, "rcp"), (0x4, "rsq"), (0xd, "lg2"),
                (0xe, "ex2"), (0xf, "sin")] ∨
            (instruction_extract inst 91 94 ∉ [0x0, 0x1, 0x2, 0x4, 0xd, 0xe, 0xf] ∧
              name = "unknown(" ++ hex (instruction_extract inst 91 94) ++ ")") →
          disassemble_scalar inst = some ("      scalar op\n" ++ "        " ++ p ++ name ++
            dst_text (instruction_get_bit inst 126) (instruction_get_bit inst 125)
              (instruction_extract inst 2 5) (instruction_extract inst 7 12)
              (instruction_get_bit inst 122) (instruction_get_bit inst 20)
              (instruction_get_bit inst 19) (instruction_get_bit inst 18)
              (instruction_get_bit inst 17) ++
            (", " ++ rendered_scalar_src_at inst ++ "\n"))) ∧
    (∃ v s, disassemble_vec inst = some v ∧ disassemble_scalar inst = some s ∧
      disassemble_ops inst = some (v ++ s ++ disassemble_done inst)) := by
  refine ⟨mask_bits_iff inst 17 (by decide), disassemble_scalar_absent inst, fun hm => ?_, ?_⟩
  · obtain ⟨p, hp⟩ := pred_head_some inst
    refine ⟨p, hp, fun name hn => ?_⟩
    rw [disassemble_scalar_form inst p _ hm hp (scalar_operand_rendered inst)]
    rcases hn with hn | ⟨ho, hn⟩
    · simp only [List.mem_cons, Prod.mk.injEq, List.mem_singleton, List.mem_nil_iff,
        or_false] at hn
      rcases hn with ⟨ho, hn⟩ | ⟨ho, hn⟩ | ⟨ho, hn⟩ | ⟨ho, hn⟩ | ⟨ho, hn⟩ | ⟨ho, hn⟩ |
        ⟨ho, hn⟩ <;>
      · rw [ho, hn]
        rfl
    · rw [scalar_opcode_unknown _ ho, hn]
  · obtain ⟨v, hv, _⟩ := disassemble_vec_some inst
    obtain ⟨s, hs, _⟩ := disassemble_scalar_some inst
    refine ⟨v, s, hv, hs, ?_⟩
    unfold disassemble_ops
    rw [hv, hs]
    rfl

set_option maxRecDepth 100000 in
/-- C21 witness: the word of the scalar-only `rcp r2.x, -abs(c9.x)` has a scalar
write-mask bit set and no vector write-mask bit; its scalar op line names `rcp`
and holds the one operand `-abs(c9.x)`. -/
theorem C21_scalar_op_witness :
    scalar_mask_set (instruction_create_from_words rcp_words 4) ∧
    ¬ vec_mask_set (instruction_create_from_words rcp_words 4) ∧
    rendered_scalar_src_at (instruction_create_from_words rcp_words 4) = "-abs(c9.x)" ∧
    ∃ p, pred_head (instruction_create_from_words rcp_words 4) = some p ∧
      disassemble_scalar (instruction_create_from_words rcp_words 4) =
        some ("      scalar op\n" ++ "        " ++ p ++ "rcp" ++
          dst_text (instruction_get_bit (instruction_create_from_words rcp_words 4) 126)
            (instruction_get_bit (instruction_create_from_words rcp_words 4) 125)
            (instruction_extract (instruction_create_from_words rcp_words 4) 2 5)
            (instruction_extract (instruction_create_from_words rcp_words 4) 7 12)
            (instruction_get_bit (instruction_create_from_words rcp_words 4) 122)
            (instruction_get_bit (instruction_create_from_words rcp_words 4) 20)
            (instruction_get_bit (instruction_create_from_words rcp_words 4) 19)
            (instruction_get_bit (instruction_create_from_words rcp_words 4) 18)
            (instruction_get_bit (instruction_create_from_words rcp_words 4) 17) ++
          (", " ++ rendered_scalar_src_at (instruction_create_from_words rcp_words 4) ++
            "\n")) := by
  refine ⟨by decide, by decide, by decide, ?_⟩
  obtain ⟨p, hp, h⟩ :=
    (C21_scalar_op (instruction_create_from_words rcp_words 4)).2.2.1 (by decide)
  exact ⟨p, hp, h "rcp" (Or.inl (by decide))⟩

/-! ## The destinations of an emitted word -/

theorem pred_head_emitted (instr : vs_instr) (last : Int) :
    pred_head (emit_bits instr last) = some "" := by
  unfold pred_head
  simp only [instruction_get_bit, u8_extract, Nat.reduceAdd, Nat.reduceLT, Nat.lt_add_one,
    field_pred, field_pneg, field_psx, field_psy, field_psz, field_psw]
  rfl

theorem vec_mask_set_emitted (instr : vs_instr) (last : Int) (hm : instr.vdst.mask ≠ 0)
    (h16 : instr.vdst.mask < 16) : vec_mask_set (emit_bits instr last) := by
  unfold vec_mask_set instruction_get_bit
  simp only [field_vwx, field_vwy, field_vwz, field_vww, if_neg hm]
  exact (mask_ne_zero _ h16).mpr hm

/-- The vector op line of an emitted word whose vector op is present and writes
a temp or a varying: the destination is the one of the descriptor. -/
theorem disassemble_vec_dst_emitted (instr : vs_instr) (last : Int)
    (hm : instr.vdst.mask ≠ 0) (hf : dst_fits instr.vdst)
    (ht : instr.vdst.type = VS_REG_TYPE_TEMP ∨ instr.vdst.type = VS_REG_TYPE_VAR) :
    ∃ o0 o1 o2, vec_operand (emit_bits instr last) 0 = some o0 ∧
      vec_operand (emit_bits instr last) 1 = some o1 ∧
      vec_operand (emit_bits instr last) 2 = some o2 ∧
      disassemble_vec (emit_bits instr last) = some ("      vec op\n" ++ "        " ++
        (vec_opcode (instr.vop % 32)).1 ++ expected_dst instr.vdst ++ o0 ++
        (if (vec_opcode (instr.vop % 32)).2.1 then o1 else "") ++
        (if (vec_opcode (instr.vop % 32)).2.2 then o2 else "") ++ "\n") := by
  obtain ⟨o0, h0⟩ := vec_operand_some (emit_bits instr last) 0
  obtain ⟨o1, h1⟩ := vec_operand_some (emit_bits instr last) 1
  obtain ⟨o2, h2⟩ := vec_operand_some (emit_bits instr last) 2
  refine ⟨o0, o1, o2, h0, h1, h2, ?_⟩
  rw [disassemble_vec_form _ "" o0 o1 o2 (vec_mask_set_emitted instr last hm hf.1)
    (pred_head_emitted instr last) h0 h1 h2]
  have hsatv : u32 (sat_of instr) % 2 = instr.vdst.sat.toNat := by
    unfold sat_of; rw [if_pos hm]; exact flag_bit _ hf.2.1
  have hd : dst_text ((if instr.vdst.type = VS_REG_TYPE_VAR then 1 else 0) % 2) 0
      ((if instr.vdst.type = VS_REG_TYPE_VAR then u32 instr.vdst.reg else 0) % 16)
      ((if instr.vdst.type = VS_REG_TYPE_TEMP then u32 instr.vdst.reg else 63) % 64)
      (u32 (sat_of instr) % 2) (instr.vdst.mask / 8 % 2) (instr.vdst.mask / 4 % 2)
      (instr.vdst.mask / 2 % 2) (instr.vdst.mask % 2) = expected_dst instr.vdst := by
    rcases ht with ht | ht
    · exact dst_text_temp _ _ _ _ _ hf ht hsatv rfl
    · exact dst_text_var _ _ _ hf ht hsatv rfl
  simp only [instruction_get_bit, field_write_varying, field_write_pred, field_varying,
    field_vreg, field_sat, field_vwx, field_vwy, field_vwz, field_vww, field_vop, if_neg hm, hd,
    String.append_empty]

/-- C22: for every instruction `vs_emit_instr` emits whose vector op is present
(write mask nonzero and below 16, saturate flag 0 or 1): when the destination is
a varying with index `n` below 16, the emitted word has bits 111..116 equal to
63, bit 126 set and bits 2..5 equal to `n`, and the vector op line of its
disassembly shows the destination `o<n>`; when the destination is a temp with
index `m` below 63, bit 126 is clear, bits 111..116 hold `m` and the line shows
`r<m>`. -/
theorem C22_vector_varying (stream : List Nat) (instr : vs_instr) (last : Int)
    (hs : stream.length = 4)
    (he : (vs_emit_instr true stream instr last).outcome = .emitted)
    (hm : instr.vdst.mask ≠ 0) (hf : dst_fits instr.vdst) :
    (instr.vdst.type = VS_REG_TYPE_VAR →
      instruction_extract (instruction_create_from_words
        (vs_emit_instr true stream instr last).stream 4) 111 116 = 63 ∧
      instruction_get_bit (instruction_create_from_words
        (vs_emit_instr true stream instr last).stream 4) 126 = 1 ∧
      instruction_extract (instruction_create_from_words
        (vs_emit_instr true stream instr last).stream 4) 2 5 = instr.vdst.reg.toNat ∧
      instr.vdst.reg.toNat < 16 ∧
      ∃ o0 o1 o2,
        disassemble_vec (instruction_create_from_words
          (vs_emit_instr true stream instr last).stream 4) =
        some ("      vec op\n" ++ "        " ++ (vec_opcode (instr.vop % 32)).1 ++
          (" o" ++ dec instr.vdst.reg.toNat ++ (if instr.vdst.sat ≠ 0 then "_sat" else "") ++
            "." ++ (if instr.vdst.mask / 8 % 2 ≠ 0 then "x" else "") ++
            (if instr.vdst.mask / 4 % 2 ≠ 0 then "y" else "") ++
            (if instr.vdst.mask / 2 % 2 ≠ 0 then "z" else "") ++
            (if instr.vdst.mask % 2 ≠ 0 then "w" else "")) ++ o0 ++
          (if (vec_opcode (instr.vop % 32)).2.1 then o1 else "") ++
          (if (vec_opcode (instr.vop % 32)).2.2 then o2 else "") ++ "\n")) ∧
    (instr.vdst.type = VS_REG_TYPE_TEMP →
      instruction_extract (instruction_create_from_words
        (vs_emit_instr true stream instr last).stream 4) 111 116 = instr.vdst.reg.toNat ∧
      instruction_get_bit (instruction_create_from_words
        (vs_emit_instr true stream instr last).stream 4) 126 = 0 ∧
      instr.vdst.reg.toNat < 63 ∧
      ∃ o0 o1 o2,
        disassemble_vec (instruction_create_from_words
          (vs_emit_instr true stream instr last).stream 4) =
        some ("      vec op\n" ++ "        " ++ (vec_opcode (instr.vop % 32)).1 ++
          (" r" ++ dec instr.vdst.reg.toNat ++ (if instr.vdst.sat ≠ 0 then "_sat" else "") ++
            "." ++ (if instr.vdst.mask / 8 % 2 ≠ 0 then "x" else "") ++
            (if instr.vdst.mask / 4 % 2 ≠ 0 then "y" else "") ++
            (if instr.vdst.mask / 2 % 2 ≠ 0 then "z" else "") ++
            (if instr.vdst.mask % 2 ≠ 0 then "w" else "")) ++ o0 ++
          (if (vec_opcode (instr.vop % 32)).2.1 then o1 else "") ++
          (if (vec_opcode (instr.vop % 32)).2.2 then o2 else "") ++ "\n")) := by
  have hp := (outcome_emitted_iff stream instr last).mp he
  rw [decode_emitted _ _ _ hp hs]
  unfold instruction_get_bit
  simp only [field_vreg, field_write_varying, field_varying, if_neg hm]
  refine ⟨fun ht => ?_, fun ht => ?_⟩
  · obtain ⟨h0, h1⟩ := hf.2.2.2 ht
    obtain ⟨o0, o1, o2, _, _, _, h⟩ :=
      disassemble_vec_dst_emitted instr last hm hf (Or.inr ht)
    refine ⟨?_, ?_, ?_, by omega, o0, o1, o2, ?_⟩
    · rw [ht]; rfl
    · rw [ht]; rfl
    · rw [if_pos ht, u32_of_nonneg _ h0 (by omega)]
      omega
    · rw [h]
      unfold expected_dst
      rw [if_pos ht]
  · obtain ⟨h0, h1⟩ := hf.2.2.1 ht
    obtain ⟨o0, o1, o2, _, _, _, h⟩ :=
      disassemble_vec_dst_emitted instr last hm hf (Or.inl ht)
    refine ⟨?_, ?_, by omega, o0, o1, o2, ?_⟩
    · rw [if_pos ht, u32_of_nonneg _ h0 (by omega)]
      omega
    · rw [ht]; rfl
    · rw [h]
      unfold expected_dst
      rw [if_neg (by rw [ht]; decide)]

set_option maxRecDepth 100000 in
/-- C22 witness: the vector-only `mov o3.xyzw, r1.xyzw` is emitted with bits
111..116 equal to 63, bit 126 set and bits 2..5 equal to 3; the vector-only
`mov r5.xyzw, r1.xyzw` with bits 111..116 equal to 5 and bit 126 clear. -/
theorem C22_vector_varying_witness :
    instruction_extract (instruction_create_from_words
      (vs_emit_instr true [0, 0, 0, 0] vector_varying_instr 0).stream 4) 111 116 = 63 ∧
    instruction_get_bit (instruction_create_from_words
      (vs_emit_instr true [0, 0, 0, 0] vector_varying_instr 0).stream 4) 126 = 1 ∧
    instruction_extract (instruction_create_from_words
      (vs_emit_instr true [0, 0, 0, 0] vector_varying_instr 0).stream 4) 2 5 = 3 ∧
    instruction_extract (instruction_create_from_words
      (vs_emit_instr true [0, 0, 0, 0] vector_temp_instr 0).stream 4) 111 116 = 5 ∧
    instruction_get_bit (instruction_create_from_words
      (vs_emit_instr true [0, 0, 0, 0] vector_temp_instr 0).stream 4) 126 = 0 :=
  ⟨((C22_vector_varying [0, 0, 0, 0] vector_varying_instr 0 rfl (by decide) (by decide)
      (by decide)).1 rfl).1,
    ((C22_vector_varying [0, 0, 0, 0] vector_varying_instr 0 rfl (by decide) (by decide)
      (by decide)).1 rfl).2.1,
    ((C22_vector_varying [0, 0, 0, 0] vector_varying_instr 0 rfl (by decide) (by decide)
      (by decide)).1 rfl).2.2.1,
    ((C22_vector_varying [0, 0, 0, 0] vector_temp_instr 0 rfl (by decide) (by decide)
      (by decide)).2 rfl).1,
    ((C22_vector_varying [0, 0, 0, 0] vector_temp_instr 0 rfl (by decide) (by decide)
      (by decide)).2 rfl).2.1⟩

set_option maxRecDepth 100000 in
/-- C23 (the code at the failing input): the scalar-only `mov o3.x, r1.x`, whose
scalar destination is varying 3, is emitted with bits 7..12 equal to 63 but with
bit 126 clear and bits 2..5 equal to 0, and its disassembly shows the
destination `r63`, not `o3`. In general, in every emitted word bit 126 and bits
2..5 are taken from the vector destination alone, and bit 126 is clear whenever
the vector op is absent, whatever the scalar destination is. -/
theorem C23_scalar_varying :
    (scalar_varying_instr.sdst.type = VS_REG_TYPE_VAR ∧ scalar_varying_instr.sdst.reg = 3 ∧
      scalar_varying_instr.sdst.mask ≠ 0 ∧ scalar_varying_instr.vdst.mask = 0 ∧
      (vs_emit_instr true [0, 0, 0, 0] scalar_varying_instr 0).outcome = .emitted ∧
      instruction_extract (instruction_create_from_words
        (vs_emit_instr true [0, 0, 0, 0] scalar_varying_instr 0).stream 4) 7 12 = 63 ∧
      instruction_get_bit (instruction_create_from_words
        (vs_emit_instr true [0, 0, 0, 0] scalar_varying_instr 0).stream 4) 126 = 0 ∧
      instruction_extract (instruction_create_from_words
        (vs_emit_instr true [0, 0, 0, 0] scalar_varying_instr 0).stream 4) 2 5 = 0 ∧
      disassemble_ops (instruction_create_from_words
          (vs_emit_instr true [0, 0, 0, 0] scalar_varying_instr 0).stream 4) =
        some "      scalar op\n        mov r63.x, r1.x\n") ∧
    (∀ (stream : List Nat) (instr : vs_instr) (last : Int), stream.length = 4 →
      (vs_emit_instr true stream instr last).outcome = .emitted →
      instruction_get_bit (instruction_create_from_words
        (vs_emit_instr true stream instr last).stream 4) 126 =
        (if instr.vdst.mask = 0 then 0
          else if instr.vdst.type = VS_REG_TYPE_VAR then 1 else 0) ∧
      instruction_extract (instruction_create_from_words
        (vs_emit_instr true stream instr last).stream 4) 2 5 =
        (if instr.vdst.type = VS_REG_TYPE_VAR then u32 instr.vdst.reg else 0) % 16) := by
  refine ⟨⟨by decide, by decide, by decide, by decide, by decide, by decide, by decide,
    by decide, by decide⟩, ?_⟩
  intro stream instr last hs he
  have hp := (outcome_emitted_iff stream instr last).mp he
  rw [decode_emitted _ _ _ hp hs]
  unfold instruction_get_bit
  rw [field_write_varying, field_varying]
  refine ⟨?_, rfl⟩
  by_cases hm : instr.vdst.mask = 0
  · rw [if_pos hm, if_pos hm]
  · rw [if_neg hm, if_neg hm]
    by_cases ht : instr.vdst.type = VS_REG_TYPE_VAR
    · rw [if_pos ht]
    · rw [if_neg ht]

/-! ## The predicate fields of an emitted word -/

theorem field_bit108 (instr : vs_instr) (last : Int) :
    instruction_extract (emit_bits instr last) 108 108 = 1 := by
  simp [emit_bits, fetch_last_bits, src_bits, emit_ops_bits, sat_varying_bits, vector_part,
    scalar_part, vector_bits, scalar_bits, emit_pred, emit_abs, instruction_set_bit,
    extract_ite, length_ite, length_insert, extract_insert_disjoint, extract_insert_sub,
    extract_zero, vs_reg_type.val]

theorem field_bit106 (instr : vs_instr) (last : Int) :
    instruction_extract (emit_bits instr last) 106 106 = 1 := by
  simp [emit_bits, fetch_last_bits, src_bits, emit_ops_bits, sat_varying_bits, vector_part,
    scalar_part, vector_bits, scalar_bits, emit_pred, emit_abs, instruction_set_bit,
    extract_ite, length_ite, length_insert, extract_insert_disjoint, extract_insert_sub,
    extract_zero, vs_reg_type.val]

set_option maxRecDepth 100000 in
/-- C24 counterexample: in the word emitted for `dp4 r0.xyzw, v3.xyzw,
-abs(c9.xyzw)` the predicate selectors at bits 102..103, 100..101 and 98..99 hold
1, 2 and 3: they select `y`, `z` and `w`, not component 0. -/
theorem C24_counterexample :
    (vs_emit_instr true [0, 0, 0, 0] dp4_instr 0).outcome = .emitted ∧
    instruction_extract (instruction_create_from_words
      (vs_emit_instr true [0, 0, 0, 0] dp4_instr 0).stream 4) 102 103 = 1 ∧
    instruction_extract (instruction_create_from_words
      (vs_emit_instr true [0, 0, 0, 0] dp4_instr 0).stream 4) 100 101 = 2 ∧
    instruction_extract (instruction_create_from_words
      (vs_emit_instr true [0, 0, 0, 0] dp4_instr 0).stream 4) 98 99 = 3 ∧
    ¬ (instruction_extract (instruction_create_from_words
        (vs_emit_instr true [0, 0, 0, 0] dp4_instr 0).stream 4) 102 103 = 0 ∧
      instruction_extract (instruction_create_from_words
        (vs_emit_instr true [0, 0, 0, 0] dp4_instr 0).stream 4) 100 101 = 0 ∧
      instruction_extract (instruction_create_from_words
        (vs_emit_instr true [0, 0, 0, 0] dp4_instr 0).stream 4) 98 99 = 0) := by
  refine ⟨by decide, by decide, by decide, by decide, by decide⟩

/-- C24 (amended): for every instruction `vs_emit_instr` emits, the predicate
fields of the emitted word are the same whatever the descriptor is: bit 109 is
clear, so the disassembler prints no predicate prefix; bits 108, 107 and 106 are
set; and the four selectors at bits 104..105, 102..103, 100..101 and 98..99 hold
0, 1, 2 and 3, the identity swizzle `x`, `y`, `z`, `w`. -/
theorem C24_predicate_fields (stream : List Nat) (instr : vs_instr) (last : Int)
    (hs : stream.length = 4)
    (he : (vs_emit_instr true stream instr last).outcome = .emitted) :
    instruction_get_bit (instruction_create_from_words
      (vs_emit_instr true stream instr last).stream 4) 109 = 0 ∧
    instruction_get_bit (instruction_create_from_words
      (vs_emit_instr true stream instr last).stream 4) 108 = 1 ∧
    instruction_get_bit (instruction_create_from_words
      (vs_emit_instr true stream instr last).stream 4) 107 = 1 ∧
    instruction_get_bit (instruction_create_from_words
      (vs_emit_instr true stream instr last).stream 4) 106 = 1 ∧
    instruction_extract (instruction_create_from_words
      (vs_emit_instr true stream instr last).stream 4) 104 105 = 0 ∧
    instruction_extract (instruction_create_from_words
      (vs_emit_instr true stream instr last).stream 4) 102 103 = 1 ∧
    instruction_extract (instruction_create_from_words
      (vs_emit_instr true stream instr last).stream 4) 100 101 = 2 ∧
    instruction_extract (instruction_create_from_words
      (vs_emit_instr true stream instr last).stream 4) 98 99 = 3 ∧
    pred_head (instruction_create_from_words
      (vs_emit_instr true stream instr last).stream 4) = some "" := by
  have hp := (outcome_emitted_iff stream instr last).mp he
  rw [decode_emitted _ _ _ hp hs]
  unfold instruction_get_bit
  exact ⟨field_pred _ _, field_bit108 _ _, field_pneg _ _, field_bit106 _ _, field_psx _ _,
    field_psy _ _, field_psz _ _, field_psw _ _, pred_head_emitted _ _⟩

set_option maxRecDepth 100000 in
/-- C24 witness: the word emitted for `dp4 r0.xyzw, v3.xyzw, -abs(c9.xyzw)` has
bit 109 clear and its selector at bits 98..99 holds 3. -/
theorem C24_predicate_fields_witness :
    instruction_get_bit (instruction_create_from_words
      (vs_emit_instr true [0, 0, 0, 0] dp4_instr 0).stream 4) 109 = 0 ∧
    instruction_extract (instruction_create_from_words
      (vs_emit_instr true [0, 0, 0, 0] dp4_instr 0).stream 4) 98 99 = 3 :=
  ⟨(C24_predicate_fields [0, 0, 0, 0] dp4_instr 0 rfl (by decide)).1,
    (C24_predicate_fields [0, 0, 0, 0] dp4_instr 0 rfl (by decide)).2.2.2.2.2.2.2.1⟩

/-! ## The operands of `add` -/

/-- Overwriting the fields of source slot 1 (bits 38..54 and abs bit 118) changes
no field outside them. -/
theorem extract_slot_one (inst : instruction) (v w lo hi : Nat)
    (h1 : hi < 38 ∨ 54 < lo) (h2 : hi < 118 ∨ 118 < lo) :
    instruction_extract (instruction_set_bit (instruction_insert inst 38 54 v) 118 w) lo hi =
      instruction_extract inst lo hi := by
  unfold instruction_set_bit
  rw [extract_insert_disjoint _ _ _ _ _ _ (by omega),
    extract_insert_disjoint _ _ _ _ _ _ (by omega)]

/-- C25: for every word with a nonzero vector write mask, when the vector opcode
is `add` (0x3) the vector op line holds exactly two source operands, those of
slot 0 and of slot 2, and the line is the same whatever bits 38..54 and abs bit
118, the fields of slot 1, hold; when the opcode is one of the other two-operand
opcodes (`mul`, `dp3`, `dp4`, `min`, `max`, `slt`, `sge`, `seq`, `sgt`, `sle`,
`sne`) the two operands are those of slot 0 and of slot 1. -/
theorem C25_add_operands (inst : instruction) (hm : vec_mask_set inst) :
    ∃ p o0 o1 o2, pred_head inst = some p ∧ vec_operand inst 0 = some o0 ∧
      vec_operand inst 1 = some o1 ∧ vec_operand inst 2 = some o2 ∧
      (instruction_extract inst 86 90 = 0x3 →
        disassemble_vec inst = some ("      vec op\n" ++ "        " ++ p ++ "add" ++
          dst_text (instruction_get_bit inst 126) (instruction_get_bit inst 125)
            (instruction_extract inst 2 5) (instruction_extract inst 111 116)
            (instruction_get_bit inst 122) (instruction_get_bit inst 16)
            (instruction_get_bit inst 15) (instruction_get_bit inst 14)
            (instruction_get_bit inst 13) ++ o0 ++ o2 ++ "\n") ∧
        ∀ v w, disassemble_vec
            (instruction_set_bit (instruction_insert inst 38 54 v) 118 w) =
          disassemble_vec inst) ∧
      (∀ name, (instruction_extract inst 86 90, name) ∈
          [(0x2, "mul"), (0x5, "dp3"), (0x7, "dp4"), (0x9, "min"), (0xa, "max"), (0xb, "slt"),
            (0xc, "sge"), (0x10, "seq"), (0x12, "sgt"), (0x13, "sle"), (0x14, "sne")] →
        disassemble_vec inst = some ("      vec op\n" ++ "        " ++ p ++ name ++
          dst_text (instruction_get_bit inst 126) (instruction_get_bit inst 125)
            (instruction_extract inst 2 5) (instruction_extract inst 111 116)
            (instruction_get_bit inst 122) (instruction_get_bit inst 16)
            (instruction_get_bit inst 15) (instruction_get_bit inst 14)
            (instruction_get_bit inst 13) ++ o0 ++ o1 ++ "\n")) := by
  obtain ⟨p, hp⟩ := pred_head_some inst
  obtain ⟨o0, h0⟩ := vec_operand_some inst 0
  obtain ⟨o1, h1⟩ := vec_operand_some inst 1
  obtain ⟨o2, h2⟩ := vec_operand_some inst 2
  have hf := disassemble_vec_form inst p o0 o1 o2 hm hp h0 h1 h2
  refine ⟨p, o0, o1, o2, hp, h0, h1, h2, fun ho => ⟨?_, fun v w => ?_⟩, ?_⟩
  · rw [hf, ho]
    simp [vec_opcode]
  · obtain ⟨q1, hq1⟩ := vec_operand_some
      (instruction_set_bit (instruction_insert inst 38 54 v) 118 w) 1
    have hm2 : vec_mask_set (instruction_set_bit (instruction_insert inst 38 54 v) 118 w) := by
      unfold vec_mask_set instruction_get_bit at hm ⊢
      simp only [extract_slot_one, Nat.reduceLT, or_true, true_or]
      exact hm
    have hp2 : pred_head (instruction_set_bit (instruction_insert inst 38 54 v) 118 w) =
        some p := by
      rw [← hp]
      unfold pred_head instruction_get_bit
      simp only [extract_slot_one, Nat.reduceLT, or_true, true_or]
    have h02 : vec_operand (instruction_set_bit (instruction_insert inst 38 54 v) 118 w) 0 =
        some o0 := by
      rw [← h0, vec_operand_zero, vec_operand_zero]
      unfold instruction_get_bit
      simp only [extract_slot_one, Nat.reduceLT, or_true, true_or]
    have h22 : vec_operand (instruction_set_bit (instruction_insert inst 38 54 v) 118 w) 2 =
        some o2 := by
      rw [← h2, vec_operand_two, vec_operand_two]
      unfold instruction_get_bit
      simp only [extract_slot_one, Nat.reduceLT, or_true, true_or]
    rw [disassemble_vec_form _ p o0 q1 o2 hm2 hp2 h02 hq1 h22, hf]
    unfold instruction_get_bit
    simp only [extract_slot_one, Nat.reduceLT, or_true, true_or, ho]
    simp [vec_opcode]
  · intro name hn
    simp only [List.mem_cons, Prod.mk.injEq, List.mem_singleton, List.mem_nil_iff,
      or_false] at hn
    rcases hn with ⟨ho, hn⟩ | ⟨ho, hn⟩ | ⟨ho, hn⟩ | ⟨ho, hn⟩ | ⟨ho, hn⟩ | ⟨ho, hn⟩ | ⟨ho, hn⟩ |
      ⟨ho, hn⟩ | ⟨ho, hn⟩ | ⟨ho, hn⟩ | ⟨ho, hn⟩ <;>
    · rw [hf, ho, hn]
      simp [vec_opcode]

set_option maxRecDepth 100000 in
/-- C25 witness: the word of `add r0.xyzw, r1.xyzw, c5.xyzw` has a nonzero vector
write mask and opcode 3; its operands of slots 0 and 2 are `, r1.xyzw` and
`, c5.xyzw`, and they are the two operands of its vector op line. -/
theorem C25_add_operands_witness :
    vec_mask_set (instruction_create_from_words add_words 4) ∧
    vec_operand (instruction_create_from_words add_words 4) 0 = some ", r1.xyzw" ∧
    vec_operand (instruction_create_from_words add_words 4) 2 = some ", c5.xyzw" ∧
    ∃ p o0 o2, pred_head (instruction_create_from_words add_words 4) = some p ∧
      vec_operand (instruction_create_from_words add_words 4) 0 = some o0 ∧
      vec_operand (instruction_create_from_words add_words 4) 2 = some o2 ∧
      disassemble_vec (instruction_create_from_words add_words 4) =
        some ("      vec op\n" ++ "        " ++ p ++ "add" ++
          dst_text (instruction_get_bit (instruction_create_from_words add_words 4) 126)
            (instruction_get_bit (instruction_create_from_words add_words 4) 125)
            (instruction_extract (instruction_create_from_words add_words 4) 2 5)
            (instruction_extract (instruction_create_from_words add_words 4) 111 116)
            (instruction_get_bit (instruction_create_from_words add_words 4) 122)
            (instruction_get_bit (instruction_create_from_words add_words 4) 16)
            (instruction_get_bit (instruction_create_from_words add_words 4) 15)
            (instruction_get_bit (instruction_create_from_words add_words 4) 14)
            (instruction_get_bit (instruction_create_from_words add_words 4) 13) ++
          o0 ++ o2 ++ "\n") := by
  refine ⟨by decide, by decide, by decide, ?_⟩
  obtain ⟨p, o0, o1, o2, hp, h0, _, h2, h, _⟩ :=
    C25_add_operands (instruction_create_from_words add_words 4) (by decide)
  exact ⟨p, o0, o2, hp, h0, h2, (h (by decide)).1⟩

/-! ## Symbol lookup by kind -/

theorem get_symbol_loop_eq (kind : glsl_kind) (index : Nat) (symbols : List cgc_symbol) :
    ∀ j, j ≤ index → get_symbol_loop kind index symbols j =
      (symbols.filter (fun s => decide (s.kind = kind)))[index - j]? := by
  induction symbols with
  | nil =>
    intro j _
    rfl
  | cons s rest ih =>
    intro j hj
    unfold get_symbol_loop
    by_cases hk : s.kind = kind
    · rw [if_pos hk, List.filter_cons_of_pos (by simpa using hk)]
      by_cases he : j = index
      · rw [if_pos he, he, Nat.sub_self, List.getElem?_cons_zero]
      · rw [if_neg he, ih (j + 1) (by omega)]
        have e : index - j = (index - (j + 1)) + 1 := by omega
        rw [e, List.getElem?_cons_succ]
    · rw [if_neg hk, List.filter_cons_of_neg (by simpa using hk)]
      exact ih j hj

/-- A shader that `shader_parse_symbols` has parsed with return value 0 holds as
many symbols as its `num_symbols` says. -/
theorem parsed_symbols_length (calloc_ok : Nat → Bool) (shader : cgc_shader) (r : parse_result)
    (h : shader_parse_symbols calloc_ok shader = .ok r) (h0 : r.ret = 0) :
    r.shader.symbols.length = r.shader.num_symbols := by
  obtain ⟨header, rs, _, h2, h3, h4, _⟩ := shader_parse_symbols_inv calloc_ok shader r h h0
  rw [h3, h4, List.length_map]
  exact (parse_loop_inv _ _ 0 rs h2).1

/-- C26: for every shader whose symbol array holds `num_symbols` symbols, every
kind and every index, `cgc_shader_get_symbol_by_kind` returns the symbol at
position `index` (counted from 0) of the list of the symbols of that kind in
table order, and returns `NULL` exactly when at most `index` symbols have that
kind; `cgc_shader_get_attribute`, `cgc_shader_get_uniform` and
`cgc_shader_get_constant` do so for the kinds attribute, uniform and constant. -/
theorem C26_symbol_by_kind (shader : cgc_shader) (kind : glsl_kind) (index : Nat)
    (hn : shader.symbols.length = shader.num_symbols) :
    cgc_shader_get_symbol_by_kind shader kind index =
      (shader.symbols.filter (fun s => decide (s.kind = kind)))[index]? ∧
    (cgc_shader_get_symbol_by_kind shader kind index = none ↔
      (shader.symbols.filter (fun s => decide (s.kind = kind))).length ≤ index) ∧
    cgc_shader_get_attribute shader index =
      (shader.symbols.filter (fun s => decide (s.kind = GLSL_KIND_ATTRIBUTE)))[index]? ∧
    cgc_shader_get_uniform shader index =
      (shader.symbols.filter (fun s => decide (s.kind = GLSL_KIND_UNIFORM)))[index]? ∧
    cgc_shader_get_constant shader index =
      (shader.symbols.filter (fun s => decide (s.kind = GLSL_KIND_CONSTANT)))[index]? := by
  have key : ∀ k, cgc_shader_get_symbol_by_kind shader k index =
      (shader.symbols.filter (fun s => decide (s.kind = k)))[index]? := by
    intro k
    unfold cgc_shader_get_symbol_by_kind
    rw [← hn, List.take_length, get_symbol_loop_eq k index shader.symbols 0 (Nat.zero_le _)]
    rfl
  refine ⟨key kind, ?_, key _, key _, key _⟩
  rw [key kind, List.getElem?_eq_none_iff]

set_option maxRecDepth 100000 in
/-- C26 witness: in a table holding attribute 0, uniform 1, attribute 2,
constant 3, uniform 4, the uniform of index 1 is the symbol at table position
4 and there is no uniform of index 2. -/
theorem C26_symbol_by_kind_witness :
    cgc_shader_get_uniform five_symbols_shader 1 = some (symbol_of GLSL_KIND_UNIFORM 4) ∧
    cgc_shader_get_symbol_by_kind five_symbols_shader GLSL_KIND_UNIFORM 2 = none :=
  ⟨(C26_symbol_by_kind five_symbols_shader GLSL_KIND_UNIFORM 1 rfl).2.2.2.1,
    (C26_symbol_by_kind five_symbols_shader GLSL_KIND_UNIFORM 2 rfl).2.1.mpr (by decide)⟩

end Grate
